import Mathlib

/-!
# FffGcodeWriter: layer planner and storage rewriters

A shallow embedding of `src/FffGcodeWriter.cpp` (namespace `cura`).

* `std::vector` is `List`, `push_back` is `· ++ [x]`, iterators are positions in the list.
* Member state of the writer (`layerCount`, the planner's current extruder and its recorded
  calls) is passed explicitly.
* `int`/`int32_t` values are `Int`; signed overflow is undefined behaviour in the source and is
  not modelled.  The one `int * unsigned int` product of the fan ramp is taken modulo `2 ^ 32`.
* A finite `double` (layer times, speeds, `fill_overlap`) is the rational it stands for.
  Every `double` operation the writer performs, all of them in the fan speed, rounds its
  exact result by `roundDouble` (IEEE 754 binary64, to nearest, ties to even); overflow to an
  infinity is excluded by bounds on the operands.  The conversion of a `double` to `int`
  truncates towards zero.
* An out-of-range `operator[]` makes the embedded function return `none`.
* A loop whose end the source does not bound (`while (true)` in `addWipeTower`, `while` in
  `calculateMeshOrder`) takes a bound on its iterations and returns `none` when it is hit.
* Functions that only add paths to a planner are embedded as the list of calls they make;
  functions that read the planner's extruder pass the planner along.
-/

namespace cura

/-! ## Data model -/

/-- A 2D point in integer micrometres. -/
abbrev Point := Int × Int

/-- An ordered sequence of points, closed implicitly. -/
abbrev Polygon := List Point

/-- A sequence of polygons, iterated in stored order. -/
abbrev Polygons := List Polygon

/-- Modelled from the spec: the `SkinPart` record declared in the slice-data header, which is
not part of the sources at hand. -/
structure SkinPart where
  outline : Polygons
  insets : List Polygons
  perimeterGaps : Polygons
deriving DecidableEq, Repr

/-- Modelled from the spec: the `SliceLayerPart` record of the slice-data header. -/
structure SliceLayerPart where
  outline : Polygons
  insets : List Polygons
  skin_parts : List SkinPart
  sparse_outline : List Polygons
  perimeterGaps : Polygons
deriving DecidableEq, Repr

/-- Modelled from the spec: the `SliceLayer` record of the slice-data header. -/
structure SliceLayer where
  parts : List SliceLayerPart
  openLines : Polygons
  isNewLayer : Bool
deriving DecidableEq, Repr

/-- Modelled from the spec: the `SliceMeshStorage` record of the slice-data header.  Of the
per-mesh settings the three that the writer reads through `mesh->settings` are kept;
`material_print_temperature` is `none` when `hasSetting` fails.  The per-region path configs
of a mesh are referred to by `ConfigRef`. -/
structure SliceMeshStorage where
  extruder_nr : Int
  magic_spiralize : Bool
  material_print_temperature : Option Int
  layers : List SliceLayer
deriving DecidableEq, Repr

/-- Modelled from the spec: the support record of `SliceDataStorage`. -/
structure SupportStorage where
  generated : Bool
  supportAreasPerLayer : List Polygons
deriving DecidableEq, Repr

/-- Modelled from the spec: the `SliceDataStorage` record of the slice-data header. -/
structure SliceDataStorage where
  meshes : List SliceMeshStorage
  support : SupportStorage
  skirt : Polygons
  oozeShield : List Polygons
  wipeTower : Polygons
  wipePoint : Point
  raftOutline : Polygons
  model_min : Int × Int × Int
  model_max : Int × Int × Int
deriving DecidableEq, Repr

/-! ## `mergeMeshes` -/

/-- Inner loop of `mergeMeshes` over `mesh->layers`: `idx` is `layer - mesh->layers.begin()`,
`meshIsFirst` is `mesh == storage.meshes.begin()`, `layers` the accumulated vector. -/
def mergeMeshes.copyLayers (meshIsFirst : Bool) :
    Nat → List SliceLayer → List SliceLayer → List SliceLayer
  | _, [], layers => layers
  | idx, layer :: rest, layers =>
    let newLayer := layer
    let newLayer :=
      if (idx = 0 ∧ meshIsFirst = false) ∨ newLayer.isNewLayer = true then
        { newLayer with isNewLayer := true }
      else newLayer
    mergeMeshes.copyLayers meshIsFirst (idx + 1) rest (layers ++ [newLayer])

/-- Outer loop of `mergeMeshes` over `storage.meshes`: `meshIdx` is
`mesh - storage.meshes.begin()`. -/
def mergeMeshes.collect : Nat → List SliceMeshStorage → List SliceLayer → List SliceLayer
  | _, [], layers => layers
  | meshIdx, mesh :: rest, layers =>
    mergeMeshes.collect (meshIdx + 1) rest
      (mergeMeshes.copyLayers (decide (meshIdx = 0)) 0 mesh.layers layers)

/-- The `while (storage.meshes.size() > 1)` loop of `mergeMeshes`: drop the last mesh and
append one copy of `supports` to the support areas.  The first argument bounds the number of
iterations; started at `storage.meshes.size()` it is never used up. -/
def mergeMeshes.dropMeshes (supports : List Polygons) :
    Nat → List SliceMeshStorage → List Polygons → List SliceMeshStorage × List Polygons
  | 0, meshes, areas => (meshes, areas)
  | left + 1, meshes, areas =>
    if 1 < meshes.length then
      mergeMeshes.dropMeshes supports left meshes.dropLast (areas ++ supports)
    else (meshes, areas)

/-- The final loop of `mergeMeshes`: push every collected layer onto the cleared vector. -/
def mergeMeshes.pushAll : List SliceLayer → List SliceLayer → List SliceLayer
  | [], out => out
  | layer :: rest, out => mergeMeshes.pushAll rest (out ++ [layer])

/-- Embedding of `FffGcodeWriter::mergeMeshes`.  `none` stands for the out-of-range `storage.meshes[0]`
of an empty mesh vector. -/
def mergeMeshes (storage : SliceDataStorage) : Option SliceDataStorage :=
  let meshCount := storage.meshes.length
  if meshCount = 1 then
    some storage
  else
    let layers := mergeMeshes.collect 0 storage.meshes []
    let supports := storage.support.supportAreasPerLayer
    let dropped :=
      mergeMeshes.dropMeshes supports storage.meshes.length storage.meshes supports
    match dropped.1 with
    | [] => none
    | mesh0 :: others =>
      some { storage with
        meshes := { mesh0 with layers := mergeMeshes.pushAll layers [] } :: others
        support := { storage.support with supportAreasPerLayer := dropped.2 } }

/-- Set `isNewLayer` on the first layer of a layer list, leaving everything else as it is. -/
def markFirst : List SliceLayer → List SliceLayer
  | [] => []
  | layer :: rest => { layer with isNewLayer := true } :: rest

/-- The merged layer list in the words of the specification: every mesh's layer list in mesh
order, the first layer of every mesh but the first flagged as a new layer. -/
def mergedLayersSpec : List SliceMeshStorage → List SliceLayer
  | [] => []
  | mesh :: rest => mesh.layers ++ (rest.map (fun m => markFirst m.layers)).flatten

/-! ## `stackLayerParts2` -/

/-- Body of the loop over `layer->parts` in `stackLayerParts2`, for the part at position
`index` of `layer`.  `none` stands for an out-of-range `storageContainer[index]`. -/
def stackLayerParts2.addPart (layer : SliceLayer) (index : Nat) (part : SliceLayerPart)
    (storageContainer : List (List SliceLayer)) : Option (List (List SliceLayer)) :=
  let storageContainer :=
    if index = storageContainer.length then storageContainer ++ [[]] else storageContainer
  let newLayer := layer
  let newLayer := { newLayer with parts := [] }
  let newLayer := { newLayer with parts := newLayer.parts ++ [part] }
  match storageContainer[index]? with
  | none => none
  | some bucket => some (storageContainer.set index (bucket ++ [newLayer]))

/-- The loop over `layer->parts` in `stackLayerParts2`, from position `index` on. -/
def stackLayerParts2.addParts (layer : SliceLayer) :
    Nat → List SliceLayerPart → List (List SliceLayer) → Option (List (List SliceLayer))
  | _, [], storageContainer => some storageContainer
  | index, part :: rest, storageContainer =>
    (stackLayerParts2.addPart layer index part storageContainer).bind
      (stackLayerParts2.addParts layer (index + 1) rest)

/-- The loop over the layers of one mesh in `stackLayerParts2`, filling `storageContainer`. -/
def stackLayerParts2.fillContainer :
    List SliceLayer → List (List SliceLayer) → Option (List (List SliceLayer))
  | [], storageContainer => some storageContainer
  | layer :: rest, storageContainer =>
    (stackLayerParts2.addParts layer 0 layer.parts storageContainer).bind
      (stackLayerParts2.fillContainer rest)

/-- The `ADD SUPPORT` loop of `stackLayerParts2`: `for (i = 1; i < size; i++)` append one copy
of `supports`.  The first argument bounds the number of iterations; started at `size` it is
never used up. -/
def stackLayerParts2.addSupport (supports : List Polygons) (size : Nat) :
    Nat → Nat → List Polygons → List Polygons
  | 0, _, areas => areas
  | left + 1, i, areas =>
    if i < size then stackLayerParts2.addSupport supports size left (i + 1) (areas ++ supports)
    else areas

/-- The loop over one stack when the stacks are written back: `idx` is
`layer - stack->begin()`, `stackIsFirst` is `stack == storageContainer.rbegin()`. -/
def stackLayerParts2.pushStack (stackIsFirst : Bool) :
    Nat → List SliceLayer → List SliceLayer → List SliceLayer
  | _, [], out => out
  | idx, layer :: rest, out =>
    let layer :=
      if idx = 0 ∧ stackIsFirst = false then { layer with isNewLayer := true } else layer
    stackLayerParts2.pushStack stackIsFirst (idx + 1) rest (out ++ [layer])

/-- The loop over the stacks in reverse-iterator order: `ridx` is
`stack - storageContainer.rbegin()`. -/
def stackLayerParts2.pushStacks :
    Nat → List (List SliceLayer) → List SliceLayer → List SliceLayer
  | _, [], out => out
  | ridx, stack :: rest, out =>
    stackLayerParts2.pushStacks (ridx + 1) rest
      (stackLayerParts2.pushStack (decide (ridx = 0)) 0 stack out)

/-- Body of the loop over `mesh_index` in `stackLayerParts2`: the rewritten mesh and the
support areas after it. -/
def stackLayerParts2.stackMesh (mesh : SliceMeshStorage) (areas : List Polygons) :
    Option (SliceMeshStorage × List Polygons) :=
  (stackLayerParts2.fillContainer mesh.layers []).map fun storageContainer =>
    let supports := areas
    let areas := stackLayerParts2.addSupport supports storageContainer.length
      storageContainer.length 1 areas
    ({ mesh with layers := stackLayerParts2.pushStacks 0 storageContainer.reverse [] }, areas)

/-- The loop over `mesh_index` in `stackLayerParts2`: `done` are the meshes already
rewritten, the first argument those still to come. -/
def stackLayerParts2.meshLoop :
    List SliceMeshStorage → List SliceMeshStorage → List Polygons →
      Option (List SliceMeshStorage × List Polygons)
  | [], done, areas => some (done, areas)
  | mesh :: rest, done, areas =>
    (stackLayerParts2.stackMesh mesh areas).bind fun r =>
      stackLayerParts2.meshLoop rest (done ++ [r.1]) r.2

/-- Embedding of `FffGcodeWriter::stackLayerParts2`. -/
def stackLayerParts2 (storage : SliceDataStorage) : Option SliceDataStorage :=
  (stackLayerParts2.meshLoop storage.meshes [] storage.support.supportAreasPerLayer).map
    fun r => { storage with
      meshes := r.1
      support := { storage.support with supportAreasPerLayer := r.2 } }

/-- Stack `j` in the words of the specification: in original layer order, for each layer
having more than `j` parts, a copy of that layer whose parts are exactly its `j`-th part. -/
def stackOf (layers : List SliceLayer) (j : Nat) : List SliceLayer :=
  layers.filterMap fun layer => (layer.parts[j]?).map fun part => { layer with parts := [part] }

/-- The largest number of parts in any layer. -/
def maxParts (layers : List SliceLayer) : Nat :=
  (layers.map fun layer => layer.parts.length).foldr max 0

/-- The stacked layer list in the words of the specification:
`stack(k-1) ++ ... ++ stack(0)` with the first layer of every stack but `stack(k-1)`
flagged as a new layer. -/
def stackedLayersSpec (layers : List SliceLayer) : List SliceLayer :=
  ((List.range (maxParts layers)).reverse.map fun j =>
    if j + 1 = maxParts layers then stackOf layers j else markFirst (stackOf layers j)).flatten

/-! ## `calculateMeshOrder` -/

/-- A `SliceMeshStorage*` into `storage.meshes`: the position it points at and the mesh found
there. -/
abbrev MeshPtr := Nat × SliceMeshStorage

/-- The `for (idx = 0; idx < add_list.size(); idx++)` loop of `calculateMeshOrder`.  On a
match the element is pushed onto `ret` and erased from `add_list`, and `idx--` followed by the
loop's `idx++` leaves `idx` where it is (unsigned wrap-around at 0 included).  The first
argument counts the iterations left, `add_list.size() - idx`, which every iteration lowers
by one. -/
def calculateMeshOrder.scan (add_extruder_nr : Int) :
    Nat → List MeshPtr → List MeshPtr → Nat → List MeshPtr × List MeshPtr
  | 0, ret, add_list, _ => (ret, add_list)
  | left + 1, ret, add_list, idx =>
    match add_list[idx]? with
    | none => (ret, add_list)
    | some mesh =>
      if mesh.2.extruder_nr = add_extruder_nr then
        calculateMeshOrder.scan add_extruder_nr left (ret ++ [mesh])
          (add_list.eraseIdx idx) idx
      else
        calculateMeshOrder.scan add_extruder_nr left ret add_list (idx + 1)

/-- The tail of the `while` body of `calculateMeshOrder`:
`if (add_list.size() > 0) add_extruder_nr = add_list[0]->...("extruder_nr")`. -/
def calculateMeshOrder.nextExtruder (add_extruder_nr : Int) : List MeshPtr → Int
  | [] => add_extruder_nr
  | first :: _ => first.2.extruder_nr

/-- The `while (add_list.size() > 0)` loop of `calculateMeshOrder`; the first argument bounds
the number of times the loop condition is evaluated, `none` meaning the bound was hit. -/
def calculateMeshOrder.loop :
    Nat → List MeshPtr → List MeshPtr → Int → Option (List MeshPtr)
  | 0, _, _, _ => none
  | fuel + 1, ret, add_list, add_extruder_nr =>
    if add_list.length > 0 then
      let r := calculateMeshOrder.scan add_extruder_nr add_list.length ret add_list 0
      let add_extruder_nr := calculateMeshOrder.nextExtruder add_extruder_nr r.2
      calculateMeshOrder.loop fuel r.1 r.2 add_extruder_nr
    else some ret

/-- Embedding of `FffGcodeWriter::calculateMeshOrder`.  The loop condition is evaluated at most
`storage.meshes.size() + 2` times: a first pass that may find no mesh on the current
extruder, then passes that each remove at least the head of `add_list`. -/
def calculateMeshOrder (storage : SliceDataStorage) (current_extruder : Int) :
    Option (List MeshPtr) :=
  calculateMeshOrder.loop (storage.meshes.length + 2) [] storage.meshes.enum current_extruder

/-- An order `out` of the pointers `l` in which the meshes of every extruder form one
contiguous block that keeps their order in `l`. -/
def ExtruderBlocks (l out : List MeshPtr) : Prop :=
  out.Perm l ∧ ∀ e : Int, ∃ pre post,
    out = pre ++ l.filter (fun p => decide (p.2.extruder_nr = e)) ++ post ∧
    (∀ p ∈ pre, p.2.extruder_nr ≠ e) ∧ (∀ p ∈ post, p.2.extruder_nr ≠ e)

/-! ## Settings -/

/-- The fill patterns of `getSettingAsFillMethod`; `Fill_None` reaches the `default` arms. -/
inductive EFillMethod where
  | Fill_Lines
  | Fill_Grid
  | Fill_Triangles
  | Fill_Concentric
  | Fill_ZigZag
  | Fill_None
deriving DecidableEq, Repr

/-- The G-code flavors the writer tells apart. -/
inductive EGCodeFlavor where
  | GCODE_FLAVOR_REPRAP
  | GCODE_FLAVOR_ULTIGCODE
  | GCODE_FLAVOR_BFB
deriving DecidableEq, Repr

/-- The values of `getSettingAsPlatformAdhesion`. -/
inductive EPlatformAdhesion where
  | Adhesion_None
  | Adhesion_Brim
  | Adhesion_Raft
  | Adhesion_Skirt
deriving DecidableEq, Repr

/-- Modelled from the spec: the settings lookup interface, as a record of the values the
writer reads.  Microns, counts, indices and the percentages assigned to `int` are `Int`;
seconds and the percentage read into a `double` (`fill_overlap`) are the rationals these
`double`s stand for.
`StackLayerParts` and `PrintMeshesSeperatly` stand for `hasSetting(..) && getSettingBoolean(..)`,
`fill_perimeter_gaps_nowhere` for `getSettingString("fill_perimeter_gaps") == "Nowhere"`,
`material_bed_temperature` is `none` when `hasSetting` fails.  The settings that only fill
in the numbers of a path config (speeds, line widths, flow) are left out. -/
structure Settings where
  material_bed_temperature : Option Int
  machine_start_gcode : String
  machine_end_gcode : String
  retraction_amount : Int
  speed_travel : Rat
  StackLayerParts : Bool
  PrintMeshesSeperatly : Bool
  machine_nozzle_gantry_distance : Int
  adhesion_type : EPlatformAdhesion
  layer_height : Int
  layer_height_0 : Int
  raft_base_thickness : Int
  raft_interface_thickness : Int
  raft_surface_thickness : Int
  raft_surface_layers : Int
  raft_airgap_layer_0 : Int
  raft_airgap : Int
  raft_base_linewidth : Int
  raft_line_spacing : Int
  raft_base_fan_speed : Int
  raft_interface_line_width : Int
  raft_interface_line_spacing : Int
  raft_surface_line_width : Int
  raft_surface_line_spacing : Int
  support_extruder_nr : Int
  support_line_distance : Int
  support_line_width : Int
  support_pattern : EFillMethod
  support_connect_zigzags : Bool
  retraction_combing : Bool
  magic_polygon_mode : Bool
  magic_spiralize : Bool
  cool_lift_head : Bool
  skin_alternate_rotation : Bool
  top_layers : Int
  bottom_layers : Int
  infill_line_width : Int
  infill_line_distance : Int
  fill_overlap : Rat
  fill_pattern : EFillMethod
  top_bottom_pattern : EFillMethod
  fill_perimeter_gaps_nowhere : Bool
  wall_overlap_avoid_enabled : Bool
  wall_line_count : Int
  wall_line_width_x : Int
  wipe_tower_size : Int
  cool_min_layer_time : Rat
  cool_min_layer_time_fan_speed_max : Rat
  cool_min_speed : Rat
  cool_fan_speed_min : Int
  cool_fan_speed_max : Int
  cool_fan_full_layer : Int

/-! ## Machine arithmetic -/

/-- Conversion of an `int` to `unsigned int`. -/
def toUnsigned (x : Int) : Int := x % 2 ^ 32

/-- Conversion of an `unsigned int` value to `int`. -/
def toSigned (u : Int) : Int := if u % 2 ^ 32 < 2 ^ 31 then u % 2 ^ 32 else u % 2 ^ 32 - 2 ^ 32

/-- Conversion of a `double` to `int`: truncation towards zero. -/
def truncToInt (q : Rat) : Int := if 0 ≤ q then ⌊q⌋ else ⌈q⌉

/-- Round to the nearest integer, a tie going to the even neighbour. -/
def roundHalfEven (t : Rat) : Int :=
  let f := ⌊t⌋
  if t - f < 1 / 2 then f
  else if 1 / 2 < t - f then f + 1
  else if f % 2 = 0 then f else f + 1

/-- The exponent of the spacing of the `double` values around a magnitude `t > 0`: 52 below
the binary exponent of `t`, and no lower than `-1074`, the spacing of the subnormal values. -/
def ulpExponent (t : Rat) : Int := max (Int.log 2 t) (-1022) - 52

/-- A magnitude `t ≥ 0` rounded to the nearest multiple of the spacing at `t`, a tie going to
the even multiple. -/
def roundMagnitude (t : Rat) : Rat :=
  roundHalfEven (t / 2 ^ ulpExponent t) * 2 ^ ulpExponent t

/-- The `double` that an operation with the exact result `q` yields: IEEE 754 binary64
rounding to nearest, ties to even, with gradual underflow, the sign kept and the magnitude
rounded.  A finite `double` is the rational it stands for.  A magnitude of `2^1024` or more,
which binary64 turns into an infinity, is not cut off: where the rounding is used the operands
are kept far below. -/
def roundDouble (q : Rat) : Rat :=
  if q < 0 then -roundMagnitude (-q) else roundMagnitude q

/-- The fan speed of `processFanSpeedAndMinimalLayerTime` before the ramp over the first
layers, for the `double` `totalLayerTime`.  In
`fanSpeedMax - (fanSpeedMax-fanSpeedMin) * (totalLayerTime - minTime) / (maxTime - minTime)`
the two `int` values are converted to `double` exactly, each of the five `double` operations
rounds its result, and the assignment to the `int` truncates.  For times that are `double`s
the divisor is not zero where the branch is entered (see `interpolation_chain`). -/
def processFanSpeedAndMinimalLayerTime.interpolated (settings : Settings)
    (totalLayerTime : Rat) : Int :=
  let fanSpeed := settings.cool_fan_speed_min
  if totalLayerTime < settings.cool_min_layer_time then
    settings.cool_fan_speed_max
  else if totalLayerTime < settings.cool_min_layer_time_fan_speed_max then
    let minTime := settings.cool_min_layer_time
    let maxTime := settings.cool_min_layer_time_fan_speed_max
    let fanSpeedMin := settings.cool_fan_speed_min
    let fanSpeedMax := settings.cool_fan_speed_max
    truncToInt (roundDouble ((fanSpeedMax : Rat)
      - roundDouble (roundDouble (((fanSpeedMax - fanSpeedMin : Int) : Rat)
          * roundDouble (totalLayerTime - minTime))
        / roundDouble (maxTime - minTime))))
  else fanSpeed

/-- The value that `processFanSpeedAndMinimalLayerTime` passes to `writeFanCommand`, for the
times reported by `getTimes`.  The sum `travelTime + extrudeTime` is a `double` addition.  In
`fanSpeed * layer_nr / count` the `unsigned int layer_nr` makes the product and the quotient
unsigned. -/
def processFanSpeedAndMinimalLayerTime.fanSpeed (settings : Settings)
    (travelTime extrudeTime : Rat) (layer_nr : Nat) : Int :=
  let totalLayerTime := roundDouble (travelTime + extrudeTime)
  let fanSpeed := processFanSpeedAndMinimalLayerTime.interpolated settings totalLayerTime
  if toSigned layer_nr < settings.cool_fan_full_layer then
    toSigned (toUnsigned (toUnsigned fanSpeed * layer_nr)
      / toUnsigned settings.cool_fan_full_layer)
  else fanSpeed

/-! ## `processLayerStartPos` -/

/-- The flag `storage.meshes[0].layers[layer_nr].isNewLayer`; `none` when out of range. -/
def layerFlag (storage : SliceDataStorage) (layer_nr : Nat) : Option Bool :=
  (storage.meshes[0]?).bind fun mesh => (mesh.layers[layer_nr]?).map fun layer =>
    layer.isNewLayer

/-- The local `isNewLayer` of `processLayerStartPos`: the flag of this layer or, for
`layer_nr > 0`, of the layer before. -/
def processLayerStartPos.isNewLayer (storage : SliceDataStorage) (layer_nr : Nat) :
    Option Bool :=
  (layerFlag storage layer_nr).bind fun isNewLayer =>
    if isNewLayer = false ∧ layer_nr > 0 then
      (layerFlag storage (layer_nr - 1)).map fun before =>
        if before = true then true else isNewLayer
    else some isNewLayer

/-- A `GCodePathConfig*`: path configs are told apart by the object they point at; `mesh` is
the position of the owning mesh in `storage.meshes`. -/
inductive ConfigRef where
  | raft_base_config
  | raft_interface_config
  | raft_surface_config
  | skirt_config
  | support_config
  | inset0_config (mesh : Nat)
  | insetX_config (mesh : Nat)
  | skin_config (mesh : Nat)
  | infill_config (mesh : Nat) (idx : Nat)
deriving DecidableEq, Repr

/-- Calls made on a `GCodePlanner`, in the order they are made.  `setExtruder` carries the
value it returned; `markSpiralize` records `mesh->inset0_config.spiralize = true`, which acts
on a config the planner holds pointers to. -/
inductive PlannerCall where
  | setExtruder (extruder : Int) (changed : Bool)
  | setAlwaysRetract (alwaysRetract : Bool)
  | addTravel (p : Point)
  | addPolygonsByOptimizer (polygons : Polygons) (config : ConfigRef)
  | addLinesByOptimizer (polygons : Polygons) (config : ConfigRef)
  | forceMinimalLayerTime (minTime minimalSpeed travelTime extrudeTime : Rat)
  | markSpiralize (mesh : Nat)
deriving DecidableEq, Repr

/-- Calls on the motion writer `gcode`, in the order they are made.  `plannerWriteGCode` is
`gcodeLayer.writeGCode(..)`, which drains the calls recorded by a planner. -/
inductive GcodeCall where
  | preSetup
  | resetTotalPrintTime
  | writeLayerComment (layer_nr : Int)
  | writeComment (text : String)
  | writeCode (text : String)
  | writeLine (text : String)
  | finalize (maxObjectHeight : Int) (moveSpeed : Rat) (endCode : String)
  | setZ (z : Int)
  | setNextZPos (z : Int)
  | resetStartPosition
  | resetExtrusionValue
  | writeFanCommand (speed : Int)
  | writeRetraction (force : Bool)
  | writeMove (p : Point) (speed : Rat) (extrusion : Int)
  | writeTemperatureCommand (extruder : Int) (temperature : Int) (wait : Bool)
  | writeBedTemperatureCommand (temperature : Int) (wait : Bool)
  | plannerWriteGCode (calls : List PlannerCall) (liftHeadIfNeeded : Bool)
      (layerThickness : Int) (isNewLayer : Bool)
deriving DecidableEq, Repr

/-- What `processLayerStartPos` leaves behind: the member `layerCount`, the local `z`, the
local `isNewLayer`, and the calls made on `gcode`. -/
structure StartPos where
  layerCount : Int
  z : Int
  isNewLayer : Bool
  calls : List GcodeCall
deriving DecidableEq, Repr

/-- The local `z` of `processLayerStartPos`, for the value of `layerCount` after its
increment. -/
def processLayerStartPos.z (settings : Settings) (layerCount : Int) (layer_nr : Nat)
    (has_raft : Bool) : Int :=
  let z := settings.layer_height_0 + layerCount * settings.layer_height
  if has_raft = true then
    let z := z + (settings.raft_base_thickness + settings.raft_interface_thickness
      + settings.raft_surface_layers * settings.raft_surface_thickness)
    if layer_nr = 0 then z + settings.raft_airgap_layer_0 else z + settings.raft_airgap
  else z

/-- Embedding of `FffGcodeWriter::processLayerStartPos`.  `layerCount` is the member before the call,
`positionZ` the value of `gcode.getPositionZ()`. -/
def processLayerStartPos (settings : Settings)
    (isMergeMeshes isStackLayerParts : Bool) (storage : SliceDataStorage)
    (layerCount : Int) (positionZ : Int) (layer_nr : Nat) (has_raft : Bool) :
    Option StartPos :=
  (processLayerStartPos.isNewLayer storage layer_nr).map fun isNewLayer =>
    let layerCount := if isNewLayer = true then 0 else layerCount
    let layerCount := layerCount + 1
    let z := processLayerStartPos.z settings layerCount layer_nr has_raft
    if (isMergeMeshes = true ∨ isStackLayerParts = true) ∧ isNewLayer = true then
      { layerCount := layerCount, z := z, isNewLayer := isNewLayer
        calls := [GcodeCall.setNextZPos z, GcodeCall.setZ (positionZ + 10000)] }
    else
      { layerCount := layerCount, z := z, isNewLayer := isNewLayer
        calls := [GcodeCall.resetStartPosition, GcodeCall.setZ z] }

/-! ## External collaborators and the planner -/

/-- Modelled from the spec: the external collaborators the writer consumes as pure
functions.  A generator with an output parameter `result` takes the value of `result` before
the call and returns its value after it; `generateConcentricInfillDense` also returns the
value of `*in_between`.  `polyOrder start polys` is the `polyOrder` of a `PathOrderOptimizer`
seeded with `start`, fed `polys` and optimised; `getTimes` reads the times off the paths a
planner has recorded. -/
structure Externals where
  generateGridInfill : Polygons → Int → Polygons → Int → Int → Rat → Int → Polygons
  generateLineInfill : Polygons → Int → Polygons → Int → Int → Rat → Int → Polygons
  generateTriangleInfill : Polygons → Int → Polygons → Int → Int → Rat → Int → Polygons
  generateConcentricInfill : Polygons → Polygons → Int → Polygons
  generateZigZagInfill : Polygons → Polygons → Int → Int → Rat → Int → Bool → Bool → Polygons
  generateConcentricInfillDense : Polygons → Polygons → Polygons → Int → Bool →
    Polygons × Polygons
  offsetSafe : Polygons → Int → Int → Bool → Polygons
  bridgeAngle : Polygons → SliceLayer → Int
  offset : Polygons → Int → Polygons
  splitIntoParts : Polygons → List Polygons
  polyOrder : Point → List Polygon → List Nat
  closestPointTo : Polygon → Point → Point
  getExtruderOffset : Int → Point
  getTimes : List PlannerCall → Rat × Rat

/-- The values the getters of the motion writer return while one layer is planned. -/
structure GcodeView where
  positionXY : Point
  startPositionXY : Point
  positionZ : Int
  extruderNr : Int
deriving DecidableEq, Repr

/-- A `GCodePlanner`: its current extruder and the calls made on it so far. -/
structure GCodePlanner where
  currentExtruder : Int
  calls : List PlannerCall
deriving DecidableEq, Repr

/-- Record further calls on a planner. -/
def GCodePlanner.add (gcodeLayer : GCodePlanner) (calls : List PlannerCall) : GCodePlanner :=
  { gcodeLayer with calls := gcodeLayer.calls ++ calls }

/-- Modelled from the spec: `GCodePlanner::setExtruder`, declared in the planner header:
request a switch to `extruder`, reporting whether the extruder actually changed. -/
def GCodePlanner.setExtruder (gcodeLayer : GCodePlanner) (extruder : Int) :
    Bool × GCodePlanner :=
  if extruder = gcodeLayer.currentExtruder then
    (false, gcodeLayer.add [PlannerCall.setExtruder extruder false])
  else
    (true, { currentExtruder := extruder
             calls := gcodeLayer.calls ++ [PlannerCall.setExtruder extruder true] })

/-! ## `addWipeTower` -/

/-- The `while (true)` loop of `addWipeTower`; the first argument bounds the number of
offsets taken, `none` meaning the bound was hit (or `insets` was empty). -/
def addWipeTower.growInsets (ext : Externals) (offset : Int) :
    Nat → List Polygons → Option (List Polygons)
  | 0, _ => none
  | fuel + 1, insets =>
    (insets.getLast?).bind fun last =>
      let new_inset := ext.offset last offset
      if new_inset.length < 1 then some insets
      else addWipeTower.growInsets ext offset fuel (insets ++ [new_inset])

/-- The loop `for (n = 0; n < insets.size(); n++)` of `addWipeTower`, adding
`insets[insets.size() - 1 - n]`; the first argument counts the iterations left. -/
def addWipeTower.emitInsets (insets : List Polygons) : Nat → Nat → Option (List PlannerCall)
  | 0, _ => some []
  | left + 1, n =>
    (insets[insets.length - 1 - n]?).bind fun inset =>
      (addWipeTower.emitInsets insets left (n + 1)).map fun calls =>
        PlannerCall.addPolygonsByOptimizer inset (ConfigRef.insetX_config 0) :: calls

/-- The vector `insets` of `addWipeTower` when its `while (true)` loop is left: the starting
polygon followed by its successive offsets. -/
def addWipeTower.insets (ext : Externals) (settings : Settings) (fuel : Nat)
    (storage : SliceDataStorage) (layer_nr : Nat) : Option (List Polygons) :=
  let offset := -settings.wall_line_width_x
  let offset := if layer_nr > 0 then offset * 2 else offset
  let insets :=
    if layer_nr % 2 = 1 then [ext.offset storage.wipeTower (Int.tdiv offset 2)]
    else [storage.wipeTower]
  addWipeTower.growInsets ext offset fuel insets

/-- Embedding of `FffGcodeWriter::addWipeTower`; `fuel` bounds the inset loop. -/
def addWipeTower (ext : Externals) (settings : Settings) (fuel : Nat)
    (storage : SliceDataStorage) (gcodeLayer : GCodePlanner) (layer_nr : Nat)
    (prev_extruder : Int) : Option GCodePlanner :=
  if settings.wipe_tower_size < 1 then some gcodeLayer
  else
    (addWipeTower.insets ext settings fuel storage layer_nr).bind fun insets =>
      (addWipeTower.emitInsets insets insets.length 0).map fun calls =>
        gcodeLayer.add (calls ++ [PlannerCall.addTravel
          (storage.wipePoint - ext.getExtruderOffset prev_extruder
            + ext.getExtruderOffset gcodeLayer.currentExtruder)])

/-! ## Infill, insets and skin of one part -/

/-- The `switch` of `processMultiLayerInfill` for combine depth `n`. -/
def processMultiLayerInfill.fill (ext : Externals) (settings : Settings) (mesh : MeshPtr)
    (sparse_infill_line_distance : Int) (infill_overlap : Rat)
    (fillAngle extrusionWidth : Int) (n : Nat) (outline : Polygons) : List PlannerCall :=
  let fillPolygons : Polygons := []
  match settings.fill_pattern with
  | EFillMethod.Fill_Grid =>
    [PlannerCall.addLinesByOptimizer
      (ext.generateGridInfill outline 0 fillPolygons extrusionWidth
        (sparse_infill_line_distance * 2) infill_overlap fillAngle)
      (ConfigRef.infill_config mesh.1 n)]
  | EFillMethod.Fill_Lines =>
    [PlannerCall.addLinesByOptimizer
      (ext.generateLineInfill outline 0 fillPolygons extrusionWidth
        sparse_infill_line_distance infill_overlap fillAngle)
      (ConfigRef.infill_config mesh.1 n)]
  | EFillMethod.Fill_Triangles =>
    [PlannerCall.addLinesByOptimizer
      (ext.generateTriangleInfill outline 0 fillPolygons extrusionWidth
        (sparse_infill_line_distance * 3) infill_overlap 0)
      (ConfigRef.infill_config mesh.1 n)]
  | EFillMethod.Fill_Concentric =>
    [PlannerCall.addPolygonsByOptimizer
      (ext.generateConcentricInfill outline fillPolygons sparse_infill_line_distance)
      (ConfigRef.infill_config mesh.1 n)]
  | EFillMethod.Fill_ZigZag =>
    [PlannerCall.addPolygonsByOptimizer
      (ext.generateZigZagInfill outline fillPolygons extrusionWidth
        sparse_infill_line_distance infill_overlap fillAngle false false)
      (ConfigRef.infill_config mesh.1 n)]
  | EFillMethod.Fill_None => []

/-- The loop of `processMultiLayerInfill` over `part.sparse_outline[n]`, from `n` on. -/
def processMultiLayerInfill.loop (ext : Externals) (settings : Settings) (mesh : MeshPtr)
    (sparse_infill_line_distance : Int) (infill_overlap : Rat)
    (fillAngle extrusionWidth : Int) : Nat → List Polygons → List PlannerCall
  | _, [] => []
  | n, outline :: rest =>
    processMultiLayerInfill.fill ext settings mesh sparse_infill_line_distance infill_overlap
        fillAngle extrusionWidth n outline
      ++ processMultiLayerInfill.loop ext settings mesh sparse_infill_line_distance
        infill_overlap fillAngle extrusionWidth (n + 1) rest

/-- Embedding of `FffGcodeWriter::processMultiLayerInfill`: the calls it makes on the planner. -/
def processMultiLayerInfill (ext : Externals) (settings : Settings) (mesh : MeshPtr)
    (part : SliceLayerPart) (sparse_infill_line_distance : Int) (infill_overlap : Rat)
    (fillAngle extrusionWidth : Int) : List PlannerCall :=
  if sparse_infill_line_distance > 0 then
    processMultiLayerInfill.loop ext settings mesh sparse_infill_line_distance infill_overlap
      fillAngle extrusionWidth 1 (part.sparse_outline.drop 1)
  else []

/-- Embedding of `FffGcodeWriter::processSingleLayerInfill`: the calls it makes on the planner. -/
def processSingleLayerInfill (ext : Externals) (settings : Settings) (mesh : MeshPtr)
    (part : SliceLayerPart) (sparse_infill_line_distance : Int) (infill_overlap : Rat)
    (fillAngle extrusionWidth : Int) : List PlannerCall :=
  let infillPolygons : Polygons := []
  let infillLines : Polygons := []
  let filled : Polygons × Polygons :=
    match part.sparse_outline with
    | [] => (infillPolygons, infillLines)
    | outline :: _ =>
      if sparse_infill_line_distance > 0 then
        match settings.fill_pattern with
        | EFillMethod.Fill_Grid =>
          (infillPolygons, ext.generateGridInfill outline 0 infillLines extrusionWidth
            (sparse_infill_line_distance * 2) infill_overlap fillAngle)
        | EFillMethod.Fill_Lines =>
          (infillPolygons, ext.generateLineInfill outline 0 infillLines extrusionWidth
            sparse_infill_line_distance infill_overlap fillAngle)
        | EFillMethod.Fill_Triangles =>
          (infillPolygons, ext.generateTriangleInfill outline 0 infillLines extrusionWidth
            (sparse_infill_line_distance * 3) infill_overlap 0)
        | EFillMethod.Fill_Concentric =>
          (ext.generateConcentricInfill outline infillPolygons sparse_infill_line_distance,
            infillLines)
        | EFillMethod.Fill_ZigZag =>
          (infillPolygons, ext.generateZigZagInfill outline infillLines extrusionWidth
            sparse_infill_line_distance infill_overlap fillAngle false false)
        | EFillMethod.Fill_None => (infillPolygons, infillLines)
      else (infillPolygons, infillLines)
  [PlannerCall.addPolygonsByOptimizer filled.1 (ConfigRef.infill_config mesh.1 0),
   PlannerCall.addLinesByOptimizer filled.2 (ConfigRef.infill_config mesh.1 0)]

/-- The loop `for (insetNr = part.insets.size() - 1; insetNr > -1; insetNr--)` of
`processInsets`, walking the insets from the back: the argument lists the insets not yet
walked in descending index, so the index of its head is the length of its tail. -/
def processInsets.loop (mesh : MeshPtr) : List Polygons → List PlannerCall
  | [] => []
  | inset :: before =>
    let insetNr := before.length
    (if insetNr = 0 then
      PlannerCall.addPolygonsByOptimizer inset (ConfigRef.inset0_config mesh.1)
    else
      PlannerCall.addPolygonsByOptimizer inset (ConfigRef.insetX_config mesh.1))
      :: processInsets.loop mesh before

/-- Embedding of `FffGcodeWriter::processInsets`: the calls it makes on the planner. -/
def processInsets (settings : Settings) (mesh : MeshPtr) (part : SliceLayerPart)
    (layer_nr : Nat) : List PlannerCall :=
  if settings.wall_line_count > 0 then
    (if settings.magic_spiralize = true then
      (if (layer_nr : Int) ≥ settings.bottom_layers then [PlannerCall.markSpiralize mesh.1]
        else [])
      ++ (match part.insets with
          | [] => []
          | inset0 :: _ =>
            if (layer_nr : Int) = settings.bottom_layers then
              [PlannerCall.addPolygonsByOptimizer inset0 (ConfigRef.insetX_config mesh.1)]
            else [])
    else [])
    ++ processInsets.loop mesh part.insets.reverse
  else []

/-- The locals `skinPolygons` and `skinLines` of `processSkin`, the value of
`part.perimeterGaps` (which `generateConcentricInfillDense` may write to), and the calls made
on the planner so far. -/
structure SkinState where
  perimeterGaps : Polygons
  skinPolygons : Polygons
  skinLines : Polygons
  calls : List PlannerCall

/-- Body of the loop of `processSkin` over `part.skin_parts`.  `none` stands for an
out-of-range `mesh->layers[layer_nr-1]`. -/
def processSkin.skinPart (ext : Externals) (settings : Settings) (mesh : MeshPtr)
    (layer_nr : Nat) (infill_overlap : Rat) (fillAngle extrusionWidth : Int)
    (st : SkinState) (skin_part : SkinPart) : Option SkinState :=
  (if layer_nr > 0 then
      (mesh.2.layers[layer_nr - 1]?).map fun before => ext.bridgeAngle skin_part.outline before
    else some (-1)).map fun bridge =>
  if bridge > -1 then
    { st with skinLines := (ext.generateLineInfill skin_part.outline 0 st.skinLines
        extrusionWidth extrusionWidth infill_overlap bridge) }
  else
    match settings.top_bottom_pattern with
    | EFillMethod.Fill_Lines =>
      let calls := st.calls ++ skin_part.insets.map fun skin_perimeter =>
        PlannerCall.addPolygonsByOptimizer skin_perimeter (ConfigRef.skin_config mesh.1)
      match skin_part.insets.getLast? with
      | some back =>
        let skinLines := ext.generateLineInfill back (Int.tdiv (-extrusionWidth) 2)
          st.skinLines extrusionWidth extrusionWidth infill_overlap fillAngle
        let skinLines :=
          if settings.fill_perimeter_gaps_nowhere = false then
            ext.generateLineInfill skin_part.perimeterGaps 0 skinLines extrusionWidth
              extrusionWidth 0 fillAngle
          else skinLines
        { st with skinLines := skinLines, calls := calls }
      | none =>
        { st with
          skinLines := (ext.generateLineInfill skin_part.outline 0 st.skinLines
            extrusionWidth extrusionWidth infill_overlap fillAngle)
          calls := calls }
    | EFillMethod.Fill_Concentric =>
      let in_outline := ext.offsetSafe skin_part.outline (Int.tdiv (-extrusionWidth) 2)
        extrusionWidth settings.wall_overlap_avoid_enabled
      if settings.fill_perimeter_gaps_nowhere = false then
        let r := ext.generateConcentricInfillDense in_outline st.skinPolygons
          st.perimeterGaps extrusionWidth settings.wall_overlap_avoid_enabled
        { st with skinPolygons := r.1, perimeterGaps := r.2 }
      else st
    | _ => st

/-- The loop of `processSkin` over `part.skin_parts`. -/
def processSkin.loop (ext : Externals) (settings : Settings) (mesh : MeshPtr)
    (layer_nr : Nat) (infill_overlap : Rat) (fillAngle extrusionWidth : Int) :
    List SkinPart → SkinState → Option SkinState
  | [], st => some st
  | skin_part :: rest, st =>
    (processSkin.skinPart ext settings mesh layer_nr infill_overlap fillAngle extrusionWidth
      st skin_part).bind
      (processSkin.loop ext settings mesh layer_nr infill_overlap fillAngle extrusionWidth
        rest)

/-- Embedding of `FffGcodeWriter::processSkin`: the calls it makes on the planner. -/
def processSkin (ext : Externals) (settings : Settings) (mesh : MeshPtr)
    (part : SliceLayerPart) (layer_nr : Nat) (infill_overlap : Rat)
    (fillAngle extrusionWidth : Int) : Option (List PlannerCall) :=
  (processSkin.loop ext settings mesh layer_nr infill_overlap fillAngle extrusionWidth
    part.skin_parts
    { perimeterGaps := part.perimeterGaps, skinPolygons := [], skinLines := [],
      calls := [] }).map fun st =>
    let skinLines :=
      if settings.fill_perimeter_gaps_nowhere = false then
        ext.generateLineInfill st.perimeterGaps 0 st.skinLines extrusionWidth extrusionWidth
          0 fillAngle
      else st.skinLines
    st.calls ++
      [PlannerCall.addPolygonsByOptimizer st.skinPolygons (ConfigRef.skin_config mesh.1),
       PlannerCall.addLinesByOptimizer skinLines (ConfigRef.skin_config mesh.1)]

/-! ## `addMeshLayerToGCode` -/

/-- The polygons `layer->parts[partNr].insets[0][0]` fed to the part order optimiser; `none`
stands for a part without insets or with an empty outermost inset. -/
def addMeshLayerToGCode.firstPolygons : List SliceLayerPart → Option (List Polygon)
  | [] => some []
  | part :: rest =>
    ((part.insets[0]?).bind fun inset0 => inset0[0]?).bind fun poly =>
      (addMeshLayerToGCode.firstPolygons rest).map fun polys => poly :: polys

/-- Body of the loop of `addMeshLayerToGCode` over `partOrderOptimizer.polyOrder`: the calls
made on the planner for the part at `order_idx`, and the comments written to `gcode`. -/
def addMeshLayerToGCode.partCalls (ext : Externals) (settings : Settings)
    (storage : SliceDataStorage) (mesh : MeshPtr) (layer : SliceLayer) (layer_nr : Nat)
    (skin_alternate_rotation : Bool) (order_idx : Nat) :
    Option (List PlannerCall × List GcodeCall) :=
  (layer.parts[order_idx]?).bind fun part =>
    let fillAngle : Int := 45
    let fillAngle := if layer_nr % 2 = 1 then fillAngle + 90 else fillAngle
    let extrusionWidth := settings.infill_line_width
    let sparse_infill_line_distance := settings.infill_line_distance
    let infill_overlap := settings.fill_overlap
    (layerFlag storage layer_nr).bind fun isNewLayer =>
      (if isNewLayer = false then
        let skinAngle :=
          if skin_alternate_rotation = true ∧ (layer_nr / 2) % 2 = 1 then fillAngle - 45
          else fillAngle
        (processSkin ext settings mesh part layer_nr infill_overlap skinAngle
          extrusionWidth).map fun skin =>
          processMultiLayerInfill ext settings mesh part sparse_infill_line_distance
              infill_overlap fillAngle extrusionWidth
            ++ processSingleLayerInfill ext settings mesh part sparse_infill_line_distance
              infill_overlap fillAngle extrusionWidth
            ++ processInsets settings mesh part layer_nr
            ++ skin
      else some []).map fun calls =>
        (calls, [GcodeCall.writeComment "GOT TO HERE Y", GcodeCall.writeComment "GOT TO HERE YE"])

/-- The loop of `addMeshLayerToGCode` over `partOrderOptimizer.polyOrder`: the calls of each
part, in order, and the comments written to `gcode`. -/
def addMeshLayerToGCode.partLoop (ext : Externals) (settings : Settings)
    (storage : SliceDataStorage) (mesh : MeshPtr) (layer : SliceLayer) (layer_nr : Nat)
    (skin_alternate_rotation : Bool) :
    List Nat → Option (List (List PlannerCall) × List GcodeCall)
  | [] => some ([], [])
  | order_idx :: rest =>
    (addMeshLayerToGCode.partCalls ext settings storage mesh layer layer_nr
      skin_alternate_rotation order_idx).bind fun r =>
      (addMeshLayerToGCode.partLoop ext settings storage mesh layer layer_nr
        skin_alternate_rotation rest).map fun rs => (r.1 :: rs.1, r.2 ++ rs.2)

/-- The head of `addMeshLayerToGCode`, of `addMeshLayerToGCode_magicPolygonMode` and of the
extruder switch of `addSupportToGCode`: `setExtruder`, and `addWipeTower` when it reports a
change. -/
def switchExtruder (ext : Externals) (settings : Settings) (fuel : Nat)
    (storage : SliceDataStorage) (gcodeLayer : GCodePlanner) (layer_nr : Nat)
    (extruder : Int) : Option GCodePlanner :=
  let prevExtruder := gcodeLayer.currentExtruder
  let r := gcodeLayer.setExtruder extruder
  if r.1 = true then addWipeTower ext settings fuel storage r.2 layer_nr prevExtruder
  else some r.2

/-- Embedding of `FffGcodeWriter::addMeshLayerToGCode`: the planner after it and the comments it writes
to `gcode`. -/
def addMeshLayerToGCode (ext : Externals) (settings : Settings) (fuel : Nat)
    (view : GcodeView) (storage : SliceDataStorage) (mesh : MeshPtr)
    (gcodeLayer : GCodePlanner) (layer_nr : Nat) : Option (GCodePlanner × List GcodeCall) :=
  (switchExtruder ext settings fuel storage gcodeLayer layer_nr mesh.2.extruder_nr).bind
    fun gcodeLayer =>
    (mesh.2.layers[layer_nr]?).bind fun layer =>
      (addMeshLayerToGCode.firstPolygons layer.parts).bind fun polys =>
        let polyOrder := ext.polyOrder view.startPositionXY polys
        let skin_alternate_rotation : Bool :=
          settings.skin_alternate_rotation
            && (decide (settings.top_layers ≥ 4) || decide (settings.bottom_layers ≥ 4))
        (addMeshLayerToGCode.partLoop ext settings storage mesh layer layer_nr
          skin_alternate_rotation polyOrder).map fun r =>
          (gcodeLayer.add r.1.flatten, r.2)

/-- The two-point segments `outline[m-1], outline[m]` for `m` from 1 on. -/
def addMeshLayerToGCode_magicPolygonMode.segments : Polygon → Polygons
  | [] => []
  | [_] => []
  | a :: b :: rest => [a, b] :: addMeshLayerToGCode_magicPolygonMode.segments (b :: rest)

/-- The segments of one outline polygon, closed by the segment from its last to its first
point. -/
def addMeshLayerToGCode_magicPolygonMode.closed (poly : Polygon) : Polygons :=
  addMeshLayerToGCode_magicPolygonMode.segments poly
    ++ (match poly.getLast?, poly.head? with
        | some last, some first => [[last, first]]
        | _, _ => [])

/-- Embedding of `FffGcodeWriter::addMeshLayerToGCode_magicPolygonMode`. -/
def addMeshLayerToGCode_magicPolygonMode (ext : Externals) (settings : Settings) (fuel : Nat)
    (storage : SliceDataStorage) (mesh : MeshPtr) (gcodeLayer : GCodePlanner)
    (layer_nr : Nat) : Option GCodePlanner :=
  (switchExtruder ext settings fuel storage gcodeLayer layer_nr mesh.2.extruder_nr).bind
    fun gcodeLayer =>
    (mesh.2.layers[layer_nr]?).map fun layer =>
      let polygons : Polygons :=
        (layer.parts.map fun part =>
          (part.outline.map addMeshLayerToGCode_magicPolygonMode.closed).flatten).flatten
        ++ (layer.openLines.map addMeshLayerToGCode_magicPolygonMode.segments).flatten
      gcodeLayer.add
        ((if mesh.2.magic_spiralize = true then [PlannerCall.markSpiralize mesh.1] else [])
          ++ [PlannerCall.addPolygonsByOptimizer polygons (ConfigRef.inset0_config mesh.1)])

/-! ## `addSupportToGCode`, skirt and ooze shield -/

/-- The polygons `supportIslands[n][0]` fed to the island order optimiser; `none` stands for
an island without polygons. -/
def addSupportToGCode.firstPolygons : List Polygons → Option (List Polygon)
  | [] => some []
  | island :: rest =>
    (island[0]?).bind fun poly =>
      (addSupportToGCode.firstPolygons rest).map fun polys => poly :: polys

/-- Body of the island loop of `addSupportToGCode`: the calls made for one island. -/
def addSupportToGCode.island (ext : Externals) (settings : Settings) (layer_nr : Nat)
    (island : Polygons) : List PlannerCall :=
  let support_line_distance := settings.support_line_distance
  let extrusionWidth := settings.support_line_width
  let infill_overlap := settings.fill_overlap
  let support_pattern := settings.support_pattern
  let supportLines : Polygons := []
  let supportLines :=
    if support_line_distance > 0 then
      match support_pattern with
      | EFillMethod.Fill_Grid =>
        if support_line_distance > extrusionWidth * 4 then
          ext.generateGridInfill island 0 supportLines extrusionWidth
            (support_line_distance * 2) infill_overlap 0
        else
          ext.generateLineInfill island 0 supportLines extrusionWidth support_line_distance
            infill_overlap (if layer_nr % 2 = 1 then 0 else 90)
      | EFillMethod.Fill_Lines =>
        if layer_nr = 0 then
          ext.generateGridInfill island 0 supportLines extrusionWidth support_line_distance
            (0 + 150) 0
        else
          ext.generateLineInfill island 0 supportLines extrusionWidth support_line_distance
            0 0
      | EFillMethod.Fill_ZigZag =>
        if layer_nr = 0 then
          ext.generateGridInfill island 0 supportLines extrusionWidth support_line_distance
            (0 + 150) 0
        else
          ext.generateZigZagInfill island supportLines extrusionWidth support_line_distance
            0 0 settings.support_connect_zigzags true
      | _ => supportLines
    else supportLines
  (if support_pattern = EFillMethod.Fill_Grid
      ∨ (support_pattern = EFillMethod.Fill_ZigZag ∧ layer_nr = 0) then
    [PlannerCall.addPolygonsByOptimizer island ConfigRef.support_config]
  else [])
  ++ [PlannerCall.addLinesByOptimizer supportLines ConfigRef.support_config]

/-- The island loop `for (n = 0; n < supportIslands.size(); n++)` of `addSupportToGCode`
over `supportIslands[polyOrder[n]]`; the first argument counts the iterations left. -/
def addSupportToGCode.islandLoop (ext : Externals) (settings : Settings) (layer_nr : Nat)
    (supportIslands : List Polygons) (polyOrder : List Nat) :
    Nat → Nat → Option (List PlannerCall)
  | 0, _ => some []
  | left + 1, n =>
    ((polyOrder[n]?).bind fun idx => supportIslands[idx]?).bind fun island =>
      (addSupportToGCode.islandLoop ext settings layer_nr supportIslands polyOrder left
        (n + 1)).map fun calls =>
        addSupportToGCode.island ext settings layer_nr island ++ calls

/-- Embedding of `FffGcodeWriter::addSupportToGCode`. -/
def addSupportToGCode (ext : Externals) (settings : Settings) (fuel : Nat)
    (view : GcodeView) (storage : SliceDataStorage) (gcodeLayer : GCodePlanner)
    (layer_nr : Nat) : Option GCodePlanner :=
  if storage.support.generated = false then some gcodeLayer
  else
    (if settings.support_extruder_nr > -1 then
        switchExtruder ext settings fuel storage gcodeLayer layer_nr
          settings.support_extruder_nr
      else some gcodeLayer).bind fun gcodeLayer =>
    (storage.support.supportAreasPerLayer[layer_nr]?).bind fun support =>
      let supportIslands := ext.splitIntoParts support
      (addSupportToGCode.firstPolygons supportIslands).bind fun polys =>
        let polyOrder := ext.polyOrder view.positionXY polys
        (addSupportToGCode.islandLoop ext settings layer_nr supportIslands polyOrder
          supportIslands.length 0).map fun calls => gcodeLayer.add calls

/-- Embedding of `FffGcodeWriter::processSkirt`: the calls it makes on the planner. -/
def processSkirt (ext : Externals) (view : GcodeView) (storage : SliceDataStorage)
    (layer_nr : Nat) : List PlannerCall :=
  if layer_nr = 0 then
    (match storage.skirt.getLast? with
      | some last => [PlannerCall.addTravel (ext.closestPointTo last view.positionXY)]
      | none => [])
    ++ [PlannerCall.addPolygonsByOptimizer storage.skirt ConfigRef.skirt_config]
  else []

/-- Embedding of `FffGcodeWriter::processOozeShield`: the calls it makes on the planner; `none` stands
for an out-of-range `storage.oozeShield[layer_nr]`. -/
def processOozeShield (settings : Settings) (storage : SliceDataStorage) (layer_nr : Nat) :
    Option (List PlannerCall) :=
  if storage.oozeShield.length > 0 then
    (storage.oozeShield[layer_nr]?).map fun shield =>
      [PlannerCall.setAlwaysRetract true,
       PlannerCall.addPolygonsByOptimizer shield ConfigRef.skirt_config,
       PlannerCall.setAlwaysRetract (!settings.retraction_combing)]
  else some []

/-- Embedding of `FffGcodeWriter::processFanSpeedAndMinimalLayerTime`: the planner after
`forceMinimalLayerTime` and the fan command written to `gcode`. -/
def processFanSpeedAndMinimalLayerTime (ext : Externals) (settings : Settings)
    (gcodeLayer : GCodePlanner) (layer_nr : Nat) : GCodePlanner × List GcodeCall :=
  let times := ext.getTimes gcodeLayer.calls
  let travelTime := times.1
  let extrudeTime := times.2
  (gcodeLayer.add [PlannerCall.forceMinimalLayerTime settings.cool_min_layer_time
      settings.cool_min_speed travelTime extrudeTime],
   [GcodeCall.writeFanCommand
      (processFanSpeedAndMinimalLayerTime.fanSpeed settings travelTime extrudeTime layer_nr)])

/-! ## `processLayer` -/

/-- The loop of `processLayer` over `mesh_order`. -/
def processLayer.meshLoop (ext : Externals) (settings : Settings) (fuel : Nat)
    (view : GcodeView) (storage : SliceDataStorage) (layer_nr : Nat) :
    List MeshPtr → GCodePlanner → Option (GCodePlanner × List GcodeCall)
  | [], gcodeLayer => some (gcodeLayer, [])
  | mesh :: rest, gcodeLayer =>
    (if settings.magic_polygon_mode = true then
        (addMeshLayerToGCode_magicPolygonMode ext settings fuel storage mesh gcodeLayer
          layer_nr).map fun g => (g, [])
      else addMeshLayerToGCode ext settings fuel view storage mesh gcodeLayer layer_nr).bind
      fun r =>
        (processLayer.meshLoop ext settings fuel view storage layer_nr rest r.1).map
          fun rs => (rs.1, r.2 ++ rs.2)

/-- What `processLayer` leaves behind: the member `layerCount`, the calls made on the
layer's planner, and the calls made on `gcode` (the last of which drains the planner). -/
structure LayerResult where
  layerCount : Int
  plannerCalls : List PlannerCall
  gcode : List GcodeCall

/-- Embedding of `FffGcodeWriter::processLayer`.  The planner of the layer starts on the extruder the
motion writer is on.  Progress reporting, the command socket and the numbers filled into the
path configs are left out. -/
def processLayer (ext : Externals) (settings : Settings) (fuel : Nat)
    (isMergeMeshes isStackLayerParts : Bool) (view : GcodeView)
    (storage : SliceDataStorage) (layerCount : Int) (layer_nr : Nat) (has_raft : Bool) :
    Option LayerResult :=
  let gcodeLayer : GCodePlanner := { currentExtruder := view.extruderNr, calls := [] }
  let gcodeLayer :=
    if settings.retraction_combing = false then
      gcodeLayer.add [PlannerCall.setAlwaysRetract true]
    else gcodeLayer
  (processLayerStartPos settings isMergeMeshes isStackLayerParts storage layerCount
    view.positionZ layer_nr has_raft).bind fun startPos =>
  let gcodeLayer := gcodeLayer.add (processSkirt ext view storage layer_nr)
  let printSupportFirst : Bool :=
    storage.support.generated && decide (settings.support_extruder_nr > 0)
      && decide (settings.support_extruder_nr = gcodeLayer.currentExtruder)
  (if printSupportFirst = true then
      addSupportToGCode ext settings fuel view storage gcodeLayer layer_nr
    else some gcodeLayer).bind fun gcodeLayer =>
  (processOozeShield settings storage layer_nr).bind fun shield =>
  let gcodeLayer := gcodeLayer.add shield
  (calculateMeshOrder storage gcodeLayer.currentExtruder).bind fun mesh_order =>
  (processLayer.meshLoop ext settings fuel view storage layer_nr mesh_order gcodeLayer).bind
    fun meshes =>
  (if printSupportFirst = false then
      addSupportToGCode ext settings fuel view storage meshes.1 layer_nr
    else some meshes.1).bind fun gcodeLayer =>
  let fan := processFanSpeedAndMinimalLayerTime ext settings gcodeLayer layer_nr
  (if layer_nr > 0 then layerFlag storage (layer_nr - 1) else some false).map
    fun isNewLayer =>
    { layerCount := startPos.layerCount
      plannerCalls := fan.1.calls
      gcode :=
        [GcodeCall.writeLayerComment layer_nr] ++ startPos.calls ++ meshes.2 ++ fan.2
        ++ [GcodeCall.writeComment ("NEW LAYER: " ++ (if isNewLayer = true then "1" else "0")),
            GcodeCall.plannerWriteGCode fan.1.calls settings.cool_lift_head
              (if layer_nr > 0 then settings.layer_height else settings.layer_height_0)
              isNewLayer] }

/-! ## `processRaft` -/

/-- Body of the surface loop of `processRaft` for `raftSurfaceLayer`. -/
def processRaft.surfaceLayer (ext : Externals) (settings : Settings)
    (storage : SliceDataStorage) (raftSurfaceLayer : Int) : List GcodeCall :=
  let raftLines : Polygons := []
  let offset_from_poly_outline : Int := 0
  let raftLines := ext.generateLineInfill storage.raftOutline offset_from_poly_outline
    raftLines settings.raft_surface_line_width settings.raft_surface_line_spacing
    settings.fill_overlap (90 * raftSurfaceLayer)
  [GcodeCall.writeLayerComment (-1),
   GcodeCall.writeComment "RAFT",
   GcodeCall.setZ (settings.raft_base_thickness + settings.raft_interface_thickness
     + settings.raft_surface_thickness * raftSurfaceLayer),
   GcodeCall.plannerWriteGCode
     [PlannerCall.addLinesByOptimizer raftLines ConfigRef.raft_surface_config]
     false settings.raft_interface_thickness false]

/-- The loop `for (raftSurfaceLayer = 1; raftSurfaceLayer <= raft_surface_layers; ..)` of
`processRaft`; the first argument counts the iterations left. -/
def processRaft.surfaceLoop (ext : Externals) (settings : Settings)
    (storage : SliceDataStorage) : Nat → Int → List GcodeCall
  | 0, _ => []
  | left + 1, raftSurfaceLayer =>
    processRaft.surfaceLayer ext settings storage raftSurfaceLayer
      ++ processRaft.surfaceLoop ext settings storage left (raftSurfaceLayer + 1)

/-- Embedding of `FffGcodeWriter::processRaft`: the calls it makes on `gcode`.  Each of its planners
starts on the extruder the motion writer is on and is drained with the default
`isNewLayer = false`. -/
def processRaft (ext : Externals) (settings : Settings) (view : GcodeView)
    (storage : SliceDataStorage) : List GcodeCall :=
  let base : List GcodeCall :=
    let gcodeLayer : GCodePlanner := { currentExtruder := view.extruderNr, calls := [] }
    let gcodeLayer :=
      if settings.support_extruder_nr > 0 then
        (gcodeLayer.setExtruder settings.support_extruder_nr).2
      else gcodeLayer
    let gcodeLayer := gcodeLayer.add
      [PlannerCall.addPolygonsByOptimizer storage.raftOutline ConfigRef.raft_base_config]
    let raftLines : Polygons := []
    let offset_from_poly_outline : Int := 0
    let raftLines := ext.generateLineInfill storage.raftOutline offset_from_poly_outline
      raftLines settings.raft_base_linewidth settings.raft_line_spacing settings.fill_overlap 0
    let gcodeLayer := gcodeLayer.add
      [PlannerCall.addLinesByOptimizer raftLines ConfigRef.raft_base_config]
    [GcodeCall.writeLayerComment (-2),
     GcodeCall.writeComment "RAFT",
     GcodeCall.setZ settings.raft_base_thickness,
     GcodeCall.writeFanCommand settings.raft_base_fan_speed,
     GcodeCall.plannerWriteGCode gcodeLayer.calls false settings.raft_base_thickness false]
  let interface : List GcodeCall :=
    let raftLines : Polygons := []
    let offset_from_poly_outline : Int := 0
    let raftLines := ext.generateLineInfill storage.raftOutline offset_from_poly_outline
      raftLines settings.raft_interface_line_width settings.raft_interface_line_spacing
      settings.fill_overlap (if settings.raft_surface_layers > 0 then 45 else 90)
    [GcodeCall.writeLayerComment (-1),
     GcodeCall.writeComment "RAFT",
     GcodeCall.setZ (settings.raft_base_thickness + settings.raft_interface_thickness),
     GcodeCall.plannerWriteGCode
       [PlannerCall.addLinesByOptimizer raftLines ConfigRef.raft_interface_config]
       false settings.raft_interface_thickness false]
  base ++ interface
    ++ processRaft.surfaceLoop ext settings storage settings.raft_surface_layers.toNat 1

/-! ## `writeGCode` -/

/-- The members of the writer that outlive a call of `writeGCode`, with the parts of its
surroundings that the startup code reads: whether a command socket is attached, the G-code
flavor, and the constants `VERSION` and `MAX_EXTRUDERS`, which are defined outside the
sources at hand. -/
structure WriterState where
  fileNr : Int
  maxObjectHeight : Int
  isMergeMeshes : Bool
  isStackLayerParts : Bool
  layerCount : Int
  commandSocket : Bool
  flavor : EGCodeFlavor
  VERSION : String
  MAX_EXTRUDERS : Nat

/-- The two loops of `processStartingCode` over the meshes, writing the print temperature
of each mesh that has one above 0. -/
def processStartingCode.temperatures (wait : Bool) : List SliceMeshStorage → List GcodeCall
  | [] => []
  | mesh :: rest =>
    (match mesh.material_print_temperature with
      | some t =>
        if t > 0 then [GcodeCall.writeTemperatureCommand mesh.extruder_nr t wait] else []
      | none => [])
    ++ processStartingCode.temperatures wait rest

/-- Embedding of `FffGcodeWriter::processStartingCode`: the calls it makes on `gcode`. -/
def processStartingCode (settings : Settings) (state : WriterState)
    (storage : SliceDataStorage) : List GcodeCall :=
  (if state.flavor = EGCodeFlavor.GCODE_FLAVOR_ULTIGCODE then
    (if state.commandSocket = false then
      [GcodeCall.writeCode ";FLAVOR:UltiGCode\n;TIME:666\n;MATERIAL:666\n;MATERIAL2:-1\n"]
    else [])
  else
    (match settings.material_bed_temperature with
      | some t => if t > 0 then [GcodeCall.writeBedTemperatureCommand t true] else []
      | none => [])
    ++ processStartingCode.temperatures false storage.meshes
    ++ processStartingCode.temperatures true storage.meshes
    ++ [GcodeCall.writeCode settings.machine_start_gcode])
  ++ [GcodeCall.writeComment ("Generated with Cura_SteamEngine " ++ state.VERSION)]
  ++ (if state.flavor = EGCodeFlavor.GCODE_FLAVOR_BFB then
      [GcodeCall.writeComment "enable auto-retraction",
       GcodeCall.writeLine
         ("M227 S" ++ toString (Int.tdiv (settings.retraction_amount * 2560) 1000)
           ++ " P" ++ toString (Int.tdiv (settings.retraction_amount * 2560) 1000))]
    else [])

/-- Embedding of `FffGcodeWriter::processNextPrintObjectCode`: the calls it makes on `gcode`. -/
def processNextPrintObjectCode (settings : Settings) (state : WriterState)
    (view : GcodeView) (storage : SliceDataStorage) : List GcodeCall :=
  [GcodeCall.writeFanCommand 0,
   GcodeCall.resetExtrusionValue,
   GcodeCall.setZ (state.maxObjectHeight + 5000),
   GcodeCall.writeMove view.positionXY settings.speed_travel 0,
   GcodeCall.writeMove (storage.model_min.1, storage.model_min.2.1) settings.speed_travel 0]

/-- The loop of `finalize` over the extruders. -/
def finalize.temperatures : Nat → Int → List GcodeCall
  | 0, _ => []
  | left + 1, e =>
    GcodeCall.writeTemperatureCommand e 0 false :: finalize.temperatures left (e + 1)

/-- Embedding of `FffGcodeWriter::finalize`: the calls it makes on `gcode`. -/
def finalize (settings : Settings) (state : WriterState) : List GcodeCall :=
  GcodeCall.finalize state.maxObjectHeight settings.speed_travel settings.machine_end_gcode
    :: finalize.temperatures state.MAX_EXTRUDERS 0

/-- The layer loop of `writeGCode`: `layer_nr` runs up to `totalLayers`, the first argument
counts the iterations left, `views layer_nr` are the values the motion writer reports while
layer `layer_nr` is planned. -/
def writeGCode.layerLoop (ext : Externals) (settings : Settings) (fuel : Nat)
    (isMergeMeshes isStackLayerParts : Bool) (views : Nat → GcodeView)
    (storage : SliceDataStorage) (has_raft : Bool) :
    Nat → Nat → Int → Option (Int × List GcodeCall)
  | 0, _, layerCount => some (layerCount, [])
  | left + 1, layer_nr, layerCount =>
    (processLayer ext settings fuel isMergeMeshes isStackLayerParts (views layer_nr) storage
      layerCount layer_nr has_raft).bind fun r =>
      (writeGCode.layerLoop ext settings fuel isMergeMeshes isStackLayerParts views storage
        has_raft left (layer_nr + 1) r.layerCount).map fun rs => (rs.1, r.gcode ++ rs.2)

/-- How a call of `writeGCode` ends: by `exit(0)` in the clearance check, or by returning. -/
inductive Outcome where
  | exited (gcode : List GcodeCall)
  | returned (gcode : List GcodeCall) (state : WriterState) (storage : SliceDataStorage)

/-- Embedding of `FffGcodeWriter::writeGCode`.  `startView` are the values the motion writer reports
before the first layer, `views` those it reports while each layer is planned.  `none` stands
for an out-of-range access or an exhausted `fuel`.  The command socket, the time keeper and
the coasting and retraction configs are left out. -/
def writeGCode (ext : Externals) (settings : Settings) (fuel : Nat) (startView : GcodeView)
    (views : Nat → GcodeView) (state : WriterState) (storage : SliceDataStorage) :
    Option Outcome :=
  let gcode : List GcodeCall := [GcodeCall.preSetup, GcodeCall.resetTotalPrintTime]
  let gcode := gcode ++
    (if state.fileNr = 1 then processStartingCode settings state storage
      else processNextPrintObjectCode settings state startView storage)
  let state := { state with fileNr := state.fileNr + 1 }
  (if settings.StackLayerParts = true then
      (stackLayerParts2 storage).map fun st => ({ state with isStackLayerParts := true }, st)
    else some (state, storage)).bind fun r1 =>
  (if settings.PrintMeshesSeperatly = true then
      (mergeMeshes r1.2).map fun st => ({ r1.1 with isMergeMeshes := true }, st)
    else some r1).bind fun r2 =>
  let state := r2.1
  let storage := r2.2
  if (state.isMergeMeshes = true ∨ state.isStackLayerParts = true)
      ∧ settings.machine_nozzle_gantry_distance < storage.model_max.2.2 then
    some (Outcome.exited gcode)
  else
    (storage.meshes[0]?).bind fun mesh0 =>
    let totalLayers := mesh0.layers.length
    let has_raft : Bool := decide (settings.adhesion_type = EPlatformAdhesion.Adhesion_Raft)
    let gcode := gcode ++ (if has_raft = true then processRaft ext settings startView storage
      else [])
    let state := { state with layerCount := 0 }
    (writeGCode.layerLoop ext settings fuel state.isMergeMeshes state.isStackLayerParts views
      storage has_raft totalLayers 0 state.layerCount).map fun layers =>
      let gcode := gcode ++ layers.2
        ++ [GcodeCall.writeRetraction true, GcodeCall.writeFanCommand 0]
      let state := { state with
        layerCount := layers.1
        maxObjectHeight := max state.maxObjectHeight storage.model_max.2.2 }
      let gcode := gcode ++ (if state.commandSocket = true then finalize settings state else [])
      Outcome.returned gcode state storage

/-! ## Reading a planner's calls -/

/-- The path config a call adds paths under, if it adds paths. -/
def PlannerCall.pathConfig : PlannerCall → Option ConfigRef
  | PlannerCall.addPolygonsByOptimizer _ config => some config
  | PlannerCall.addLinesByOptimizer _ config => some config
  | _ => none

/-- Whether a call is a `setExtruder` that reported a change of extruder. -/
def PlannerCall.isSwitch : PlannerCall → Bool
  | PlannerCall.setExtruder _ true => true
  | _ => false

/-- In `calls`, every path added under the `inset0_config` of mesh `mesh` comes after every
path added under its `insetX_config`. -/
def InsetsOrdered (mesh : Nat) (calls : List PlannerCall) : Prop :=
  ∀ (i j : Nat) (ci cj : PlannerCall),
    calls[i]? = some ci → ci.pathConfig = some (ConfigRef.inset0_config mesh) →
    calls[j]? = some cj → cj.pathConfig = some (ConfigRef.insetX_config mesh) → j < i

/-- In `calls`, every `setExtruder` that reported a change is directly followed by the
wipe-tower insets of layer `layer_nr`, innermost first, and the wipe travel. -/
def WipeFollows (ext : Externals) (settings : Settings) (fuel : Nat)
    (storage : SliceDataStorage) (layer_nr : Nat) (calls : List PlannerCall) : Prop :=
  ∀ (pre post : List PlannerCall) (e : Int),
    calls = pre ++ PlannerCall.setExtruder e true :: post →
    ∃ prev insets rest,
      addWipeTower.insets ext settings fuel storage layer_nr = some insets ∧ insets ≠ [] ∧
      post = (insets.reverse.map fun inset =>
          PlannerCall.addPolygonsByOptimizer inset (ConfigRef.insetX_config 0))
        ++ PlannerCall.addTravel (storage.wipePoint - ext.getExtruderOffset prev
            + ext.getExtruderOffset e) :: rest

/-- The layer comments among the calls made on `gcode`, in the order they are written. -/
def layerComments (gcode : List GcodeCall) : List Int :=
  gcode.filterMap fun call =>
    match call with
    | GcodeCall.writeLayerComment layer_nr => some layer_nr
    | _ => none

/-! ## The layer counter, in the words of the specification -/

/-- Whether a call assigns `gcode.nextZPos`: the writer does so only in the lift branch of
`processLayerStartPos`, right before its `setZ(getPositionZ() + 10000)`. -/
def GcodeCall.isLift : GcodeCall → Bool
  | GcodeCall.setNextZPos _ => true
  | _ => false

/-- The number of clearance lifts among the calls made on `gcode`. -/
def liftCount (gcode : List GcodeCall) : Nat := gcode.countP GcodeCall.isLift

/-- The layers a clearance lift is written in: for every lift in `gcode`, the layer comment
written last before it, `current` being the layer comment in force at the start. -/
def liftLayers (current : Int) : List GcodeCall → List Int
  | [] => []
  | GcodeCall.writeLayerComment layer_nr :: rest => liftLayers layer_nr rest
  | GcodeCall.setNextZPos _ :: rest => current :: liftLayers current rest
  | _ :: rest => liftLayers current rest

/-- The new-layer state of `processLayerStartPos` along a list of layer flags: the entry for
a layer is its own flag or the flag of the layer before it, `before` being the flag of the
layer before the list. -/
def newLayerWindow (before : Bool) : List Bool → List Bool
  | [] => []
  | flag :: rest => (flag || before) :: newLayerWindow flag rest

/-! ## Sample data -/

/-- A square part at offset `x` with two insets. -/
def samplePart (x : Int) : SliceLayerPart :=
  { outline := [[(x, 0), (x + 10, 0), (x + 10, 10), (x, 10)]]
    insets := [[[(x, 0), (x + 10, 0), (x + 10, 10), (x, 10)]],
      [[(x + 1, 1), (x + 9, 1), (x + 9, 9), (x + 1, 9)]]]
    skin_parts := []
    sparse_outline := []
    perimeterGaps := [] }

/-- A layer with one square part per offset in `xs`. -/
def sampleLayer (xs : List Int) : SliceLayer :=
  { parts := xs.map samplePart, openLines := [], isNewLayer := false }

/-- A mesh on extruder `e` with the given layers. -/
def sampleMesh (e : Int) (layers : List SliceLayer) : SliceMeshStorage :=
  { extruder_nr := e, magic_spiralize := false, material_print_temperature := some 210,
    layers := layers }

/-- A storage holding the given meshes, with no support, skirt, shield or wipe tower. -/
def sampleStorage (meshes : List SliceMeshStorage) : SliceDataStorage :=
  { meshes := meshes
    support := { generated := false, supportAreasPerLayer := [] }
    skirt := []
    oozeShield := []
    wipeTower := []
    wipePoint := (0, 0)
    raftOutline := []
    model_min := (0, 0, 0)
    model_max := (100, 10, 10) }

/-- Two meshes, of two layers and one layer. -/
def twoMeshStorage : SliceDataStorage :=
  sampleStorage [sampleMesh 0 [sampleLayer [0], sampleLayer [0, 20]],
    sampleMesh 1 [sampleLayer [40]]]

/-- Three meshes on extruders 0, 1, 0, of one layer each. -/
def threeMeshStorage : SliceDataStorage :=
  sampleStorage [sampleMesh 0 [sampleLayer [0]], sampleMesh 1 [sampleLayer [20]],
    sampleMesh 0 [sampleLayer [40]]]

/-- Settings of a plain print: 0.1 mm layers on a 0.3 mm first layer, two walls, grid
infill, fan between 50 % and 100 % ramped in over the first two layers, no raft, no wipe
tower. -/
def sampleSettings : Settings :=
  { material_bed_temperature := some 60
    machine_start_gcode := "G28"
    machine_end_gcode := "M84"
    retraction_amount := 4500
    speed_travel := 150
    StackLayerParts := false
    PrintMeshesSeperatly := false
    machine_nozzle_gantry_distance := 55000
    adhesion_type := EPlatformAdhesion.Adhesion_None
    layer_height := 100
    layer_height_0 := 300
    raft_base_thickness := 300
    raft_interface_thickness := 270
    raft_surface_thickness := 270
    raft_surface_layers := 2
    raft_airgap_layer_0 := 220
    raft_airgap := 0
    raft_base_linewidth := 1000
    raft_line_spacing := 3000
    raft_base_fan_speed := 0
    raft_interface_line_width := 400
    raft_interface_line_spacing := 800
    raft_surface_line_width := 400
    raft_surface_line_spacing := 400
    support_extruder_nr := -1
    support_line_distance := 2660
    support_line_width := 400
    support_pattern := EFillMethod.Fill_Grid
    support_connect_zigzags := true
    retraction_combing := true
    magic_polygon_mode := false
    magic_spiralize := false
    cool_lift_head := false
    skin_alternate_rotation := false
    top_layers := 6
    bottom_layers := 6
    infill_line_width := 400
    infill_line_distance := 2000
    fill_overlap := 15
    fill_pattern := EFillMethod.Fill_Grid
    top_bottom_pattern := EFillMethod.Fill_Lines
    fill_perimeter_gaps_nowhere := false
    wall_overlap_avoid_enabled := false
    wall_line_count := 2
    wall_line_width_x := 400
    wipe_tower_size := 0
    cool_min_layer_time := 10
    cool_min_layer_time_fan_speed_max := 20
    cool_min_speed := 10
    cool_fan_speed_min := 50
    cool_fan_speed_max := 100
    cool_fan_full_layer := 2 }

/-- One mesh of three one-part layers. -/
def oneMeshStorage : SliceDataStorage :=
  sampleStorage [sampleMesh 0 [sampleLayer [0], sampleLayer [0], sampleLayer [0]]]

/-- Stand-ins for the external collaborators: every line generator appends the outline it
is given to `result`, offsetting yields the empty polygon set, the optimisers keep the
order they are fed, and a layer takes 1 s of travel and 3 s of extrusion. -/
def sampleExternals : Externals :=
  { generateGridInfill := fun outline _ result _ _ _ _ => result ++ outline
    generateLineInfill := fun outline _ result _ _ _ _ => result ++ outline
    generateTriangleInfill := fun outline _ result _ _ _ _ => result ++ outline
    generateConcentricInfill := fun outline result _ => result ++ outline
    generateZigZagInfill := fun outline result _ _ _ _ _ _ => result ++ outline
    generateConcentricInfillDense := fun outline result gaps _ _ => (result ++ outline, gaps)
    offsetSafe := fun outline _ _ _ => outline
    bridgeAngle := fun _ _ => -1
    offset := fun _ _ => []
    splitIntoParts := fun polys => polys.map fun poly => [poly]
    polyOrder := fun _ polys => List.range polys.length
    closestPointTo := fun _ p => p
    getExtruderOffset := fun _ => (0, 0)
    getTimes := fun _ => (1, 3) }

/-- The motion writer at rest at the origin on extruder 0. -/
def sampleView : GcodeView :=
  { positionXY := (0, 0), startPositionXY := (0, 0), positionZ := 0, extruderNr := 0 }

/-- One mesh with a single layer of two parts. -/
def twoPartMesh : SliceMeshStorage := sampleMesh 0 [sampleLayer [0, 20]]

/-- A storage holding `twoPartMesh`. -/
def twoPartStorage : SliceDataStorage := sampleStorage [twoPartMesh]

/-- A writer about to write its first object. -/
def sampleState : WriterState :=
  { fileNr := 1, maxObjectHeight := 0, isMergeMeshes := false, isStackLayerParts := false,
    layerCount := 0, commandSocket := false,
    flavor := EGCodeFlavor.GCODE_FLAVOR_REPRAP, VERSION := "DEV", MAX_EXTRUDERS := 16 }

/-- The settings `sampleSettings` with a wipe tower. -/
def wipeSettings : Settings := { sampleSettings with wipe_tower_size := 1 }

/-- The calls recorded by the planner of layer 0 of `threeMeshStorage` with a wipe tower,
the motion writer being on extruder 0. -/
def wipeLayerCalls : List PlannerCall :=
  ((processLayer sampleExternals wipeSettings 3 false false sampleView threeMeshStorage 0 0
    false).map fun r => r.plannerCalls).getD []

/-- The settings `sampleSettings` with a raft. -/
def raftSettings : Settings :=
  { sampleSettings with adhesion_type := EPlatformAdhesion.Adhesion_Raft }

/-- Two meshes of one layer each, every layer holding two parts, with one layer of support
areas. -/
def twoStackStorage : SliceDataStorage :=
  { sampleStorage [sampleMesh 0 [sampleLayer [0, 20]], sampleMesh 0 [sampleLayer [40, 60]]] with
    support := { generated := true
                 supportAreasPerLayer := [[[(0, 0), (5, 0), (5, 5)]]] } }

/-- The settings `sampleSettings` with both rewriters on and a gantry clearance equal to the
height of the sample models. -/
def stackSettings : Settings :=
  { sampleSettings with
    StackLayerParts := true, PrintMeshesSeperatly := true, machine_nozzle_gantry_distance := 10 }

/-- A mesh of three layers whose middle layer carries the new-layer flag. -/
def seamMesh : SliceMeshStorage :=
  sampleMesh 0 [sampleLayer [0], { sampleLayer [0] with isNewLayer := true }, sampleLayer [0]]

/-- A storage holding `seamMesh`. -/
def seamStorage : SliceDataStorage := sampleStorage [seamMesh]

/-- An offset for squares given by two opposite corners: both corners move by `-d`, and a
square that would turn inside out is dropped. -/
def shrinkOffset (polys : Polygons) (d : Int) : Polygons :=
  polys.filterMap fun poly =>
    match poly with
    | [p, q] =>
      if p.1 - d < q.1 + d then some [(p.1 - d, p.2 - d), (q.1 + d, q.2 + d)] else none
    | _ => none

/-- The stand-ins `sampleExternals` with `shrinkOffset` for the polygon offset. -/
def shrinkExternals : Externals := { sampleExternals with offset := shrinkOffset }

/-- The storage `threeMeshStorage` with a square wipe tower of 3 mm. -/
def towerStorage : SliceDataStorage :=
  { threeMeshStorage with wipeTower := [[(0, 0), (3000, 3000)]] }

/-- A mesh of five layers with one square part each at offset `x`. -/
def fiveLayerMesh (x : Int) : SliceMeshStorage :=
  sampleMesh 0 (List.replicate 5 (sampleLayer [x]))

/-- Two cubes of five layers each. -/
def twoCubesStorage : SliceDataStorage := sampleStorage [fiveLayerMesh 0, fiveLayerMesh 40]

/-- The settings `sampleSettings` with merge-meshes on. -/
def mergeSettings : Settings := { sampleSettings with PrintMeshesSeperatly := true }

/-- The calls on `gcode` of a merge-meshes run over `twoCubesStorage`. -/
def twoCubesGcode : List GcodeCall :=
  match writeGCode sampleExternals mergeSettings 3 sampleView (fun _ => sampleView) sampleState
    twoCubesStorage with
  | some (Outcome.returned gcode _ _) => gcode
  | _ => []

theorem setNew_of_isNew (l : SliceLayer) (h : l.isNewLayer = true) :
    { l with isNewLayer := true } = l := by
  cases l; simp_all

theorem copyLayers_succ (b : Bool) (idx : Nat) (ls acc : List SliceLayer) :
    mergeMeshes.copyLayers b (idx + 1) ls acc = acc ++ ls := by
  induction ls generalizing idx acc with
  | nil => simp [mergeMeshes.copyLayers]
  | cons l rest ih =>
    simp only [mergeMeshes.copyLayers]
    by_cases h : l.isNewLayer = true
    · simp [h, ih, setNew_of_isNew l h]
    · simp [h, ih]

theorem copyLayers_first (ls acc : List SliceLayer) :
    mergeMeshes.copyLayers true 0 ls acc = acc ++ ls := by
  cases ls with
  | nil => simp [mergeMeshes.copyLayers]
  | cons l rest =>
    simp only [mergeMeshes.copyLayers, copyLayers_succ]
    by_cases h : l.isNewLayer = true
    · simp [h, setNew_of_isNew l h]
    · simp [h]

theorem copyLayers_later (ls acc : List SliceLayer) :
    mergeMeshes.copyLayers false 0 ls acc = acc ++ markFirst ls := by
  cases ls with
  | nil => simp [mergeMeshes.copyLayers, markFirst]
  | cons l rest =>
    simp [mergeMeshes.copyLayers, copyLayers_succ, markFirst]

theorem collect_succ (idx : Nat) (ms : List SliceMeshStorage) (acc : List SliceLayer) :
    mergeMeshes.collect (idx + 1) ms acc
      = acc ++ (ms.map (fun m => markFirst m.layers)).flatten := by
  induction ms generalizing idx acc with
  | nil => simp [mergeMeshes.collect]
  | cons m rest ih =>
    simp [mergeMeshes.collect, ih, copyLayers_later]

theorem collect_eq_spec (ms : List SliceMeshStorage) :
    mergeMeshes.collect 0 ms [] = mergedLayersSpec ms := by
  cases ms with
  | nil => simp [mergeMeshes.collect, mergedLayersSpec]
  | cons m rest =>
    simp [mergeMeshes.collect, mergedLayersSpec, collect_succ, copyLayers_first]

theorem pushAll_eq (ls out : List SliceLayer) : mergeMeshes.pushAll ls out = out ++ ls := by
  induction ls generalizing out with
  | nil => simp [mergeMeshes.pushAll]
  | cons l rest ih => simp [mergeMeshes.pushAll, ih]

theorem length_markFirst (ls : List SliceLayer) : (markFirst ls).length = ls.length := by
  cases ls <;> simp [markFirst]

theorem length_mergedLayersSpec (ms : List SliceMeshStorage) :
    (mergedLayersSpec ms).length = (ms.map (fun m => m.layers.length)).sum := by
  cases ms with
  | nil => simp [mergedLayersSpec]
  | cons m rest =>
    simp only [mergedLayersSpec, List.length_append, List.map_cons, List.sum_cons]
    congr 1
    induction rest with
    | nil => simp
    | cons m2 rest ih => simp [length_markFirst, ih]

/-- The pop loop keeps exactly the first mesh and appends one copy of `supports` per mesh
dropped. -/
theorem dropMeshes_eq (supports : List Polygons) (m : SliceMeshStorage) (left : Nat) :
    ∀ (rest : List SliceMeshStorage) (areas : List Polygons), rest.length ≤ left →
    mergeMeshes.dropMeshes supports left (m :: rest) areas
      = ([m], areas ++ (List.replicate rest.length supports).flatten) := by
  induction left with
  | zero =>
    intro rest areas hl
    have : rest = [] := List.length_eq_zero.mp (by omega)
    subst this
    simp [mergeMeshes.dropMeshes]
  | succ left ih =>
    intro rest areas hl
    cases hr : rest with
    | nil => simp [mergeMeshes.dropMeshes]
    | cons a as =>
      have hd : (m :: a :: as).dropLast = m :: (a :: as).dropLast := by simp [List.dropLast]
      have hlen : (a :: as).dropLast.length = as.length := by simp
      have hl2 : (a :: as).dropLast.length ≤ left := by
        rw [hr] at hl; simp only [List.length_cons] at hl; rw [hlen]; omega
      simp only [mergeMeshes.dropMeshes, List.length_cons, hd]
      rw [if_pos (by omega), ih _ _ hl2, hlen]
      simp [List.replicate_succ, List.append_assoc]

theorem mergeMeshes_of_two_le (storage : SliceDataStorage) (m : SliceMeshStorage)
    (rest : List SliceMeshStorage) (hm : storage.meshes = m :: rest) (hr : rest ≠ []) :
    mergeMeshes storage = some { storage with
      meshes := [{ m with layers := mergedLayersSpec storage.meshes }]
      support := { storage.support with
        supportAreasPerLayer := storage.support.supportAreasPerLayer
          ++ (List.replicate rest.length storage.support.supportAreasPerLayer).flatten } } := by
  have hlen : ¬ (storage.meshes.length = 1) := by
    rw [hm]; cases rest with
    | nil => exact absurd rfl hr
    | cons a as => simp
  unfold mergeMeshes
  simp only [hlen, if_false]
  rw [collect_eq_spec, pushAll_eq]
  simp only [hm, List.length_cons, dropMeshes_eq storage.support.supportAreasPerLayer m
    (rest.length + 1) rest _ (Nat.le_succ _), List.nil_append]

/-! ## Lemmas on `stackLayerParts2` -/

theorem maxParts_append (pre : List SliceLayer) (l : SliceLayer) :
    maxParts (pre ++ [l]) = max (maxParts pre) l.parts.length := by
  induction pre with
  | nil => simp [maxParts]
  | cons a as ih =>
    simp only [maxParts, List.cons_append, List.map_cons, List.foldr_cons] at ih ⊢
    rw [ih]; omega

theorem stackOf_append (pre : List SliceLayer) (l : SliceLayer) (j : Nat) :
    stackOf (pre ++ [l]) j
      = stackOf pre j ++ ((l.parts[j]?).map fun p => { l with parts := [p] }).toList := by
  simp only [stackOf, List.filterMap_append]
  cases h : l.parts[j]? <;> simp [List.filterMap, h]

theorem stackOf_of_le (layers : List SliceLayer) (j : Nat) (h : maxParts layers ≤ j) :
    stackOf layers j = [] := by
  induction layers with
  | nil => simp [stackOf]
  | cons a as ih =>
    simp only [maxParts, List.map_cons, List.foldr_cons] at h
    have h1 : a.parts.length ≤ j := by omega
    have h2 : maxParts as ≤ j := by simp only [maxParts]; omega
    have h3 : a.parts[j]? = none := List.getElem?_eq_none h1
    have := ih h2
    simp only [stackOf] at this ⊢
    simp [List.filterMap_cons, h3, this]

theorem addPart_range (l : SliceLayer) (p : SliceLayerPart) (f : Nat → List SliceLayer)
    (n i : Nat) (hi : i ≤ n) (hf : ∀ j, n ≤ j → f j = []) :
    stackLayerParts2.addPart l i p ((List.range n).map f)
      = some ((List.range (max n (i + 1))).map fun j =>
          f j ++ if j = i then [{ l with parts := [p] }] else []) := by
  have hc : (if i = ((List.range n).map f).length then (List.range n).map f ++ [[]]
      else (List.range n).map f) = (List.range (max n (i + 1))).map f := by
    by_cases h : i = n
    · subst h
      have : max i (i + 1) = i + 1 := by omega
      simp [this, List.range_succ, hf i (le_refl i)]
    · have : max n (i + 1) = n := by omega
      simp [this, h]
  have hlt : i < max n (i + 1) := by omega
  unfold stackLayerParts2.addPart
  simp only [hc, List.nil_append]
  have hget : ((List.range (max n (i + 1))).map f)[i]? = some (f i) := by
    simp [List.getElem?_map, List.getElem?_range hlt]
  rw [hget]
  simp only [Option.some.injEq]
  apply List.ext_getElem
  · simp
  · intro j h1 h2
    simp only [List.length_set, List.length_map, List.length_range] at h1
    simp only [List.getElem_set, List.getElem_map, List.getElem_range]
    by_cases hji : i = j
    · subst hji; simp
    · have : ¬ j = i := fun h => hji h.symm
      simp [hji, this]

theorem addParts_range (l : SliceLayer) (rest : List SliceLayerPart) :
    ∀ (f : Nat → List SliceLayer) (n i : Nat), i ≤ n → (∀ j, n ≤ j → f j = []) →
    stackLayerParts2.addParts l i rest ((List.range n).map f)
      = some ((List.range (max n (i + rest.length))).map fun j =>
          f j ++ if i ≤ j then
            ((rest[j - i]?).map fun p => { l with parts := [p] }).toList else []) := by
  induction rest with
  | nil =>
    intro f n i hi hf
    have : max n i = n := by omega
    simp [stackLayerParts2.addParts, this]
  | cons p rest ih =>
    intro f n i hi hf
    simp only [stackLayerParts2.addParts, addPart_range l p f n i hi hf, Option.some_bind]
    rw [ih _ (max n (i + 1)) (i + 1) (by omega)]
    · have hlen : max (max n (i + 1)) (i + 1 + rest.length)
          = max n (i + (p :: rest).length) := by
        simp only [List.length_cons]; omega
      rw [hlen]
      simp only [Option.some.injEq]
      apply List.map_congr_left
      intro j _
      by_cases h1 : j = i
      · subst h1; simp
      · by_cases h2 : i ≤ j
        · have h3 : i + 1 ≤ j := by omega
          have h4 : j - i = (j - (i + 1)) + 1 := by omega
          simp [h1, h2, h3, h4]
        · have h3 : ¬ (i + 1 ≤ j) := by omega
          simp [h1, h2, h3]
    · intro j hj
      have h1 : ¬ j = i := by omega
      simp [hf j (by omega), h1]

theorem fillContainer_stacks (rest : List SliceLayer) :
    ∀ pre : List SliceLayer,
    stackLayerParts2.fillContainer rest ((List.range (maxParts pre)).map (stackOf pre))
      = some ((List.range (maxParts (pre ++ rest))).map (stackOf (pre ++ rest))) := by
  induction rest with
  | nil => intro pre; simp [stackLayerParts2.fillContainer]
  | cons l rest ih =>
    intro pre
    simp only [stackLayerParts2.fillContainer]
    rw [addParts_range l l.parts (stackOf pre) (maxParts pre) 0 (Nat.zero_le _)
      (fun j hj => stackOf_of_le pre j hj)]
    simp only [Option.some_bind]
    have h : (List.range (max (maxParts pre) (0 + l.parts.length))).map (fun j =>
        stackOf pre j ++ if 0 ≤ j then
          ((l.parts[j - 0]?).map fun p => { l with parts := [p] }).toList else [])
        = (List.range (maxParts (pre ++ [l]))).map (stackOf (pre ++ [l])) := by
      rw [maxParts_append, Nat.zero_add]
      apply List.map_congr_left
      intro j _
      simp [stackOf_append]
    rw [h, ih (pre ++ [l])]
    simp

theorem fillContainer_eq (layers : List SliceLayer) :
    stackLayerParts2.fillContainer layers []
      = some ((List.range (maxParts layers)).map (stackOf layers)) := by
  have := fillContainer_stacks layers []
  simpa [maxParts] using this

theorem pushStack_succ (b : Bool) (idx : Nat) (s out : List SliceLayer) :
    stackLayerParts2.pushStack b (idx + 1) s out = out ++ s := by
  induction s generalizing idx out with
  | nil => simp [stackLayerParts2.pushStack]
  | cons l rest ih => simp [stackLayerParts2.pushStack, ih]

theorem pushStack_first (s out : List SliceLayer) :
    stackLayerParts2.pushStack true 0 s out = out ++ s := by
  cases s with
  | nil => simp [stackLayerParts2.pushStack]
  | cons l rest => simp [stackLayerParts2.pushStack, pushStack_succ]

theorem pushStack_later (s out : List SliceLayer) :
    stackLayerParts2.pushStack false 0 s out = out ++ markFirst s := by
  cases s with
  | nil => simp [stackLayerParts2.pushStack, markFirst]
  | cons l rest => simp [stackLayerParts2.pushStack, pushStack_succ, markFirst]

theorem pushStacks_succ (ridx : Nat) (sts : List (List SliceLayer)) (out : List SliceLayer) :
    stackLayerParts2.pushStacks (ridx + 1) sts out
      = out ++ (sts.map markFirst).flatten := by
  induction sts generalizing ridx out with
  | nil => simp [stackLayerParts2.pushStacks]
  | cons s rest ih => simp [stackLayerParts2.pushStacks, ih, pushStack_later]

theorem pushStacks_reverse (layers : List SliceLayer) :
    stackLayerParts2.pushStacks 0 ((List.range (maxParts layers)).map (stackOf layers)).reverse []
      = stackedLayersSpec layers := by
  unfold stackedLayersSpec
  cases hk : maxParts layers with
  | zero => simp [stackLayerParts2.pushStacks]
  | succ k =>
    simp only [List.range_succ, List.map_append, List.map_cons, List.map_nil,
      List.reverse_append, List.reverse_cons, List.reverse_nil, List.nil_append,
      List.singleton_append, stackLayerParts2.pushStacks, pushStacks_succ, pushStack_first,
      decide_True, if_true, List.flatten_cons, List.map_map]
    congr 2
    rw [← List.map_reverse, List.map_map]
    apply List.map_congr_left
    intro j hj
    have hj2 : j < k := by simpa using hj
    have : ¬ (j + 1 = k + 1) := by omega
    simp [this]

theorem stackMesh_eq (mesh : SliceMeshStorage) (areas : List Polygons) :
    stackLayerParts2.stackMesh mesh areas
      = some ({ mesh with layers := stackedLayersSpec mesh.layers },
          stackLayerParts2.addSupport areas (maxParts mesh.layers) (maxParts mesh.layers) 1
            areas) := by
  simp [stackLayerParts2.stackMesh, fillContainer_eq, pushStacks_reverse]

theorem meshLoop_meshes (rest : List SliceMeshStorage) :
    ∀ (done : List SliceMeshStorage) (areas : List Polygons),
    ∃ areas2, stackLayerParts2.meshLoop rest done areas
      = some (done ++ rest.map (fun m => { m with layers := stackedLayersSpec m.layers }),
          areas2) := by
  induction rest with
  | nil => intro done areas; exact ⟨areas, by simp [stackLayerParts2.meshLoop]⟩
  | cons m rest ih =>
    intro done areas
    obtain ⟨a2, h2⟩ := ih (done ++ [{ m with layers := stackedLayersSpec m.layers }])
      (stackLayerParts2.addSupport areas (maxParts m.layers) (maxParts m.layers) 1 areas)
    exact ⟨a2, by simp [stackLayerParts2.meshLoop, stackMesh_eq, h2]⟩

theorem stackLayerParts2_meshes (storage : SliceDataStorage) :
    ∃ storage2, stackLayerParts2 storage = some storage2 ∧
      storage2.meshes
        = storage.meshes.map (fun m => { m with layers := stackedLayersSpec m.layers }) := by
  obtain ⟨a2, h2⟩ := meshLoop_meshes storage.meshes [] storage.support.supportAreasPerLayer
  refine ⟨{ storage with
      meshes := storage.meshes.map (fun m => { m with layers := stackedLayersSpec m.layers })
      support := { storage.support with supportAreasPerLayer := a2 } }, ?_, rfl⟩
  simp [stackLayerParts2, h2]

theorem parts_of_mem_stackOf (layers : List SliceLayer) (j : Nat) (l : SliceLayer)
    (h : l ∈ stackOf layers j) : l.parts.length = 1 := by
  simp only [stackOf, List.mem_filterMap, Option.map_eq_some'] at h
  obtain ⟨a, _, p, _, rfl⟩ := h
  rfl

theorem parts_of_mem_markFirst (ls : List SliceLayer) (l : SliceLayer)
    (h : l ∈ markFirst ls) : ∃ l2 ∈ ls, l.parts = l2.parts := by
  cases ls with
  | nil => simp [markFirst] at h
  | cons a as =>
    simp only [markFirst, List.mem_cons] at h
    rcases h with h | h
    · exact ⟨a, by simp, by rw [h]⟩
    · exact ⟨l, by simp [h], rfl⟩

theorem parts_of_mem_stackedLayersSpec (layers : List SliceLayer) (l : SliceLayer)
    (h : l ∈ stackedLayersSpec layers) : l.parts.length = 1 := by
  simp only [stackedLayersSpec, List.mem_flatten, List.mem_map, List.mem_reverse,
    List.mem_range] at h
  obtain ⟨s, ⟨j, _, rfl⟩, hl⟩ := h
  split at hl
  · exact parts_of_mem_stackOf layers j l hl
  · obtain ⟨l2, h2, h3⟩ := parts_of_mem_markFirst _ _ hl
    rw [h3]; exact parts_of_mem_stackOf layers j l2 h2

/-! ## Claims on the storage rewriters -/

/-- C1: for every storage with at least one mesh, `mergeMeshes` returns a storage holding
exactly one mesh, and the layer count of that mesh is the sum of the layer counts of all
meshes before the call. -/
theorem mergeMeshes_one_mesh_layer_sum (storage : SliceDataStorage)
    (h : storage.meshes ≠ []) :
    ∃ storage2 mesh, mergeMeshes storage = some storage2 ∧ storage2.meshes = [mesh] ∧
      mesh.layers.length = (storage.meshes.map fun m => m.layers.length).sum := by
  cases hm : storage.meshes with
  | nil => exact absurd hm h
  | cons m rest =>
    cases rest with
    | nil =>
      refine ⟨storage, m, ?_, hm, by simp⟩
      simp [mergeMeshes, hm]
    | cons m2 rest2 =>
      have h2 := mergeMeshes_of_two_le storage m (m2 :: rest2) hm (by simp)
      refine ⟨_, _, h2, rfl, ?_⟩
      simp only [length_mergedLayersSpec, hm]

theorem mergeMeshes_one_mesh_layer_sum_witness :
    twoMeshStorage.meshes ≠ [] ∧
    ∃ storage2 mesh, mergeMeshes twoMeshStorage = some storage2 ∧ storage2.meshes = [mesh] ∧
      mesh.layers.length = (twoMeshStorage.meshes.map fun m => m.layers.length).sum :=
  ⟨by decide, mergeMeshes_one_mesh_layer_sum twoMeshStorage (by decide)⟩

/-- C2: for every storage, `stackLayerParts2` returns a storage in which every layer of
every mesh contains at most one part. -/
theorem stackLayerParts2_at_most_one_part (storage : SliceDataStorage) :
    ∃ storage2, stackLayerParts2 storage = some storage2 ∧
      ∀ mesh ∈ storage2.meshes, ∀ layer ∈ mesh.layers, layer.parts.length ≤ 1 := by
  obtain ⟨s2, h1, h2⟩ := stackLayerParts2_meshes storage
  refine ⟨s2, h1, ?_⟩
  intro mesh hmesh layer hlayer
  rw [h2, List.mem_map] at hmesh
  obtain ⟨m, _, rfl⟩ := hmesh
  exact le_of_eq (parts_of_mem_stackedLayersSpec m.layers layer hlayer)

/-- C9: for every storage with at least two meshes, `mergeMeshes` leaves mesh 0 alone in the
storage, with a layer list that is the concatenation in mesh order of all original layer
lists, `isNewLayer` being set on the first layer of every mesh but the first and every layer
and field being otherwise unchanged. -/
theorem mergeMeshes_layers_concat (storage : SliceDataStorage)
    (h : 2 ≤ storage.meshes.length) :
    ∃ storage2 mesh0, mergeMeshes storage = some storage2 ∧
      storage.meshes.head? = some mesh0 ∧
      storage2.meshes = [{ mesh0 with layers := mergedLayersSpec storage.meshes }] := by
  cases hm : storage.meshes with
  | nil => simp [hm] at h
  | cons m rest =>
    have hr : rest ≠ [] := by
      intro hr; simp [hm, hr] at h
    have h2 := mergeMeshes_of_two_le storage m rest hm hr
    exact ⟨_, m, h2, by simp, by simp [hm]⟩

theorem mergeMeshes_layers_concat_witness :
    2 ≤ twoMeshStorage.meshes.length ∧
    ∃ storage2 mesh0, mergeMeshes twoMeshStorage = some storage2 ∧
      twoMeshStorage.meshes.head? = some mesh0 ∧
      storage2.meshes = [{ mesh0 with layers := mergedLayersSpec twoMeshStorage.meshes }] :=
  ⟨by decide, mergeMeshes_layers_concat twoMeshStorage (by decide)⟩

/-- C10: for every mesh, `stackLayerParts2` replaces the layer list by
`stack(k-1) ++ ... ++ stack(0)`, where `k` is the largest number of parts in any original
layer and `stack(j)` lists in original order, for each layer with more than `j` parts, a copy
of it whose parts are exactly its `j`-th part; `isNewLayer` is set on the first layer of every
stack but `stack(k-1)`, and all other fields are copied unchanged. -/
theorem stackLayerParts2_layers_eq_stacks (storage : SliceDataStorage) :
    ∃ storage2, stackLayerParts2 storage = some storage2 ∧
      storage2.meshes
        = storage.meshes.map fun m => { m with layers := stackedLayersSpec m.layers } :=
  stackLayerParts2_meshes storage

/-! ## Lemmas on `calculateMeshOrder` -/

theorem scan_eq (e : Int) (left : Nat) :
    ∀ (ret l : List MeshPtr) (idx : Nat), l.length - idx ≤ left →
    calculateMeshOrder.scan e left ret l idx
      = (ret ++ (l.drop idx).filter (fun p => decide (p.2.extruder_nr = e)),
         l.take idx ++ (l.drop idx).filter (fun p => !decide (p.2.extruder_nr = e))) := by
  induction left with
  | zero =>
    intro ret l idx h
    have h2 : l.drop idx = [] := List.drop_eq_nil_of_le (by omega)
    have h3 : l.take idx = l := List.take_of_length_le (by omega)
    simp [calculateMeshOrder.scan, h2, h3]
  | succ left ih =>
    intro ret l idx h
    by_cases h1 : idx < l.length
    · have hd : l.drop idx = l[idx] :: l.drop (idx + 1) := List.drop_eq_getElem_cons h1
      simp only [calculateMeshOrder.scan, List.getElem?_eq_getElem h1]
      by_cases h2 : (l[idx]).2.extruder_nr = e
      · rw [if_pos h2]
        rw [ih _ _ _ (by simp only [List.length_eraseIdx, h1, if_true]; omega)]
        have he : l.eraseIdx idx = l.take idx ++ l.drop (idx + 1) :=
          List.eraseIdx_eq_take_drop_succ l idx
        have hlen : (l.take idx).length = idx := by simp; omega
        have h4 : (l.eraseIdx idx).drop idx = l.drop (idx + 1) := by
          rw [he, List.drop_append_eq_append_drop, hlen]; simp
        have h5 : (l.eraseIdx idx).take idx = l.take idx := by
          rw [he, List.take_append_eq_append_take, hlen]; simp
        rw [h4, h5, hd, List.filter_cons, List.filter_cons]
        simp [h2]
      · rw [if_neg h2]
        rw [ih _ _ _ (by omega), hd]
        have h6 : l.take (idx + 1) = l.take idx ++ [l[idx]] := by
          rw [List.take_succ, List.getElem?_eq_getElem h1]; rfl
        rw [h6, List.filter_cons, List.filter_cons]
        simp [h2]
        rw [h6, List.append_assoc, List.singleton_append]
    · have h2 : l.drop idx = [] := List.drop_eq_nil_of_le (by omega)
      have h3 : l.take idx = l := List.take_of_length_le (by omega)
      have h4 : l[idx]? = none := List.getElem?_eq_none (by omega)
      simp [calculateMeshOrder.scan, h2, h3, h4]

theorem scan_zero (e : Int) (ret l : List MeshPtr) :
    calculateMeshOrder.scan e l.length ret l 0
      = (ret ++ l.filter (fun p => decide (p.2.extruder_nr = e)),
         l.filter (fun p => !decide (p.2.extruder_nr = e))) := by
  rw [scan_eq e l.length ret l 0 (by omega)]
  simp

theorem scan_of_le (e : Int) (left : Nat) (ret l : List MeshPtr) (h : l.length ≤ left) :
    calculateMeshOrder.scan e left ret l 0
      = (ret ++ l.filter (fun p => decide (p.2.extruder_nr = e)),
         l.filter (fun p => !decide (p.2.extruder_nr = e))) := by
  rw [scan_eq e left ret l 0 (by omega)]
  simp

theorem extruderBlocks_nil : ExtruderBlocks [] [] :=
  ⟨List.Perm.refl _, fun _ => ⟨[], [], by simp, by simp, by simp⟩⟩

theorem extruderBlocks_step (l out : List MeshPtr) (e0 : Int)
    (h : ExtruderBlocks (l.filter (fun p => !decide (p.2.extruder_nr = e0))) out) :
    ExtruderBlocks l (l.filter (fun p => decide (p.2.extruder_nr = e0)) ++ out) := by
  obtain ⟨hperm, hblk⟩ := h
  constructor
  · exact (List.Perm.append_left _ hperm).trans
      (List.filter_append_perm (fun p => decide (p.2.extruder_nr = e0)) l)
  · intro e
    by_cases he : e = e0
    · subst he
      refine ⟨[], out, by simp, by simp, ?_⟩
      intro p hp
      have := (hperm.mem_iff).mp hp
      simpa using (List.mem_filter.mp this).2
    · obtain ⟨pre, post, h1, h2, h3⟩ := hblk e
      have hff : (l.filter (fun p => !decide (p.2.extruder_nr = e0))).filter
          (fun p => decide (p.2.extruder_nr = e))
          = l.filter (fun p => decide (p.2.extruder_nr = e)) := by
        rw [List.filter_filter]
        apply List.filter_congr
        intro p _
        by_cases hp : p.2.extruder_nr = e
        · have : ¬ p.2.extruder_nr = e0 := fun h0 => he (hp.symm.trans h0)
          simp [hp, he]
        · simp [hp]
      rw [hff] at h1
      refine ⟨l.filter (fun p => decide (p.2.extruder_nr = e0)) ++ pre, post, ?_, ?_, h3⟩
      · rw [h1]; simp [List.append_assoc]
      · intro p hp
        rcases List.mem_append.mp hp with hp | hp
        · have := (List.mem_filter.mp hp).2
          intro hpe
          apply he
          rw [← hpe]; simpa using this
        · exact h2 p hp

theorem loop_headed (n : Nat) :
    ∀ (l : List MeshPtr) (e : Int), l.length ≤ n →
    (l = [] ∨ ∃ p t, l = p :: t ∧ p.2.extruder_nr = e) →
    ∀ fuel, n + 1 ≤ fuel → ∀ ret, ∃ out,
      calculateMeshOrder.loop fuel ret l e
        = some (ret ++ l.filter (fun p => decide (p.2.extruder_nr = e)) ++ out) ∧
      ExtruderBlocks (l.filter (fun p => !decide (p.2.extruder_nr = e))) out := by
  induction n with
  | zero =>
    intro l e hl _ fuel hf ret
    have : l = [] := List.length_eq_zero.mp (by omega)
    subst this
    obtain ⟨f, rfl⟩ : ∃ f, fuel = f + 1 := ⟨fuel - 1, by omega⟩
    exact ⟨[], by simp [calculateMeshOrder.loop], extruderBlocks_nil⟩
  | succ n ih =>
    intro l e hl hhead fuel hf ret
    obtain ⟨f, rfl⟩ : ∃ f, fuel = f + 1 := ⟨fuel - 1, by omega⟩
    rcases hhead with rfl | ⟨p, t, rfl, hp⟩
    · exact ⟨[], by simp [calculateMeshOrder.loop], extruderBlocks_nil⟩
    · have hl2 : ((p :: t).filter (fun q => !decide (q.2.extruder_nr = e))).length ≤ n := by
        have h1 : (p :: t).filter (fun q => !decide (q.2.extruder_nr = e))
            = t.filter (fun q => !decide (q.2.extruder_nr = e)) := by
          simp [List.filter_cons, hp]
        rw [h1]
        have := List.length_filter_le (fun q : MeshPtr => !decide (q.2.extruder_nr = e)) t
        simp only [List.length_cons] at hl
        omega
      generalize hl3 : (p :: t).filter (fun q => !decide (q.2.extruder_nr = e)) = l2 at hl2
      have hstep : calculateMeshOrder.loop (f + 1) ret (p :: t) e
          = calculateMeshOrder.loop f
              (ret ++ (p :: t).filter (fun q => decide (q.2.extruder_nr = e))) l2
              (calculateMeshOrder.nextExtruder e l2) := by
        have hs := scan_of_le e (t.length + 1) ret (p :: t) (by simp)
        simp only [calculateMeshOrder.loop, List.length_cons, gt_iff_lt, Nat.zero_lt_succ,
          if_true, hs, hl3]
      have hhead2 : l2 = [] ∨ ∃ q u, l2 = q :: u ∧ q.2.extruder_nr
          = calculateMeshOrder.nextExtruder e l2 := by
        cases l2 with
        | nil => exact Or.inl rfl
        | cons q u => exact Or.inr ⟨q, u, rfl, rfl⟩
      obtain ⟨out2, h1, h2⟩ := ih l2 _ hl2 hhead2 f (by omega)
        (ret ++ (p :: t).filter (fun q => decide (q.2.extruder_nr = e)))
      refine ⟨_, ?_, extruderBlocks_step l2 out2 _ h2⟩
      rw [hstep, h1]
      simp [List.append_assoc]

theorem loop_any (l : List MeshPtr) (e : Int) (fuel : Nat) (hf : l.length + 2 ≤ fuel)
    (ret : List MeshPtr) :
    ∃ out, calculateMeshOrder.loop fuel ret l e
        = some (ret ++ l.filter (fun p => decide (p.2.extruder_nr = e)) ++ out) ∧
      ExtruderBlocks (l.filter (fun p => !decide (p.2.extruder_nr = e))) out := by
  obtain ⟨f, rfl⟩ : ∃ f, fuel = f + 1 := ⟨fuel - 1, by omega⟩
  cases l with
  | nil => exact ⟨[], by simp [calculateMeshOrder.loop], extruderBlocks_nil⟩
  | cons p t =>
    generalize hl3 : (p :: t).filter (fun q => !decide (q.2.extruder_nr = e)) = l2
    have hl2 : l2.length ≤ (p :: t).length := by
      rw [← hl3]; exact List.length_filter_le _ _
    have hstep : calculateMeshOrder.loop (f + 1) ret (p :: t) e
        = calculateMeshOrder.loop f
            (ret ++ (p :: t).filter (fun q => decide (q.2.extruder_nr = e))) l2
            (calculateMeshOrder.nextExtruder e l2) := by
      have hs := scan_of_le e (t.length + 1) ret (p :: t) (by simp)
      simp only [calculateMeshOrder.loop, List.length_cons, gt_iff_lt, Nat.zero_lt_succ,
        if_true, hs, hl3]
    have hhead2 : l2 = [] ∨ ∃ q u, l2 = q :: u ∧ q.2.extruder_nr
        = calculateMeshOrder.nextExtruder e l2 := by
      cases l2 with
      | nil => exact Or.inl rfl
      | cons q u => exact Or.inr ⟨q, u, rfl, rfl⟩
    obtain ⟨out2, h1, h2⟩ := loop_headed (p :: t).length l2 _ hl2 hhead2 f (by omega)
      (ret ++ (p :: t).filter (fun q => decide (q.2.extruder_nr = e)))
    refine ⟨_, ?_, extruderBlocks_step l2 out2 _ h2⟩
    rw [hstep, h1]
    simp [List.append_assoc]

/-! ## Claims on the mesh order -/

/-- C3: for every list of meshes and every current extruder, `calculateMeshOrder` returns a
permutation of the mesh pointers in which the meshes on the current extruder come first, the
meshes of each extruder form one contiguous block, and meshes of one extruder keep their
storage order; for extruders `[E0, E1, E0]` with current extruder `E1` the result is the `E1`
mesh, then the first and the second `E0` mesh. -/
theorem calculateMeshOrder_blocks (storage : SliceDataStorage) (current_extruder : Int) :
    ∃ order, calculateMeshOrder storage current_extruder = some order ∧
      order.Perm storage.meshes.enum ∧
      (∃ rest,
        order = storage.meshes.enum.filter
            (fun p => decide (p.2.extruder_nr = current_extruder)) ++ rest ∧
        ∀ p ∈ rest, p.2.extruder_nr ≠ current_extruder) ∧
      (∀ e : Int, ∃ pre post,
        order = pre ++ storage.meshes.enum.filter (fun p => decide (p.2.extruder_nr = e))
          ++ post ∧
        (∀ p ∈ pre, p.2.extruder_nr ≠ e) ∧ (∀ p ∈ post, p.2.extruder_nr ≠ e)) ∧
      (∀ m0 m1 m2 : SliceMeshStorage, storage.meshes = [m0, m1, m2] →
        m1.extruder_nr = current_extruder → m0.extruder_nr ≠ current_extruder →
        m2.extruder_nr = m0.extruder_nr → order = [(1, m1), (0, m0), (2, m2)]) := by
  obtain ⟨out, h1, h2⟩ := loop_any storage.meshes.enum current_extruder
    (storage.meshes.length + 2) (by simp) []
  have hb := extruderBlocks_step storage.meshes.enum out current_extruder h2
  rw [List.nil_append] at h1
  refine ⟨_, h1, hb.1, ⟨out, rfl, ?_⟩, hb.2, ?_⟩
  · intro p hp
    have := (h2.1.mem_iff).mp hp
    simpa using (List.mem_filter.mp this).2
  · intro m0 m1 m2 hm h11 h10 h12
    have h3 : calculateMeshOrder storage current_extruder
        = some [(1, m1), (0, m0), (2, m2)] := by
      have h20 : ¬ m2.extruder_nr = current_extruder := by rw [h12]; exact h10
      simp [calculateMeshOrder, calculateMeshOrder.loop, scan_of_le, hm, List.enum,
        List.enumFrom, List.filter_cons, h11, h10, h12, h20,
        calculateMeshOrder.nextExtruder]
    unfold calculateMeshOrder at h3
    rw [h1] at h3
    exact Option.some.inj h3

theorem calculateMeshOrder_blocks_witness :
    ∃ order, calculateMeshOrder threeMeshStorage 1 = some order ∧
      order = [(1, sampleMesh 1 [sampleLayer [20]]), (0, sampleMesh 0 [sampleLayer [0]]),
        (2, sampleMesh 0 [sampleLayer [40]])] := by
  obtain ⟨order, h1, _, _, _, h5⟩ := calculateMeshOrder_blocks threeMeshStorage 1
  exact ⟨order, h1, h5 _ _ _ rfl rfl (by decide) rfl⟩

/-! ## Cooling -/

theorem sub_half_le_roundHalfEven (t : Rat) : t - 1 / 2 ≤ (roundHalfEven t : Rat) := by
  unfold roundHalfEven
  have h1 := Int.floor_le t
  have h2 := Int.lt_floor_add_one t
  simp only
  split_ifs with ha hb hc
  · linarith
  · push_cast; linarith
  · have : t - ⌊t⌋ = 1 / 2 := le_antisymm (not_lt.mp hb) (not_lt.mp ha)
    linarith
  · push_cast; linarith

theorem ulpExponent_of_small (t : Rat) (ht : 0 < t) (h : t < 2 ^ (-1022 : Int)) :
    ulpExponent t = -1074 := by
  unfold ulpExponent
  have : Int.log 2 t < -1022 := by
    rw [← Int.lt_zpow_iff_log_lt (by norm_num) ht, Nat.cast_ofNat]
    exact h
  omega

theorem roundHalfEven_down (t : Rat) (f : Int) (h1 : (f : Rat) ≤ t) (h2 : t < f + 1 / 2) :
    roundHalfEven t = f := by
  have hf : ⌊t⌋ = f := Int.floor_eq_iff.mpr ⟨h1, by linarith⟩
  unfold roundHalfEven
  simp only [hf]
  rw [if_pos (by linarith)]

theorem startPos_of_not_new (settings : Settings) (isMergeMeshes isStackLayerParts : Bool)
    (storage : SliceDataStorage) (layerCount positionZ : Int) (layer_nr : Nat)
    (has_raft : Bool) (h : processLayerStartPos.isNewLayer storage layer_nr = some false) :
    processLayerStartPos settings isMergeMeshes isStackLayerParts storage layerCount
        positionZ layer_nr has_raft
      = some { layerCount := layerCount + 1
               z := processLayerStartPos.z settings (layerCount + 1) layer_nr has_raft
               isNewLayer := false
               calls := [GcodeCall.resetStartPosition,
                 GcodeCall.setZ (processLayerStartPos.z settings (layerCount + 1) layer_nr
                   has_raft)] } := by
  simp [processLayerStartPos, h]

/-- C5, as stated, fails with a raft: for `layer_height = 100`, `raft_airgap_layer_0 = 220`
and `raft_airgap = 0`, with no new-layer boundary at layers 0 and 1, `processLayerStartPos`
computes Z = 1730 for layer 0 and Z = 1610 for layer 1. -/
theorem startPos_z_drops_with_raft :
    0 < sampleSettings.layer_height ∧
    processLayerStartPos.isNewLayer oneMeshStorage 0 = some false ∧
    processLayerStartPos.isNewLayer oneMeshStorage 1 = some false ∧
    ∃ r1 r2,
      processLayerStartPos sampleSettings false false oneMeshStorage 0 0 0 true = some r1 ∧
      processLayerStartPos sampleSettings false false oneMeshStorage r1.layerCount r1.z 1 true
        = some r2 ∧
      r1.z = 1730 ∧ r2.z = 1610 ∧ ¬ (r1.z < r2.z) := by
  refine ⟨by decide, by decide, by decide, _, _, rfl, rfl, ?_⟩
  decide


/-- C5, amended: for `layer_height > 0` and consecutive layers `L`, `L+1` at which
`processLayerStartPos` sees no new-layer boundary, the Z computed for layer `L+1` is strictly
greater than the Z computed for layer `L`, provided there is no raft, or `L ≥ 1`, or
`raft_airgap_layer_0 < layer_height + raft_airgap` (layer 0 carries `raft_airgap_layer_0`,
every later layer `raft_airgap`). -/
theorem startPos_z_increasing (settings : Settings) (isMergeMeshes isStackLayerParts : Bool)
    (storage : SliceDataStorage) (layerCount positionZ positionZ2 : Int) (layer_nr : Nat)
    (has_raft : Bool)
    (hlh : 0 < settings.layer_height)
    (h0 : processLayerStartPos.isNewLayer storage layer_nr = some false)
    (h1 : processLayerStartPos.isNewLayer storage (layer_nr + 1) = some false)
    (hgap : has_raft = false ∨ 1 ≤ layer_nr ∨
      settings.raft_airgap_layer_0 < settings.layer_height + settings.raft_airgap) :
    ∃ r1 r2,
      processLayerStartPos settings isMergeMeshes isStackLayerParts storage layerCount
        positionZ layer_nr has_raft = some r1 ∧
      processLayerStartPos settings isMergeMeshes isStackLayerParts storage r1.layerCount
        positionZ2 (layer_nr + 1) has_raft = some r2 ∧
      r1.z < r2.z := by
  refine ⟨_, _,
    startPos_of_not_new settings isMergeMeshes isStackLayerParts storage layerCount positionZ
      layer_nr has_raft h0,
    startPos_of_not_new settings isMergeMeshes isStackLayerParts storage _ positionZ2
      (layer_nr + 1) has_raft h1, ?_⟩
  simp only [processLayerStartPos.z, Nat.add_one_ne_zero, if_false]
  have hmul : (layerCount + 1 + 1) * settings.layer_height
      = (layerCount + 1) * settings.layer_height + settings.layer_height := by ring
  cases has_raft with
  | false => simp only [Bool.false_eq_true, if_false]; omega
  | true =>
    simp only [if_true]
    by_cases hL : layer_nr = 0
    · simp only [hL, if_true]
      rcases hgap with hg | hg | hg
      · exact absurd hg (by decide)
      · omega
      · omega
    · simp only [hL, if_false]; omega

theorem startPos_z_increasing_witness :
    ∃ r1 r2,
      processLayerStartPos sampleSettings false false oneMeshStorage 0 0 1 true = some r1 ∧
      processLayerStartPos sampleSettings false false oneMeshStorage r1.layerCount 0 (1 + 1)
        true = some r2 ∧
      r1.z < r2.z :=
  startPos_z_increasing sampleSettings false false oneMeshStorage 0 0 0 1 true (by decide)
    (by decide) (by decide) (Or.inr (Or.inl (by decide)))

/-! ## Insets of a mesh layer -/

/-- C6, as stated, fails for a layer of two parts: `addMeshLayerToGCode` walks the parts one
after the other, so the outermost inset of the first part (call 4, under `inset0_config`) is
added before the inner inset of the second part (call 9, under `insetX_config`). -/
theorem addMeshLayerToGCode_inset0_before_insetX :
    layerFlag twoPartStorage 0 = some false ∧ sampleSettings.wall_line_count > 0 ∧
    ∃ r, addMeshLayerToGCode sampleExternals sampleSettings 0 sampleView twoPartStorage
        (0, twoPartMesh) { currentExtruder := 0, calls := [] } 0 = some r ∧
      r.1.calls[4]? = some (PlannerCall.addPolygonsByOptimizer
        [[(0, 0), (10, 0), (10, 10), (0, 10)]] (ConfigRef.inset0_config 0)) ∧
      r.1.calls[9]? = some (PlannerCall.addPolygonsByOptimizer
        [[(21, 1), (29, 1), (29, 9), (21, 9)]] (ConfigRef.insetX_config 0)) := by
  refine ⟨by decide, by decide, _, rfl, ?_, ?_⟩ <;> rfl

theorem insetsOrdered_of_split (mesh : Nat) (front back : List PlannerCall)
    (hf : ∀ c ∈ front, c.pathConfig ≠ some (ConfigRef.inset0_config mesh))
    (hb : ∀ c ∈ back, c.pathConfig ≠ some (ConfigRef.insetX_config mesh)) :
    InsetsOrdered mesh (front ++ back) := by
  intro i j ci cj hi hci hj hcj
  by_contra hlt
  have hij : i ≤ j := by omega
  by_cases h1 : i < front.length
  · rw [List.getElem?_append_left h1] at hi
    exact hf ci (List.getElem?_mem hi) hci
  · have h2 : front.length ≤ j := by omega
    rw [List.getElem?_append_right h2] at hj
    exact hb cj (List.getElem?_mem hj) hcj

theorem multiFill_config (ext : Externals) (settings : Settings) (mesh : MeshPtr)
    (d : Int) (o : Rat) (a w : Int) (n : Nat) (outline : Polygons) :
    ∀ c ∈ processMultiLayerInfill.fill ext settings mesh d o a w n outline,
      c.pathConfig = some (ConfigRef.infill_config mesh.1 n) := by
  intro c hc
  unfold processMultiLayerInfill.fill at hc
  cases hp : settings.fill_pattern <;> simp [hp] at hc <;> subst hc <;> rfl

theorem multiLoop_config (ext : Externals) (settings : Settings) (mesh : MeshPtr)
    (d : Int) (o : Rat) (a w : Int) (outlines : List Polygons) :
    ∀ (n : Nat), ∀ c ∈ processMultiLayerInfill.loop ext settings mesh d o a w n outlines,
      ∃ k, c.pathConfig = some (ConfigRef.infill_config mesh.1 k) := by
  induction outlines with
  | nil => intro n c hc; simp [processMultiLayerInfill.loop] at hc
  | cons outline rest ih =>
    intro n c hc
    simp only [processMultiLayerInfill.loop, List.mem_append] at hc
    rcases hc with hc | hc
    · exact ⟨n, multiFill_config ext settings mesh d o a w n outline c hc⟩
    · exact ih (n + 1) c hc

theorem multiLayerInfill_config (ext : Externals) (settings : Settings) (mesh : MeshPtr)
    (part : SliceLayerPart) (d : Int) (o : Rat) (a w : Int) :
    ∀ c ∈ processMultiLayerInfill ext settings mesh part d o a w,
      ∃ k, c.pathConfig = some (ConfigRef.infill_config mesh.1 k) := by
  intro c hc
  unfold processMultiLayerInfill at hc
  split at hc
  · exact multiLoop_config ext settings mesh d o a w _ 1 c hc
  · simp at hc

theorem singleLayerInfill_config (ext : Externals) (settings : Settings) (mesh : MeshPtr)
    (part : SliceLayerPart) (d : Int) (o : Rat) (a w : Int) :
    ∀ c ∈ processSingleLayerInfill ext settings mesh part d o a w,
      ∃ k, c.pathConfig = some (ConfigRef.infill_config mesh.1 k) := by
  intro c hc
  simp only [processSingleLayerInfill, List.mem_cons, List.mem_singleton, List.not_mem_nil,
    or_false] at hc
  rcases hc with hc | hc <;> exact ⟨0, by rw [hc]; rfl⟩

theorem skinPart_calls (ext : Externals) (settings : Settings) (mesh : MeshPtr)
    (layer_nr : Nat) (o : Rat) (a w : Int) (st st2 : SkinState) (skin_part : SkinPart)
    (h : processSkin.skinPart ext settings mesh layer_nr o a w st skin_part = some st2) :
    ∃ extra, st2.calls = st.calls ++ extra ∧
      ∀ c ∈ extra, c.pathConfig = some (ConfigRef.skin_config mesh.1) := by
  simp only [processSkin.skinPart, Option.map_eq_some'] at h
  obtain ⟨bridge, _, rfl⟩ := h
  split
  · exact ⟨[], by simp, by simp⟩
  · split
    · split
      · refine ⟨_, rfl, ?_⟩
        intro c hc
        simp only [List.mem_map] at hc
        obtain ⟨_, _, rfl⟩ := hc
        rfl
      · refine ⟨_, rfl, ?_⟩
        intro c hc
        simp only [List.mem_map] at hc
        obtain ⟨_, _, rfl⟩ := hc
        rfl
    · split
      · exact ⟨[], by simp, by simp⟩
      · exact ⟨[], by simp, by simp⟩
    · exact ⟨[], by simp, by simp⟩

theorem skinLoop_calls (ext : Externals) (settings : Settings) (mesh : MeshPtr)
    (layer_nr : Nat) (o : Rat) (a w : Int) (skin_parts : List SkinPart) :
    ∀ (st st2 : SkinState),
      processSkin.loop ext settings mesh layer_nr o a w skin_parts st = some st2 →
      ∃ extra, st2.calls = st.calls ++ extra ∧
        ∀ c ∈ extra, c.pathConfig = some (ConfigRef.skin_config mesh.1) := by
  induction skin_parts with
  | nil =>
    intro st st2 h
    simp only [processSkin.loop, Option.some.injEq] at h
    subst h
    exact ⟨[], by simp, by simp⟩
  | cons sp rest ih =>
    intro st st2 h
    simp only [processSkin.loop, Option.bind_eq_some] at h
    obtain ⟨st1, h1, h2⟩ := h
    obtain ⟨e1, he1, hc1⟩ := skinPart_calls ext settings mesh layer_nr o a w st st1 sp h1
    obtain ⟨e2, he2, hc2⟩ := ih st1 st2 h2
    refine ⟨e1 ++ e2, by rw [he2, he1, List.append_assoc], ?_⟩
    intro c hc
    rcases List.mem_append.mp hc with hc | hc
    · exact hc1 c hc
    · exact hc2 c hc

theorem skin_config_of_mem (ext : Externals) (settings : Settings) (mesh : MeshPtr)
    (part : SliceLayerPart) (layer_nr : Nat) (o : Rat) (a w : Int) (calls : List PlannerCall)
    (h : processSkin ext settings mesh part layer_nr o a w = some calls) :
    ∀ c ∈ calls, c.pathConfig = some (ConfigRef.skin_config mesh.1) := by
  simp only [processSkin, Option.map_eq_some'] at h
  obtain ⟨st, hst, rfl⟩ := h
  obtain ⟨extra, he, hc⟩ := skinLoop_calls ext settings mesh layer_nr o a w _ _ _ hst
  intro c hmem
  simp only [he, List.nil_append, List.mem_append, List.mem_cons, List.mem_singleton,
    List.not_mem_nil, or_false] at hmem
  rcases hmem with hmem | hmem | hmem
  · exact hc c hmem
  · rw [hmem]; rfl
  · rw [hmem]; rfl

theorem insetsLoop_split (mesh : MeshPtr) (l : List Polygons) :
    ∃ front back, processInsets.loop mesh l = front ++ back ∧
      (∀ c ∈ front, c.pathConfig = some (ConfigRef.insetX_config mesh.1)) ∧
      (∀ c ∈ back, c.pathConfig = some (ConfigRef.inset0_config mesh.1)) := by
  induction l with
  | nil => exact ⟨[], [], by simp [processInsets.loop], by simp, by simp⟩
  | cons inset before ih =>
    obtain ⟨front, back, h1, h2, h3⟩ := ih
    by_cases hb : before.length = 0
    · have : before = [] := List.length_eq_zero.mp hb
      subst this
      refine ⟨[], [PlannerCall.addPolygonsByOptimizer inset (ConfigRef.inset0_config mesh.1)],
        by simp [processInsets.loop], by simp, ?_⟩
      intro c hc
      rw [List.mem_singleton.mp hc]; rfl
    · refine ⟨PlannerCall.addPolygonsByOptimizer inset (ConfigRef.insetX_config mesh.1)
        :: front, back, by simp [processInsets.loop, hb, h1], ?_, h3⟩
      intro c hc
      rcases List.mem_cons.mp hc with hc | hc
      · rw [hc]; rfl
      · exact h2 c hc

theorem processInsets_split (settings : Settings) (mesh : MeshPtr) (part : SliceLayerPart)
    (layer_nr : Nat) :
    ∃ front back, processInsets settings mesh part layer_nr = front ++ back ∧
      (∀ c ∈ front, c.isSwitch = false ∧
        c.pathConfig ≠ some (ConfigRef.inset0_config mesh.1)) ∧
      (∀ c ∈ back, c.pathConfig = some (ConfigRef.inset0_config mesh.1)) := by
  obtain ⟨front, back, h1, h2, h3⟩ := insetsLoop_split mesh part.insets.reverse
  unfold processInsets
  by_cases hw : settings.wall_line_count > 0
  · simp only [hw, if_true, h1]
    refine ⟨_ ++ front, back, (List.append_assoc _ _ _).symm, ?_, h3⟩
    intro c hc
    rcases List.mem_append.mp hc with hc | hc
    · split at hc
      · rcases List.mem_append.mp hc with hc | hc
        · split at hc
          · rw [List.mem_singleton.mp hc]
            exact ⟨rfl, by simp [PlannerCall.pathConfig]⟩
          · simp at hc
        · split at hc
          · simp at hc
          · split at hc
            · rw [List.mem_singleton.mp hc]
              exact ⟨rfl, by simp [PlannerCall.pathConfig]⟩
            · simp at hc
      · simp at hc
    · have := h2 c hc
      refine ⟨?_, by rw [this]; simp⟩
      cases c <;> simp_all [PlannerCall.pathConfig, PlannerCall.isSwitch]
  · simp only [hw, if_false]
    exact ⟨[], [], by simp, by simp, by simp⟩

theorem isSwitch_of_pathConfig (c : PlannerCall) (cfg : ConfigRef)
    (h : c.pathConfig = some cfg) : c.isSwitch = false := by
  cases c <;> simp_all [PlannerCall.pathConfig, PlannerCall.isSwitch]

theorem partCalls_split (ext : Externals) (settings : Settings) (storage : SliceDataStorage)
    (mesh : MeshPtr) (layer : SliceLayer) (layer_nr : Nat) (sar : Bool) (order_idx : Nat)
    (r : List PlannerCall × List GcodeCall)
    (h : addMeshLayerToGCode.partCalls ext settings storage mesh layer layer_nr sar order_idx
      = some r) :
    ∃ front back, r.1 = front ++ back ∧
      (∀ c ∈ front, c.isSwitch = false ∧
        c.pathConfig ≠ some (ConfigRef.inset0_config mesh.1)) ∧
      (∀ c ∈ back, c.isSwitch = false ∧
        c.pathConfig ≠ some (ConfigRef.insetX_config mesh.1)) := by
  simp only [addMeshLayerToGCode.partCalls, Option.bind_eq_some, Option.map_eq_some'] at h
  obtain ⟨part, _, isNew, _, calls, hcalls, rfl⟩ := h
  simp only
  split at hcalls
  · simp only [Option.map_eq_some'] at hcalls
    obtain ⟨skin, hskin, rfl⟩ := hcalls
    obtain ⟨front, back, h1, h2, h3⟩ := processInsets_split settings mesh part layer_nr
    have hs := skin_config_of_mem ext settings mesh part layer_nr _ _ _ skin hskin
    refine ⟨processMultiLayerInfill ext settings mesh part settings.infill_line_distance
        settings.fill_overlap (if layer_nr % 2 = 1 then 45 + 90 else 45)
        settings.infill_line_width
      ++ processSingleLayerInfill ext settings mesh part settings.infill_line_distance
        settings.fill_overlap (if layer_nr % 2 = 1 then 45 + 90 else 45)
        settings.infill_line_width ++ front, back ++ skin, ?_, ?_, ?_⟩
    · rw [h1]; simp only [List.append_assoc]
    · intro c hc
      rcases List.mem_append.mp hc with hc | hc
      · rcases List.mem_append.mp hc with hc | hc
        · obtain ⟨k, hk⟩ := multiLayerInfill_config ext settings mesh part _ _ _ _ c hc
          exact ⟨isSwitch_of_pathConfig c _ hk, by rw [hk]; simp⟩
        · obtain ⟨k, hk⟩ := singleLayerInfill_config ext settings mesh part _ _ _ _ c hc
          exact ⟨isSwitch_of_pathConfig c _ hk, by rw [hk]; simp⟩
      · exact h2 c hc
    · intro c hc
      rcases List.mem_append.mp hc with hc | hc
      · have := h3 c hc
        exact ⟨isSwitch_of_pathConfig c _ this, by rw [this]; simp⟩
      · have := hs c hc
        exact ⟨isSwitch_of_pathConfig c _ this, by rw [this]; simp⟩
  · simp only [Option.some.injEq] at hcalls
    subst hcalls
    exact ⟨[], [], by simp, by simp, by simp⟩

theorem partLoop_split (ext : Externals) (settings : Settings) (storage : SliceDataStorage)
    (mesh : MeshPtr) (layer : SliceLayer) (layer_nr : Nat) (sar : Bool)
    (order : List Nat) :
    ∀ (r : List (List PlannerCall) × List GcodeCall),
      addMeshLayerToGCode.partLoop ext settings storage mesh layer layer_nr sar order = some r →
      ∀ calls ∈ r.1, ∃ front back, calls = front ++ back ∧
        (∀ c ∈ front, c.isSwitch = false ∧
          c.pathConfig ≠ some (ConfigRef.inset0_config mesh.1)) ∧
        (∀ c ∈ back, c.isSwitch = false ∧
          c.pathConfig ≠ some (ConfigRef.insetX_config mesh.1)) := by
  induction order with
  | nil =>
    intro r h calls hc
    simp only [addMeshLayerToGCode.partLoop, Option.some.injEq] at h
    subst h
    simp at hc
  | cons idx rest ih =>
    intro r h calls hc
    simp only [addMeshLayerToGCode.partLoop, Option.bind_eq_some, Option.map_eq_some'] at h
    obtain ⟨r1, h1, rs, h2, rfl⟩ := h
    rcases List.mem_cons.mp hc with hc | hc
    · rw [hc]
      exact partCalls_split ext settings storage mesh layer layer_nr sar idx r1 h1
    · exact ih rs h2 calls hc

/-! ## Wipe tower -/

theorem emitInsets_take (insets : List Polygons) :
    ∀ k : Nat, k ≤ insets.length →
    addWipeTower.emitInsets insets k (insets.length - k)
      = some ((insets.take k).reverse.map fun inset =>
          PlannerCall.addPolygonsByOptimizer inset (ConfigRef.insetX_config 0)) := by
  intro k
  induction k with
  | zero => intro _; simp [addWipeTower.emitInsets]
  | succ k ih =>
    intro hk
    have hidx : insets.length - 1 - (insets.length - (k + 1)) = k := by omega
    have hnext : insets.length - (k + 1) + 1 = insets.length - k := by omega
    have hlt : k < insets.length := by omega
    simp only [addWipeTower.emitInsets, hidx, hnext, ih (by omega),
      List.getElem?_eq_getElem hlt, Option.some_bind, Option.map_some']
    have ht : insets.take (k + 1) = insets.take k ++ [insets[k]] := by
      rw [List.take_succ, List.getElem?_eq_getElem hlt]; rfl
    rw [ht, List.reverse_append, List.map_append]
    rfl

theorem emitInsets_all (insets : List Polygons) :
    addWipeTower.emitInsets insets insets.length 0
      = some (insets.reverse.map fun inset =>
          PlannerCall.addPolygonsByOptimizer inset (ConfigRef.insetX_config 0)) := by
  have := emitInsets_take insets insets.length (le_refl _)
  simpa using this

theorem growInsets_ne_nil (ext : Externals) (offset : Int) (fuel : Nat) :
    ∀ (insets grown : List Polygons),
      addWipeTower.growInsets ext offset fuel insets = some grown → grown ≠ [] := by
  induction fuel with
  | zero => intro insets grown h; simp [addWipeTower.growInsets] at h
  | succ fuel ih =>
    intro insets grown h
    simp only [addWipeTower.growInsets, Option.bind_eq_some] at h
    obtain ⟨last, hlast, h2⟩ := h
    split at h2
    · simp only [Option.some.injEq] at h2
      subst h2
      intro hnil
      simp [hnil] at hlast
    · exact ih _ grown h2

/-- The calls `addWipeTower` records: nothing without a wipe tower, else the insets of the
tower from the innermost to the starting polygon, then the wipe travel. -/
theorem addWipeTower_calls (ext : Externals) (settings : Settings) (fuel : Nat)
    (storage : SliceDataStorage) (g g2 : GCodePlanner) (layer_nr : Nat) (prev : Int)
    (h : addWipeTower ext settings fuel storage g layer_nr prev = some g2) :
    g2.currentExtruder = g.currentExtruder ∧
    ((settings.wipe_tower_size < 1 ∧ g2.calls = g.calls) ∨
     (1 ≤ settings.wipe_tower_size ∧ ∃ insets,
        addWipeTower.insets ext settings fuel storage layer_nr = some insets ∧ insets ≠ [] ∧
        g2.calls = g.calls ++ ((insets.reverse.map fun inset =>
            PlannerCall.addPolygonsByOptimizer inset (ConfigRef.insetX_config 0))
          ++ [PlannerCall.addTravel (storage.wipePoint - ext.getExtruderOffset prev
            + ext.getExtruderOffset g.currentExtruder)]))) := by
  unfold addWipeTower at h
  split at h
  · simp only [Option.some.injEq] at h
    subst h
    exact ⟨rfl, Or.inl ⟨by assumption, rfl⟩⟩
  · simp only [Option.bind_eq_some, Option.map_eq_some', emitInsets_all,
      Option.some.injEq] at h
    obtain ⟨insets, hin, calls, rfl, rfl⟩ := h
    refine ⟨rfl, Or.inr ⟨by omega, insets, hin, ?_, rfl⟩⟩
    exact growInsets_ne_nil ext _ fuel _ insets hin

/-- The calls `switchExtruder` records: the `setExtruder` call and, when it reports a change
and there is a wipe tower, the calls of `addWipeTower`. -/
theorem switchExtruder_calls (ext : Externals) (settings : Settings) (fuel : Nat)
    (storage : SliceDataStorage) (g g2 : GCodePlanner) (layer_nr : Nat) (e : Int)
    (h : switchExtruder ext settings fuel storage g layer_nr e = some g2) :
    g2.currentExtruder = e ∧
    (g2.calls = g.calls ++ [PlannerCall.setExtruder e false] ∨
     (settings.wipe_tower_size < 1 ∧ g2.calls = g.calls ++ [PlannerCall.setExtruder e true]) ∨
     (1 ≤ settings.wipe_tower_size ∧ ∃ insets,
        addWipeTower.insets ext settings fuel storage layer_nr = some insets ∧ insets ≠ [] ∧
        g2.calls = g.calls ++ (PlannerCall.setExtruder e true
          :: ((insets.reverse.map fun inset =>
              PlannerCall.addPolygonsByOptimizer inset (ConfigRef.insetX_config 0))
            ++ [PlannerCall.addTravel (storage.wipePoint
              - ext.getExtruderOffset g.currentExtruder + ext.getExtruderOffset e)])))) := by
  unfold switchExtruder at h
  by_cases he : e = g.currentExtruder
  · simp only [GCodePlanner.setExtruder, he, if_true, Bool.false_eq_true, if_false,
      Option.some.injEq] at h
    subst h
    exact ⟨he.symm, Or.inl (by simp [GCodePlanner.add, he])⟩
  · simp only [GCodePlanner.setExtruder, he, if_false, if_true] at h
    obtain ⟨h1, h2⟩ := addWipeTower_calls ext settings fuel storage _ g2 layer_nr _ h
    refine ⟨h1, Or.inr ?_⟩
    rcases h2 with ⟨hw, hc⟩ | ⟨hw, insets, hin, hne, hc⟩
    · exact Or.inl ⟨hw, hc⟩
    · exact Or.inr ⟨hw, insets, hin, hne, by rw [hc]; simp⟩

theorem switchExtruder_no_inset0 (ext : Externals) (settings : Settings) (fuel : Nat)
    (storage : SliceDataStorage) (g g2 : GCodePlanner) (layer_nr : Nat) (e : Int)
    (h : switchExtruder ext settings fuel storage g layer_nr e = some g2) :
    ∃ head, g2.calls = g.calls ++ head ∧
      ∀ c ∈ head, ∀ k, c.pathConfig ≠ some (ConfigRef.inset0_config k) := by
  obtain ⟨_, h2⟩ := switchExtruder_calls ext settings fuel storage g g2 layer_nr e h
  rcases h2 with hc | ⟨_, hc⟩ | ⟨_, insets, _, _, hc⟩
  · refine ⟨_, hc, ?_⟩
    intro c hmem k
    rw [List.mem_singleton.mp hmem]; simp [PlannerCall.pathConfig]
  · refine ⟨_, hc, ?_⟩
    intro c hmem k
    rw [List.mem_singleton.mp hmem]; simp [PlannerCall.pathConfig]
  · refine ⟨_, hc, ?_⟩
    intro c hmem k
    simp only [List.mem_cons, List.mem_append, List.mem_map, List.mem_reverse,
      List.not_mem_nil, or_false] at hmem
    rcases hmem with hmem | ⟨_, _, hmem⟩ | hmem
    · rw [hmem]; simp [PlannerCall.pathConfig]
    · rw [← hmem]; simp [PlannerCall.pathConfig]
    · rw [hmem]; simp [PlannerCall.pathConfig]

/-- C6, amended: the paths `addMeshLayerToGCode` adds are those of the extruder switch (with
its wipe tower) followed by those of each part in part order, and within the paths of each
part every path added under `inset0_config` comes after every path added under
`insetX_config`; for a layer of at most one part this holds for all the paths of the mesh
layer, the wipe tower's included. -/
theorem addMeshLayerToGCode_insets_order (ext : Externals) (settings : Settings) (fuel : Nat)
    (view : GcodeView) (storage : SliceDataStorage) (mesh : MeshPtr)
    (gcodeLayer : GCodePlanner) (layer_nr : Nat) (r : GCodePlanner × List GcodeCall)
    (h : addMeshLayerToGCode ext settings fuel view storage mesh gcodeLayer layer_nr
      = some r) :
    ∃ layer polys head parts,
      mesh.2.layers[layer_nr]? = some layer ∧
      addMeshLayerToGCode.firstPolygons layer.parts = some polys ∧
      addMeshLayerToGCode.partLoop ext settings storage mesh layer layer_nr
        (settings.skin_alternate_rotation
          && (decide (settings.top_layers ≥ 4) || decide (settings.bottom_layers ≥ 4)))
        (ext.polyOrder view.startPositionXY polys) = some (parts, r.2) ∧
      r.1.calls = gcodeLayer.calls ++ head ++ parts.flatten ∧
      (∀ calls ∈ parts, InsetsOrdered mesh.1 calls) ∧
      (parts.length ≤ 1 → InsetsOrdered mesh.1 (head ++ parts.flatten)) := by
  simp only [addMeshLayerToGCode, Option.bind_eq_some, Option.map_eq_some'] at h
  obtain ⟨g1, hsw, layer, hlayer, polys, hpolys, rp, hloop, rfl⟩ := h
  obtain ⟨head, hhead, hno⟩ :=
    switchExtruder_no_inset0 ext settings fuel storage gcodeLayer g1 layer_nr _ hsw
  have hsplit := partLoop_split ext settings storage mesh layer layer_nr _ _ rp hloop
  refine ⟨layer, polys, head, rp.1, hlayer, hpolys, hloop, ?_, ?_, ?_⟩
  · simp [GCodePlanner.add, hhead]
  · intro calls hc
    obtain ⟨front, back, rfl, hf, hb⟩ := hsplit calls hc
    exact insetsOrdered_of_split mesh.1 front back (fun c hc => (hf c hc).2)
      (fun c hc => (hb c hc).2)
  · intro hlen
    cases hp : rp.1 with
    | nil =>
      simp only [List.flatten_nil, List.append_nil]
      have := insetsOrdered_of_split mesh.1 head [] (fun c hc => hno c hc mesh.1) (by simp)
      simpa using this
    | cons calls rest =>
      have hrest : rest = [] := by
        rw [hp] at hlen
        simp only [List.length_cons] at hlen
        exact List.length_eq_zero.mp (by omega)
      subst hrest
      obtain ⟨front, back, rfl, hf, hb⟩ := hsplit calls (by rw [hp]; simp)
      have := insetsOrdered_of_split mesh.1 (head ++ front) back
        (fun c hc => by
          rcases List.mem_append.mp hc with hc | hc
          · exact hno c hc mesh.1
          · exact (hf c hc).2)
        (fun c hc => (hb c hc).2)
      simpa [List.append_assoc] using this

theorem addMeshLayerToGCode_insets_order_witness :
    ∃ r, addMeshLayerToGCode sampleExternals sampleSettings 0 sampleView twoPartStorage
        (0, twoPartMesh) { currentExtruder := 0, calls := [] } 0 = some r ∧
      ∃ layer polys head parts,
        twoPartMesh.layers[0]? = some layer ∧
        addMeshLayerToGCode.firstPolygons layer.parts = some polys ∧
        addMeshLayerToGCode.partLoop sampleExternals sampleSettings twoPartStorage
          (0, twoPartMesh) layer 0
          (sampleSettings.skin_alternate_rotation
            && (decide (sampleSettings.top_layers ≥ 4)
              || decide (sampleSettings.bottom_layers ≥ 4)))
          (sampleExternals.polyOrder sampleView.startPositionXY polys) = some (parts, r.2) ∧
        r.1.calls = [] ++ head ++ parts.flatten ∧
        (∀ calls ∈ parts, InsetsOrdered 0 calls) ∧
        (parts.length ≤ 1 → InsetsOrdered 0 (head ++ parts.flatten)) :=
  ⟨_, rfl, addMeshLayerToGCode_insets_order sampleExternals sampleSettings 0 sampleView
    twoPartStorage (0, twoPartMesh) { currentExtruder := 0, calls := [] } 0 _ rfl⟩

/-! ## Extruder changes and the wipe tower -/

theorem wipeFollows_of_no_switch (ext : Externals) (settings : Settings) (fuel : Nat)
    (storage : SliceDataStorage) (layer_nr : Nat) (calls : List PlannerCall)
    (h : ∀ c ∈ calls, c.isSwitch = false) :
    WipeFollows ext settings fuel storage layer_nr calls := by
  intro pre post e hc
  have := h (PlannerCall.setExtruder e true) (by rw [hc]; simp)
  simp [PlannerCall.isSwitch] at this

theorem wipeFollows_append (ext : Externals) (settings : Settings) (fuel : Nat)
    (storage : SliceDataStorage) (layer_nr : Nat) (a b : List PlannerCall)
    (ha : WipeFollows ext settings fuel storage layer_nr a)
    (hb : WipeFollows ext settings fuel storage layer_nr b) :
    WipeFollows ext settings fuel storage layer_nr (a ++ b) := by
  intro pre post e hc
  rcases List.append_eq_append_iff.mp hc with ⟨a2, rfl, h2⟩ | ⟨c2, h1, h2⟩
  · exact hb a2 post e h2
  · cases c2 with
    | nil =>
      simp only [List.nil_append] at h2
      exact hb [] post e (by simp [← h2])
    | cons x c3 =>
      simp only [List.cons_append, List.cons.injEq] at h2
      obtain ⟨rfl, rfl⟩ := h2
      obtain ⟨prev, insets, rest, hi, hne, hp⟩ := ha pre c3 e h1
      exact ⟨prev, insets, rest ++ b, hi, hne, by rw [hp]; simp⟩

theorem wipeFollows_switchExtruder (ext : Externals) (settings : Settings) (fuel : Nat)
    (storage : SliceDataStorage) (g g2 : GCodePlanner) (layer_nr : Nat) (e : Int)
    (hw : 1 ≤ settings.wipe_tower_size)
    (h : switchExtruder ext settings fuel storage g layer_nr e = some g2) :
    ∃ d, g2.calls = g.calls ++ d ∧ WipeFollows ext settings fuel storage layer_nr d := by
  obtain ⟨_, h2⟩ := switchExtruder_calls ext settings fuel storage g g2 layer_nr e h
  rcases h2 with hc | ⟨hlt, _⟩ | ⟨_, insets, hin, hne, hc⟩
  · refine ⟨_, hc, wipeFollows_of_no_switch ext settings fuel storage layer_nr _ ?_⟩
    intro c hmem
    rw [List.mem_singleton.mp hmem]; rfl
  · omega
  · refine ⟨_, hc, ?_⟩
    intro pre post e2 heq
    cases pre with
    | nil =>
      simp only [List.nil_append, List.cons.injEq, PlannerCall.setExtruder.injEq,
        and_true] at heq
      obtain ⟨rfl, rfl⟩ := heq
      exact ⟨g.currentExtruder, insets, [], hin, hne, rfl⟩
    | cons x pre2 =>
      simp only [List.cons_append, List.cons.injEq] at heq
      have hmem : PlannerCall.setExtruder e2 true ∈
          (insets.reverse.map fun inset =>
            PlannerCall.addPolygonsByOptimizer inset (ConfigRef.insetX_config 0))
          ++ [PlannerCall.addTravel (storage.wipePoint
            - ext.getExtruderOffset g.currentExtruder + ext.getExtruderOffset e)] := by
        rw [heq.2]; simp
      simp at hmem

theorem flatten_no_switch (parts : List (List PlannerCall))
    (h : ∀ calls ∈ parts, ∀ c ∈ calls, c.isSwitch = false) :
    ∀ c ∈ parts.flatten, c.isSwitch = false := by
  intro c hc
  obtain ⟨calls, h1, h2⟩ := List.mem_flatten.mp hc
  exact h calls h1 c h2

theorem wipeFollows_addMeshLayerToGCode (ext : Externals) (settings : Settings) (fuel : Nat)
    (view : GcodeView) (storage : SliceDataStorage) (mesh : MeshPtr)
    (g : GCodePlanner) (layer_nr : Nat) (r : GCodePlanner × List GcodeCall)
    (hw : 1 ≤ settings.wipe_tower_size)
    (h : addMeshLayerToGCode ext settings fuel view storage mesh g layer_nr = some r) :
    ∃ d, r.1.calls = g.calls ++ d ∧ WipeFollows ext settings fuel storage layer_nr d := by
  simp only [addMeshLayerToGCode, Option.bind_eq_some, Option.map_eq_some'] at h
  obtain ⟨g1, hsw, layer, _, polys, _, rp, hloop, rfl⟩ := h
  obtain ⟨d1, hd1, hwf⟩ :=
    wipeFollows_switchExtruder ext settings fuel storage g g1 layer_nr _ hw hsw
  have hsplit := partLoop_split ext settings storage mesh layer layer_nr _ _ rp hloop
  refine ⟨d1 ++ rp.1.flatten, by simp [GCodePlanner.add, hd1],
    wipeFollows_append ext settings fuel storage layer_nr _ _ hwf
      (wipeFollows_of_no_switch ext settings fuel storage layer_nr _
        (flatten_no_switch _ ?_))⟩
  intro calls hc c hmem
  obtain ⟨front, back, rfl, hf, hb⟩ := hsplit calls hc
  rcases List.mem_append.mp hmem with hm | hm
  · exact (hf c hm).1
  · exact (hb c hm).1

theorem wipeFollows_add (ext : Externals) (settings : Settings) (fuel : Nat)
    (storage : SliceDataStorage) (layer_nr : Nat) (g g1 : GCodePlanner)
    (d1 extra : List PlannerCall) (hd1 : g1.calls = g.calls ++ d1)
    (hwf : WipeFollows ext settings fuel storage layer_nr d1)
    (hx : ∀ c ∈ extra, c.isSwitch = false) :
    ∃ d, (g1.add extra).calls = g.calls ++ d
      ∧ WipeFollows ext settings fuel storage layer_nr d :=
  ⟨d1 ++ extra, by simp [GCodePlanner.add, hd1],
    wipeFollows_append ext settings fuel storage layer_nr _ _ hwf
      (wipeFollows_of_no_switch ext settings fuel storage layer_nr _ hx)⟩

theorem wipeFollows_magicPolygonMode (ext : Externals) (settings : Settings) (fuel : Nat)
    (storage : SliceDataStorage) (mesh : MeshPtr) (g g2 : GCodePlanner) (layer_nr : Nat)
    (hw : 1 ≤ settings.wipe_tower_size)
    (h : addMeshLayerToGCode_magicPolygonMode ext settings fuel storage mesh g layer_nr
      = some g2) :
    ∃ d, g2.calls = g.calls ++ d ∧ WipeFollows ext settings fuel storage layer_nr d := by
  simp only [addMeshLayerToGCode_magicPolygonMode, Option.bind_eq_some,
    Option.map_eq_some'] at h
  obtain ⟨g1, hsw, layer, _, rfl⟩ := h
  obtain ⟨d1, hd1, hwf⟩ :=
    wipeFollows_switchExtruder ext settings fuel storage g g1 layer_nr _ hw hsw
  refine wipeFollows_add ext settings fuel storage layer_nr g g1 d1 _ hd1 hwf ?_
  intro c hmem
  rcases List.mem_append.mp hmem with hm | hm
  · split at hm
    · rw [List.mem_singleton.mp hm]; rfl
    · simp at hm
  · rw [List.mem_singleton.mp hm]; rfl

theorem island_no_switch (ext : Externals) (settings : Settings) (layer_nr : Nat)
    (island : Polygons) :
    ∀ c ∈ addSupportToGCode.island ext settings layer_nr island, c.isSwitch = false := by
  intro c hc
  simp only [addSupportToGCode.island, List.mem_append, List.mem_singleton] at hc
  rcases hc with hc | hc
  · split at hc
    · rw [List.mem_singleton.mp hc]; rfl
    · simp at hc
  · rw [hc]; rfl

theorem islandLoop_no_switch (ext : Externals) (settings : Settings) (layer_nr : Nat)
    (islands : List Polygons) (order : List Nat) (left : Nat) :
    ∀ (n : Nat) (calls : List PlannerCall),
      addSupportToGCode.islandLoop ext settings layer_nr islands order left n = some calls →
      ∀ c ∈ calls, c.isSwitch = false := by
  induction left with
  | zero =>
    intro n calls h c hc
    simp only [addSupportToGCode.islandLoop, Option.some.injEq] at h
    subst h
    simp at hc
  | succ left ih =>
    intro n calls h c hc
    simp only [addSupportToGCode.islandLoop, Option.bind_eq_some, Option.map_eq_some'] at h
    obtain ⟨island, _, rest, hrest, rfl⟩ := h
    rcases List.mem_append.mp hc with hc | hc
    · exact island_no_switch ext settings layer_nr island c hc
    · exact ih (n + 1) rest hrest c hc

theorem wipeFollows_addSupportToGCode (ext : Externals) (settings : Settings) (fuel : Nat)
    (view : GcodeView) (storage : SliceDataStorage) (g g2 : GCodePlanner) (layer_nr : Nat)
    (hw : 1 ≤ settings.wipe_tower_size)
    (h : addSupportToGCode ext settings fuel view storage g layer_nr = some g2) :
    ∃ d, g2.calls = g.calls ++ d ∧ WipeFollows ext settings fuel storage layer_nr d := by
  unfold addSupportToGCode at h
  split at h
  · simp only [Option.some.injEq] at h
    subst h
    exact ⟨[], by simp, wipeFollows_of_no_switch ext settings fuel storage layer_nr [] (by simp)⟩
  · simp only [Option.bind_eq_some, Option.map_eq_some'] at h
    obtain ⟨g1, hsw, support, _, polys, _, calls, hloop, rfl⟩ := h
    have hd1 : ∃ d1, g1.calls = g.calls ++ d1
        ∧ WipeFollows ext settings fuel storage layer_nr d1 := by
      split at hsw
      · exact wipeFollows_switchExtruder ext settings fuel storage g g1 layer_nr _ hw hsw
      · simp only [Option.some.injEq] at hsw
        subst hsw
        exact ⟨[], by simp,
          wipeFollows_of_no_switch ext settings fuel storage layer_nr [] (by simp)⟩
    obtain ⟨d1, hd1, hwf⟩ := hd1
    exact ⟨d1 ++ calls, by simp [GCodePlanner.add, hd1],
      wipeFollows_append ext settings fuel storage layer_nr _ _ hwf
        (wipeFollows_of_no_switch ext settings fuel storage layer_nr _
          (islandLoop_no_switch ext settings layer_nr _ _ _ 0 calls hloop))⟩

theorem wipeFollows_meshLoop (ext : Externals) (settings : Settings) (fuel : Nat)
    (view : GcodeView) (storage : SliceDataStorage) (layer_nr : Nat)
    (hw : 1 ≤ settings.wipe_tower_size) (order : List MeshPtr) :
    ∀ (g : GCodePlanner) (r : GCodePlanner × List GcodeCall),
      processLayer.meshLoop ext settings fuel view storage layer_nr order g = some r →
      ∃ d, r.1.calls = g.calls ++ d ∧ WipeFollows ext settings fuel storage layer_nr d := by
  induction order with
  | nil =>
    intro g r h
    simp only [processLayer.meshLoop, Option.some.injEq] at h
    subst h
    exact ⟨[], by simp, wipeFollows_of_no_switch ext settings fuel storage layer_nr [] (by simp)⟩
  | cons mesh rest ih =>
    intro g r h
    simp only [processLayer.meshLoop, Option.bind_eq_some, Option.map_eq_some'] at h
    obtain ⟨r1, h1, rs, h2, rfl⟩ := h
    have hd1 : ∃ d1, r1.1.calls = g.calls ++ d1
        ∧ WipeFollows ext settings fuel storage layer_nr d1 := by
      split at h1
      · simp only [Option.map_eq_some'] at h1
        obtain ⟨g1, hg1, rfl⟩ := h1
        exact wipeFollows_magicPolygonMode ext settings fuel storage mesh g g1 layer_nr hw hg1
      · exact wipeFollows_addMeshLayerToGCode ext settings fuel view storage mesh g layer_nr
          r1 hw h1
    obtain ⟨d1, hd1, hwf1⟩ := hd1
    obtain ⟨d2, hd2, hwf2⟩ := ih r1.1 rs h2
    exact ⟨d1 ++ d2, by simp [hd2, hd1],
      wipeFollows_append ext settings fuel storage layer_nr _ _ hwf1 hwf2⟩

theorem skirt_no_switch (ext : Externals) (view : GcodeView) (storage : SliceDataStorage)
    (layer_nr : Nat) : ∀ c ∈ processSkirt ext view storage layer_nr, c.isSwitch = false := by
  intro c hc
  unfold processSkirt at hc
  split at hc
  · rcases List.mem_append.mp hc with hc | hc
    · split at hc
      · rw [List.mem_singleton.mp hc]; rfl
      · simp at hc
    · rw [List.mem_singleton.mp hc]; rfl
  · simp at hc

theorem oozeShield_no_switch (settings : Settings) (storage : SliceDataStorage)
    (layer_nr : Nat) (calls : List PlannerCall)
    (h : processOozeShield settings storage layer_nr = some calls) :
    ∀ c ∈ calls, c.isSwitch = false := by
  intro c hc
  unfold processOozeShield at h
  split at h
  · simp only [Option.map_eq_some'] at h
    obtain ⟨shield, _, rfl⟩ := h
    simp only [List.mem_cons, List.mem_singleton, List.not_mem_nil, or_false] at hc
    rcases hc with hc | hc | hc <;> rw [hc] <;> rfl
  · simp only [Option.some.injEq] at h
    subst h
    simp at hc

theorem wipeFollows_step (ext : Externals) (settings : Settings) (fuel : Nat)
    (storage : SliceDataStorage) (layer_nr : Nat) (g g2 : GCodePlanner)
    (hg : WipeFollows ext settings fuel storage layer_nr g.calls)
    (h : ∃ d, g2.calls = g.calls ++ d ∧ WipeFollows ext settings fuel storage layer_nr d) :
    WipeFollows ext settings fuel storage layer_nr g2.calls := by
  obtain ⟨d, hd, hwf⟩ := h
  rw [hd]
  exact wipeFollows_append ext settings fuel storage layer_nr _ _ hg hwf

/-- C7: in every layer processed by `processLayer` with `wipe_tower_size ≥ 1`, whenever a
`setExtruder` call on the planner reports that the extruder changed, the calls that follow
it on the planner are the wipe-tower insets of `addWipeTower` and then its wipe travel,
before anything else is added. -/
theorem processLayer_wipe_follows_switch (ext : Externals) (settings : Settings) (fuel : Nat)
    (isMergeMeshes isStackLayerParts : Bool) (view : GcodeView)
    (storage : SliceDataStorage) (layerCount : Int) (layer_nr : Nat) (has_raft : Bool)
    (r : LayerResult) (hw : 1 ≤ settings.wipe_tower_size)
    (h : processLayer ext settings fuel isMergeMeshes isStackLayerParts view storage
      layerCount layer_nr has_raft = some r)
    (pre post : List PlannerCall) (e : Int)
    (hc : r.plannerCalls = pre ++ PlannerCall.setExtruder e true :: post) :
    ∃ prev insets rest,
      addWipeTower.insets ext settings fuel storage layer_nr = some insets ∧ insets ≠ [] ∧
      post = (insets.reverse.map fun inset =>
          PlannerCall.addPolygonsByOptimizer inset (ConfigRef.insetX_config 0))
        ++ PlannerCall.addTravel (storage.wipePoint - ext.getExtruderOffset prev
            + ext.getExtruderOffset e) :: rest := by
  simp only [processLayer] at h
  generalize hg0 : GCodePlanner.add
    (if settings.retraction_combing = false then
      GCodePlanner.add { currentExtruder := view.extruderNr, calls := [] }
        [PlannerCall.setAlwaysRetract true]
    else { currentExtruder := view.extruderNr, calls := [] })
    (processSkirt ext view storage layer_nr) = g0 at h
  simp only [Option.bind_eq_some, Option.map_eq_some'] at h
  obtain ⟨startPos, _, gA, hA, shield, hshield, order, _, meshes, hmeshes, gB, hB, isNew, _,
    rfl⟩ := h
  have h0 : WipeFollows ext settings fuel storage layer_nr g0.calls := by
    rw [← hg0]
    apply wipeFollows_of_no_switch
    intro c hmem
    simp only [GCodePlanner.add] at hmem
    rcases List.mem_append.mp hmem with hm | hm
    · split at hm
      · simp only [List.nil_append, List.mem_singleton] at hm
        rw [hm]; rfl
      · simp at hm
    · exact skirt_no_switch ext view storage layer_nr c hm
  have hgA : WipeFollows ext settings fuel storage layer_nr gA.calls := by
    split at hA
    · exact wipeFollows_step ext settings fuel storage layer_nr _ gA h0
        (wipeFollows_addSupportToGCode ext settings fuel view storage _ gA layer_nr hw hA)
    · simp only [Option.some.injEq] at hA
      rw [← hA]; exact h0
  have hgS : WipeFollows ext settings fuel storage layer_nr (gA.add shield).calls :=
    wipeFollows_append ext settings fuel storage layer_nr _ _ hgA
      (wipeFollows_of_no_switch ext settings fuel storage layer_nr _
        (oozeShield_no_switch settings storage layer_nr shield hshield))
  have hgM : WipeFollows ext settings fuel storage layer_nr meshes.1.calls :=
    wipeFollows_step ext settings fuel storage layer_nr _ meshes.1 hgS
      (wipeFollows_meshLoop ext settings fuel view storage layer_nr hw order _ meshes hmeshes)
  have hgB : WipeFollows ext settings fuel storage layer_nr gB.calls := by
    split at hB
    · exact wipeFollows_step ext settings fuel storage layer_nr _ gB hgM
        (wipeFollows_addSupportToGCode ext settings fuel view storage _ gB layer_nr hw hB)
    · simp only [Option.some.injEq] at hB
      rw [← hB]; exact hgM
  have hfin : WipeFollows ext settings fuel storage layer_nr
      (processFanSpeedAndMinimalLayerTime ext settings gB layer_nr).1.calls :=
    wipeFollows_append ext settings fuel storage layer_nr _ _ hgB
      (wipeFollows_of_no_switch ext settings fuel storage layer_nr _ (by
        intro c hmem
        rw [List.mem_singleton.mp hmem]; rfl))
  exact hfin pre post e hc

theorem processLayer_wipe_follows_switch_witness :
    1 ≤ wipeSettings.wipe_tower_size ∧
    wipeLayerCalls
      = wipeLayerCalls.take 15 ++ PlannerCall.setExtruder 1 true :: wipeLayerCalls.drop 16 ∧
    ∃ prev insets rest,
      addWipeTower.insets sampleExternals wipeSettings 3 threeMeshStorage 0 = some insets ∧
      insets ≠ [] ∧
      wipeLayerCalls.drop 16 = (insets.reverse.map fun inset =>
          PlannerCall.addPolygonsByOptimizer inset (ConfigRef.insetX_config 0))
        ++ PlannerCall.addTravel (threeMeshStorage.wipePoint
            - sampleExternals.getExtruderOffset prev
            + sampleExternals.getExtruderOffset 1) :: rest :=
  ⟨by decide, rfl,
    processLayer_wipe_follows_switch sampleExternals wipeSettings 3 false false sampleView
      threeMeshStorage 0 0 false _ (by decide) rfl (wipeLayerCalls.take 15)
      (wipeLayerCalls.drop 16) 1 rfl⟩

/-! ## Layer comments -/

theorem layerComments_append (a b : List GcodeCall) :
    layerComments (a ++ b) = layerComments a ++ layerComments b := by
  simp [layerComments, List.filterMap_append]

theorem layerComments_of_none (gcode : List GcodeCall)
    (h : ∀ c ∈ gcode, ∀ n, c ≠ GcodeCall.writeLayerComment n) : layerComments gcode = [] := by
  induction gcode with
  | nil => rfl
  | cons c rest ih =>
    have h1 := h c (by simp)
    have h2 := ih (fun d hd => h d (by simp [hd]))
    simp only [layerComments, List.filterMap_cons] at h2 ⊢
    cases c <;> simp_all

theorem surfaceLoop_comments (ext : Externals) (settings : Settings)
    (storage : SliceDataStorage) (left : Nat) :
    ∀ i : Int, layerComments (processRaft.surfaceLoop ext settings storage left i)
      = List.replicate left (-1) := by
  induction left with
  | zero => intro i; rfl
  | succ left ih =>
    intro i
    simp only [processRaft.surfaceLoop, layerComments_append, ih, List.replicate_succ]
    rfl

theorem processRaft_comments (ext : Externals) (settings : Settings) (view : GcodeView)
    (storage : SliceDataStorage) :
    layerComments (processRaft ext settings view storage)
      = -2 :: List.replicate (1 + settings.raft_surface_layers.toNat) (-1) := by
  simp only [processRaft, layerComments_append, surfaceLoop_comments]
  rw [Nat.add_comm, List.replicate_succ]
  rfl

theorem temperatures_comments (wait : Bool) (meshes : List SliceMeshStorage) :
    layerComments (processStartingCode.temperatures wait meshes) = [] := by
  induction meshes with
  | nil => rfl
  | cons m rest ih =>
    simp only [processStartingCode.temperatures, layerComments_append, ih, List.append_nil]
    split
    · split <;> rfl
    · rfl

theorem processStartingCode_comments (settings : Settings) (state : WriterState)
    (storage : SliceDataStorage) :
    layerComments (processStartingCode settings state storage) = [] := by
  simp only [processStartingCode, layerComments_append]
  have h1 : layerComments
      (if state.flavor = EGCodeFlavor.GCODE_FLAVOR_BFB then
        [GcodeCall.writeComment "enable auto-retraction",
         GcodeCall.writeLine
           ("M227 S" ++ toString (Int.tdiv (settings.retraction_amount * 2560) 1000)
             ++ " P" ++ toString (Int.tdiv (settings.retraction_amount * 2560) 1000))]
      else []) = [] := by
    split <;> rfl
  rw [h1]
  split
  · split <;> rfl
  · simp only [layerComments_append, temperatures_comments]
    split
    · split <;> rfl
    · rfl

theorem finalize_temperatures_comments (left : Nat) :
    ∀ e : Int, layerComments (finalize.temperatures left e) = [] := by
  induction left with
  | zero => intro e; rfl
  | succ left ih =>
    intro e
    have := ih (e + 1)
    simp only [layerComments, finalize.temperatures, List.filterMap_cons] at this ⊢
    exact this

theorem finalize_comments (settings : Settings) (state : WriterState) :
    layerComments (finalize settings state) = [] := by
  have := finalize_temperatures_comments state.MAX_EXTRUDERS 0
  simp only [layerComments, finalize, List.filterMap_cons] at this ⊢
  exact this

theorem startPos_comments (settings : Settings) (mm sl : Bool) (storage : SliceDataStorage)
    (layerCount positionZ : Int) (layer_nr : Nat) (has_raft : Bool) (sp : StartPos)
    (h : processLayerStartPos settings mm sl storage layerCount positionZ layer_nr has_raft
      = some sp) :
    layerComments sp.calls = [] := by
  simp only [processLayerStartPos, Option.map_eq_some'] at h
  obtain ⟨flag, _, rfl⟩ := h
  split <;> rfl

theorem partLoop_comments (ext : Externals) (settings : Settings) (storage : SliceDataStorage)
    (mesh : MeshPtr) (layer : SliceLayer) (layer_nr : Nat) (sar : Bool) (order : List Nat) :
    ∀ (r : List (List PlannerCall) × List GcodeCall),
      addMeshLayerToGCode.partLoop ext settings storage mesh layer layer_nr sar order = some r →
      layerComments r.2 = [] := by
  induction order with
  | nil =>
    intro r h
    simp only [addMeshLayerToGCode.partLoop, Option.some.injEq] at h
    subst h
    rfl
  | cons idx rest ih =>
    intro r h
    simp only [addMeshLayerToGCode.partLoop, Option.bind_eq_some, Option.map_eq_some'] at h
    obtain ⟨r1, h1, rs, h2, rfl⟩ := h
    simp only [addMeshLayerToGCode.partCalls, Option.bind_eq_some, Option.map_eq_some'] at h1
    obtain ⟨_, _, _, _, _, _, rfl⟩ := h1
    simp only [layerComments_append, ih rs h2, List.append_nil]
    rfl

theorem meshLoop_comments (ext : Externals) (settings : Settings) (fuel : Nat)
    (view : GcodeView) (storage : SliceDataStorage) (layer_nr : Nat)
    (order : List MeshPtr) :
    ∀ (g : GCodePlanner) (r : GCodePlanner × List GcodeCall),
      processLayer.meshLoop ext settings fuel view storage layer_nr order g = some r →
      layerComments r.2 = [] := by
  induction order with
  | nil =>
    intro g r h
    simp only [processLayer.meshLoop, Option.some.injEq] at h
    subst h
    rfl
  | cons mesh rest ih =>
    intro g r h
    simp only [processLayer.meshLoop, Option.bind_eq_some, Option.map_eq_some'] at h
    obtain ⟨r1, h1, rs, h2, rfl⟩ := h
    have hr1 : layerComments r1.2 = [] := by
      split at h1
      · simp only [Option.map_eq_some'] at h1
        obtain ⟨_, _, rfl⟩ := h1
        rfl
      · simp only [addMeshLayerToGCode, Option.bind_eq_some, Option.map_eq_some'] at h1
        obtain ⟨_, _, layer, _, polys, _, rp, hloop, rfl⟩ := h1
        exact partLoop_comments ext settings storage mesh layer layer_nr _ _ rp hloop
    simp only [layerComments_append, hr1, ih r1.1 rs h2, List.append_nil]

theorem processLayer_comments (ext : Externals) (settings : Settings) (fuel : Nat)
    (mm sl : Bool) (view : GcodeView) (storage : SliceDataStorage) (layerCount : Int)
    (layer_nr : Nat) (has_raft : Bool) (r : LayerResult)
    (h : processLayer ext settings fuel mm sl view storage layerCount layer_nr has_raft
      = some r) :
    layerComments r.gcode = [(layer_nr : Int)] := by
  simp only [processLayer, Option.bind_eq_some, Option.map_eq_some'] at h
  obtain ⟨startPos, hsp, gA, _, shield, _, order, _, meshes, hmeshes, gB, _, isNew, _,
    rfl⟩ := h
  simp only [layerComments_append,
    startPos_comments settings mm sl storage layerCount view.positionZ layer_nr has_raft
      startPos hsp,
    meshLoop_comments ext settings fuel view storage layer_nr order _ meshes hmeshes]
  rfl

theorem layerLoop_comments (ext : Externals) (settings : Settings) (fuel : Nat)
    (mm sl : Bool) (views : Nat → GcodeView) (storage : SliceDataStorage) (has_raft : Bool)
    (left : Nat) :
    ∀ (layer_nr : Nat) (layerCount : Int) (r : Int × List GcodeCall),
      writeGCode.layerLoop ext settings fuel mm sl views storage has_raft left layer_nr
        layerCount = some r →
      layerComments r.2 = List.map Int.ofNat (List.range' layer_nr left) := by
  induction left with
  | zero =>
    intro layer_nr layerCount r h
    simp only [writeGCode.layerLoop, Option.some.injEq] at h
    subst h
    rfl
  | succ left ih =>
    intro layer_nr layerCount r h
    simp only [writeGCode.layerLoop, Option.bind_eq_some, Option.map_eq_some'] at h
    obtain ⟨r1, h1, rs, h2, rfl⟩ := h
    simp only [layerComments_append,
      processLayer_comments ext settings fuel mm sl (views layer_nr) storage layerCount
        layer_nr has_raft r1 h1,
      ih (layer_nr + 1) r1.layerCount rs h2, List.range'_succ, List.map_cons,
      List.singleton_append]
    rfl

/-- C8: for `raft_surface_layers = N ≥ 0`, `processRaft` writes exactly `2 + N` layer
comments, `-2` once and then `-1` repeated `1 + N` times; and when adhesion is Raft, a run of
`writeGCode` that returns has written them all before the layer comments `0, 1, ..` of the
layer loop. -/
theorem raft_comments_before_layers (ext : Externals) (settings : Settings) (fuel : Nat)
    (startView : GcodeView) (views : Nat → GcodeView) (state : WriterState)
    (storage : SliceDataStorage) (N : Nat) (hN : settings.raft_surface_layers = (N : Int)) :
    layerComments (processRaft ext settings startView storage)
      = -2 :: List.replicate (1 + N) (-1) ∧
    (layerComments (processRaft ext settings startView storage)).length = 2 + N ∧
    ∀ gcode state2 storage2,
      settings.adhesion_type = EPlatformAdhesion.Adhesion_Raft →
      writeGCode ext settings fuel startView views state storage
        = some (Outcome.returned gcode state2 storage2) →
      ∃ mesh0, storage2.meshes[0]? = some mesh0 ∧
        layerComments gcode = (-2 :: List.replicate (1 + N) (-1))
          ++ List.map Int.ofNat (List.range mesh0.layers.length) := by
  have hraft : ∀ (view : GcodeView) (st : SliceDataStorage),
      layerComments (processRaft ext settings view st)
        = -2 :: List.replicate (1 + N) (-1) := by
    intro view st
    rw [processRaft_comments, hN, Int.toNat_natCast]
  refine ⟨hraft startView storage, ?_, ?_⟩
  · rw [hraft]; simp; omega
  · intro gcode state2 storage2 hadh h
    simp only [writeGCode, Option.bind_eq_some, Option.map_eq_some'] at h
    obtain ⟨r1, _, r2, _, h⟩ := h
    split at h
    · simp at h
    · simp only [Option.bind_eq_some, Option.map_eq_some', Option.some.injEq] at h
      obtain ⟨mesh0, hmesh0, layers, hloop, heq⟩ := h
      injection heq with hg hs hst
      subst hst
      refine ⟨mesh0, hmesh0, ?_⟩
      have hl := layerLoop_comments ext settings fuel _ _ views r2.2 _ _ 0 _ layers hloop
      rw [← hg]
      simp only [layerComments_append, hl, hadh, decide_True, if_true, hraft,
        List.range_eq_range']
      have h1 : layerComments
          (if state.fileNr = 1 then processStartingCode settings state storage
            else processNextPrintObjectCode settings state startView storage) = [] := by
        split
        · exact processStartingCode_comments settings state storage
        · rfl
      have h2 : ∀ (b : Bool) (st : WriterState), layerComments
          (if b = true then finalize settings st else []) = [] := by
        intro b st
        split
        · exact finalize_comments settings st
        · rfl
      rw [h1, h2]
      simp [layerComments]

theorem raft_comments_before_layers_witness :
    layerComments (processRaft sampleExternals raftSettings sampleView oneMeshStorage)
      = [-2, -1, -1, -1] ∧
    ∃ gcode state2 storage2,
      writeGCode sampleExternals raftSettings 3 sampleView (fun _ => sampleView) sampleState
        oneMeshStorage = some (Outcome.returned gcode state2 storage2) ∧
      ∃ mesh0, storage2.meshes[0]? = some mesh0 ∧
        layerComments gcode = (-2 :: List.replicate (1 + 2) (-1))
          ++ List.map Int.ofNat (List.range mesh0.layers.length) :=
  ⟨(raft_comments_before_layers sampleExternals raftSettings 3 sampleView
      (fun _ => sampleView) sampleState oneMeshStorage 2 rfl).1,
   _, _, _, rfl,
   (raft_comments_before_layers sampleExternals raftSettings 3 sampleView
      (fun _ => sampleView) sampleState oneMeshStorage 2 rfl).2.2 _ _ _ rfl rfl⟩

/-! ## Support areas under the storage rewriters -/

theorem addSupport_eq (supports : List Polygons) (size : Nat) (left : Nat) :
    ∀ (i : Nat) (areas : List Polygons), size - i ≤ left →
    stackLayerParts2.addSupport supports size left i areas
      = areas ++ (List.replicate (size - i) supports).flatten := by
  induction left with
  | zero =>
    intro i areas h
    have : size - i = 0 := by omega
    simp [stackLayerParts2.addSupport, this]
  | succ left ih =>
    intro i areas h
    by_cases hi : i < size
    · have h1 : size - i = (size - (i + 1)) + 1 := by omega
      simp only [stackLayerParts2.addSupport, hi, if_true]
      rw [ih (i + 1) (areas ++ supports) (by omega), h1, List.replicate_succ]
      simp [List.append_assoc]
    · have : size - i = 0 := by omega
      simp [stackLayerParts2.addSupport, hi, this]

theorem length_replicate_flatten (l : List Polygons) (n : Nat) :
    (List.replicate n l).flatten.length = n * l.length := by
  induction n with
  | zero => simp
  | succ n ih => simp [List.replicate_succ, ih, Nat.succ_mul, Nat.add_comm]

theorem stackMesh_support_length (mesh : SliceMeshStorage) (areas : List Polygons)
    (r : SliceMeshStorage × List Polygons)
    (h : stackLayerParts2.stackMesh mesh areas = some r) :
    r.2.length = areas.length * max 1 (maxParts mesh.layers) := by
  rw [stackMesh_eq] at h
  simp only [Option.some.injEq] at h
  subst h
  simp only [addSupport_eq areas (maxParts mesh.layers) (maxParts mesh.layers) 1 areas
    (by omega), List.length_append, length_replicate_flatten]
  by_cases hk : maxParts mesh.layers = 0
  · simp [hk]
  · have h1 : max 1 (maxParts mesh.layers) = (maxParts mesh.layers - 1) + 1 := by omega
    rw [h1, Nat.mul_succ, Nat.mul_comm]
    omega

theorem meshLoop_support_length (rest : List SliceMeshStorage) :
    ∀ (done : List SliceMeshStorage) (areas : List Polygons)
      (r : List SliceMeshStorage × List Polygons),
      stackLayerParts2.meshLoop rest done areas = some r →
      r.2.length = areas.length * (rest.map fun m => max 1 (maxParts m.layers)).prod := by
  induction rest with
  | nil =>
    intro done areas r h
    simp only [stackLayerParts2.meshLoop, Option.some.injEq] at h
    subst h
    simp
  | cons m rest ih =>
    intro done areas r h
    simp only [stackLayerParts2.meshLoop, Option.bind_eq_some] at h
    obtain ⟨r1, h1, h2⟩ := h
    rw [ih _ _ r h2, stackMesh_support_length m areas r1 h1]
    simp [Nat.mul_assoc]

/-- The support areas after `stackLayerParts2`: every mesh multiplies their number by the
number of its stacks. -/
theorem stackLayerParts2_support_length (storage storage2 : SliceDataStorage)
    (h : stackLayerParts2 storage = some storage2) :
    storage2.support.supportAreasPerLayer.length
      = storage.support.supportAreasPerLayer.length
        * (storage.meshes.map fun m => max 1 (maxParts m.layers)).prod := by
  simp only [stackLayerParts2, Option.map_eq_some'] at h
  obtain ⟨r, hr, rfl⟩ := h
  exact meshLoop_support_length storage.meshes [] _ r hr

theorem getElem?_replicate_flatten (l : List Polygons) (m : Nat) :
    ∀ i : Nat, i < m * l.length → (List.replicate m l).flatten[i]? = l[i % l.length]? := by
  induction m with
  | zero => intro i h; simp at h
  | succ m ih =>
    intro i h
    simp only [List.replicate_succ, List.flatten_cons]
    by_cases hi : i < l.length
    · rw [List.getElem?_append_left hi, Nat.mod_eq_of_lt hi]
    · have hle : l.length ≤ i := by omega
      rw [List.getElem?_append_right hle, ih (i - l.length) (by
        rw [Nat.succ_mul] at h; omega)]
      have hpos : 0 < l.length := by
        rcases Nat.eq_zero_or_pos l.length with h0 | h0
        · rw [h0] at h; simp at h
        · exact h0
      rw [Nat.mod_eq_sub_mod hle]

/-- C12: for every storage with `m ≥ 2` meshes, `mergeMeshes` leaves the original
`supportAreasPerLayer` list repeated `m` times; so when every mesh has `N` layers and the
original list has `N` entries, its length equals the merged layer count `m × N` and entry `i`
equals original entry `i mod N`. -/
theorem mergeMeshes_support_repeated (storage : SliceDataStorage)
    (h : 2 ≤ storage.meshes.length) :
    ∃ storage2, mergeMeshes storage = some storage2 ∧
      storage2.support.supportAreasPerLayer
        = (List.replicate storage.meshes.length storage.support.supportAreasPerLayer).flatten ∧
      ∀ N : Nat, storage.support.supportAreasPerLayer.length = N →
        (∀ mesh ∈ storage.meshes, mesh.layers.length = N) →
        storage2.support.supportAreasPerLayer.length = storage.meshes.length * N ∧
        (∃ mesh, storage2.meshes = [mesh] ∧ mesh.layers.length = storage.meshes.length * N) ∧
        ∀ i : Nat, i < storage.meshes.length * N →
          storage2.support.supportAreasPerLayer[i]?
            = storage.support.supportAreasPerLayer[i % N]? := by
  cases hm : storage.meshes with
  | nil => simp [hm] at h
  | cons m rest =>
    have hr : rest ≠ [] := by
      intro hr; simp [hm, hr] at h
    have h2 := mergeMeshes_of_two_le storage m rest hm hr
    refine ⟨_, h2, ?_, ?_⟩
    · simp [List.replicate_succ]
    · intro N hN hall
      have hsupp : storage.support.supportAreasPerLayer
            ++ (List.replicate rest.length storage.support.supportAreasPerLayer).flatten
          = (List.replicate (rest.length + 1) storage.support.supportAreasPerLayer).flatten := by
        simp [List.replicate_succ]
      refine ⟨?_, ⟨_, rfl, ?_⟩, ?_⟩
      · simp only [hsupp, length_replicate_flatten, hN, List.length_cons]
      · simp only [length_mergedLayersSpec, hm, List.length_cons]
        have : (List.map (fun m => m.layers.length) (m :: rest)) = List.replicate (rest.length + 1) N := by
          apply List.eq_replicate_iff.mpr
          refine ⟨by simp, ?_⟩
          intro b hb
          obtain ⟨a, ha, rfl⟩ := List.mem_map.mp hb
          exact hall a ha
        rw [this]
        simp
      · intro i hi
        simp only [hsupp]
        subst hN
        exact getElem?_replicate_flatten _ _ i (by simpa using hi)

theorem mergeMeshes_support_repeated_witness :
    2 ≤ twoStackStorage.meshes.length ∧
    ∃ storage2, mergeMeshes twoStackStorage = some storage2 ∧
      storage2.support.supportAreasPerLayer
        = (List.replicate twoStackStorage.meshes.length
            twoStackStorage.support.supportAreasPerLayer).flatten ∧
      storage2.support.supportAreasPerLayer.length = twoStackStorage.meshes.length * 1 ∧
      ∀ i : Nat, i < twoStackStorage.meshes.length * 1 →
        storage2.support.supportAreasPerLayer[i]?
          = twoStackStorage.support.supportAreasPerLayer[i % 1]? := by
  obtain ⟨s2, h1, h2, h3⟩ := mergeMeshes_support_repeated twoStackStorage (by decide)
  obtain ⟨h4, _, h5⟩ := h3 1 (by decide) (by decide)
  exact ⟨by decide, s2, h1, h2, h4, h5⟩

/-! ## Clearance check -/

theorem stackLayerParts2_frame (storage storage2 : SliceDataStorage)
    (h : stackLayerParts2 storage = some storage2) :
    storage2.model_max = storage.model_max ∧ (storage.meshes ≠ [] → storage2.meshes ≠ []) := by
  obtain ⟨s2, h1, h2⟩ := stackLayerParts2_meshes storage
  rw [h] at h1
  have := Option.some.inj h1
  subst this
  simp only [stackLayerParts2, Option.map_eq_some'] at h
  obtain ⟨r, _, rfl⟩ := h
  refine ⟨rfl, ?_⟩
  intro hne
  rw [h2]
  simpa using hne

theorem mergeMeshes_frame (storage : SliceDataStorage) (hne : storage.meshes ≠ []) :
    ∃ storage2, mergeMeshes storage = some storage2 ∧
      storage2.model_max = storage.model_max ∧ storage2.meshes ≠ [] := by
  cases hm : storage.meshes with
  | nil => exact absurd hm hne
  | cons m rest =>
    cases rest with
    | nil => exact ⟨storage, by simp [mergeMeshes, hm], rfl, by simp [hm]⟩
    | cons m2 rest2 =>
      exact ⟨_, mergeMeshes_of_two_le storage m (m2 :: rest2) hm (by simp), rfl, by simp⟩

/-- The storage rewriters of `writeGCode` return, raise the flags of the rewriters that are
switched on, and leave `model_max` alone. -/
theorem rewriters_frame (settings : Settings) (state : WriterState)
    (storage : SliceDataStorage) (hne : storage.meshes ≠ []) :
    ∃ r2 : WriterState × SliceDataStorage,
      ((if settings.StackLayerParts = true then
          (stackLayerParts2 storage).map fun st =>
            ({ state with isStackLayerParts := true }, st)
        else some (state, storage)).bind fun r1 =>
        (if settings.PrintMeshesSeperatly = true then
          (mergeMeshes r1.2).map fun st => ({ r1.1 with isMergeMeshes := true }, st)
        else some r1)) = some r2 ∧
      r2.2.model_max = storage.model_max ∧ r2.2.meshes ≠ [] ∧
      r2.1.isStackLayerParts = (state.isStackLayerParts || settings.StackLayerParts) ∧
      r2.1.isMergeMeshes = (state.isMergeMeshes || settings.PrintMeshesSeperatly) ∧
      r2.1.commandSocket = state.commandSocket ∧ r2.1.fileNr = state.fileNr := by
  obtain ⟨s2, hs2, _⟩ := stackLayerParts2_meshes storage
  obtain ⟨hs2max, hs2ne⟩ := stackLayerParts2_frame storage s2 hs2
  obtain ⟨s3, hs3, hs3max, hs3ne⟩ := mergeMeshes_frame s2 (hs2ne hne)
  obtain ⟨s4, hs4, hs4max, hs4ne⟩ := mergeMeshes_frame storage hne
  cases hS : settings.StackLayerParts <;> cases hM : settings.PrintMeshesSeperatly
  · exact ⟨(state, storage), by simp, rfl, hne, by simp, by simp, rfl, rfl⟩
  · exact ⟨({ state with isMergeMeshes := true }, s4), by simp [hs4], hs4max, hs4ne, by simp,
      by simp, rfl, rfl⟩
  · exact ⟨({ state with isStackLayerParts := true }, s2), by simp [hs2], hs2max, hs2ne hne,
      by simp, by simp, rfl, rfl⟩
  · exact ⟨({ state with isStackLayerParts := true, isMergeMeshes := true }, s3),
      by simp [hs2, hs3], by rw [hs3max, hs2max], hs3ne, by simp, by simp, rfl, rfl⟩

theorem writeGCode_of_clearance_failure (ext : Externals) (settings : Settings) (fuel : Nat)
    (startView : GcodeView) (views : Nat → GcodeView) (state : WriterState)
    (storage : SliceDataStorage) (hne : storage.meshes ≠ [])
    (hc : ((state.isMergeMeshes || settings.PrintMeshesSeperatly) = true
        ∨ (state.isStackLayerParts || settings.StackLayerParts) = true)
      ∧ settings.machine_nozzle_gantry_distance < storage.model_max.2.2) :
    writeGCode ext settings fuel startView views state storage
      = some (Outcome.exited ([GcodeCall.preSetup, GcodeCall.resetTotalPrintTime] ++
          (if state.fileNr = 1 then processStartingCode settings state storage
            else processNextPrintObjectCode settings state startView storage))) := by
  obtain ⟨r2, hr, hmax, _, hS, hM, _, _⟩ :=
    rewriters_frame settings { state with fileNr := state.fileNr + 1 } storage hne
  unfold writeGCode
  simp only []
  rw [← Option.bind_assoc, hr]
  simp only [Option.some_bind, hS, hM, hmax]
  rw [if_pos hc]

theorem startBody_comments (settings : Settings) (state : WriterState)
    (startView : GcodeView) (storage : SliceDataStorage) :
    layerComments
      (if state.fileNr = 1 then processStartingCode settings state storage
        else processNextPrintObjectCode settings state startView storage) = [] := by
  split
  · exact processStartingCode_comments settings state storage
  · rfl

theorem startCode_comments (settings : Settings) (state : WriterState)
    (startView : GcodeView) (storage : SliceDataStorage) :
    layerComments ([GcodeCall.preSetup, GcodeCall.resetTotalPrintTime] ++
      (if state.fileNr = 1 then processStartingCode settings state storage
        else processNextPrintObjectCode settings state startView storage)) = [] := by
  rw [layerComments_append, startBody_comments]
  rfl

theorem writeGCode_of_clearance (ext : Externals) (settings : Settings) (fuel : Nat)
    (startView : GcodeView) (views : Nat → GcodeView) (state : WriterState)
    (storage : SliceDataStorage) (hne : storage.meshes ≠ [])
    (hc : ¬ (((state.isMergeMeshes || settings.PrintMeshesSeperatly) = true
        ∨ (state.isStackLayerParts || settings.StackLayerParts) = true)
      ∧ settings.machine_nozzle_gantry_distance < storage.model_max.2.2))
    (outcome : Outcome)
    (h : writeGCode ext settings fuel startView views state storage = some outcome) :
    ∃ gcode state2 storage2 mesh0 layers,
      outcome = Outcome.returned gcode state2 storage2 ∧
      storage2.meshes[0]? = some mesh0 ∧
      writeGCode.layerLoop ext settings fuel
        (state.isMergeMeshes || settings.PrintMeshesSeperatly)
        (state.isStackLayerParts || settings.StackLayerParts) views storage2
        (decide (settings.adhesion_type = EPlatformAdhesion.Adhesion_Raft))
        mesh0.layers.length 0 0 = some layers ∧
      layerComments gcode
        = layerComments (if settings.adhesion_type = EPlatformAdhesion.Adhesion_Raft then
            processRaft ext settings startView storage2 else [])
          ++ List.map Int.ofNat (List.range mesh0.layers.length) := by
  obtain ⟨r2, hr, hmax, _, hS, hM, _, _⟩ :=
    rewriters_frame settings { state with fileNr := state.fileNr + 1 } storage hne
  unfold writeGCode at h
  simp only [] at h
  rw [← Option.bind_assoc, hr] at h
  simp only [Option.some_bind, hS, hM, hmax] at h
  rw [if_neg hc] at h
  simp only [Option.bind_eq_some, Option.map_eq_some'] at h
  obtain ⟨mesh0, hmesh0, layers, hloop, rfl⟩ := h
  refine ⟨_, _, r2.2, mesh0, layers, rfl, hmesh0, hloop, ?_⟩
  have hl := layerLoop_comments ext settings fuel _ _ views r2.2 _ _ 0 _ layers hloop
  have h2 : ∀ (b : Bool) (st : WriterState), layerComments
      (if b = true then finalize settings st else []) = [] := by
    intro b st
    split
    · exact finalize_comments settings st
    · rfl
  simp only [layerComments_append, hl, h2, startBody_comments, List.range_eq_range',
    decide_eq_true_eq]
  simp [layerComments]

/-- C13: on a fresh writer (no rewriter flag raised yet, a storage with at least one mesh),
`writeGCode` ends in the fatal `exit` if and only if a rewriter is enabled and
`machine_nozzle_gantry_distance < model_max.z`; it then has written no layer, neither of the
raft nor of the model.  When no rewriter is enabled, or
`machine_nozzle_gantry_distance ≥ model_max.z`, it does not exit, and a run that comes back
has written the layers `0, 1, ..` of mesh 0. -/
theorem writeGCode_exits_iff_clearance (ext : Externals) (settings : Settings) (fuel : Nat)
    (startView : GcodeView) (views : Nat → GcodeView) (state : WriterState)
    (storage : SliceDataStorage) (hM : state.isMergeMeshes = false)
    (hS : state.isStackLayerParts = false) (hne : storage.meshes ≠ []) :
    ((∃ gcode, writeGCode ext settings fuel startView views state storage
        = some (Outcome.exited gcode)) ↔
      ((settings.StackLayerParts = true ∨ settings.PrintMeshesSeperatly = true) ∧
        settings.machine_nozzle_gantry_distance < storage.model_max.2.2)) ∧
    (∀ gcode, writeGCode ext settings fuel startView views state storage
        = some (Outcome.exited gcode) → layerComments gcode = []) ∧
    (¬ ((settings.StackLayerParts = true ∨ settings.PrintMeshesSeperatly = true) ∧
        settings.machine_nozzle_gantry_distance < storage.model_max.2.2) →
      ∀ outcome, writeGCode ext settings fuel startView views state storage = some outcome →
        ∃ gcode state2 storage2 mesh0 pre,
          outcome = Outcome.returned gcode state2 storage2 ∧
          storage2.meshes[0]? = some mesh0 ∧
          layerComments gcode = pre ++ List.map Int.ofNat (List.range mesh0.layers.length)) := by
  have hcond : (((state.isMergeMeshes || settings.PrintMeshesSeperatly) = true
        ∨ (state.isStackLayerParts || settings.StackLayerParts) = true)
      ∧ settings.machine_nozzle_gantry_distance < storage.model_max.2.2) ↔
      ((settings.StackLayerParts = true ∨ settings.PrintMeshesSeperatly = true) ∧
        settings.machine_nozzle_gantry_distance < storage.model_max.2.2) := by
    rw [hM, hS]
    simp only [Bool.false_or]
    constructor
    · rintro ⟨h1 | h1, h2⟩
      · exact ⟨Or.inr h1, h2⟩
      · exact ⟨Or.inl h1, h2⟩
    · rintro ⟨h1 | h1, h2⟩
      · exact ⟨Or.inr h1, h2⟩
      · exact ⟨Or.inl h1, h2⟩
  have hexit : ∀ gcode, writeGCode ext settings fuel startView views state storage
      = some (Outcome.exited gcode) →
      ((settings.StackLayerParts = true ∨ settings.PrintMeshesSeperatly = true) ∧
        settings.machine_nozzle_gantry_distance < storage.model_max.2.2) ∧
      layerComments gcode = [] := by
    intro gcode h
    by_cases hc : ((settings.StackLayerParts = true ∨ settings.PrintMeshesSeperatly = true) ∧
        settings.machine_nozzle_gantry_distance < storage.model_max.2.2)
    · refine ⟨hc, ?_⟩
      rw [writeGCode_of_clearance_failure ext settings fuel startView views state storage hne
        (hcond.mpr hc)] at h
      have := Outcome.exited.inj (Option.some.inj h)
      rw [← this]
      exact startCode_comments settings state startView storage
    · obtain ⟨_, _, _, _, _, hout, _⟩ := writeGCode_of_clearance ext settings fuel startView
        views state storage hne (fun hx => hc (hcond.mp hx)) _ h
      cases hout
  refine ⟨⟨fun ⟨gcode, h⟩ => (hexit gcode h).1, fun hc => ⟨_,
    writeGCode_of_clearance_failure ext settings fuel startView views state storage hne
      (hcond.mpr hc)⟩⟩, fun gcode h => (hexit gcode h).2, ?_⟩
  intro hc outcome h
  obtain ⟨gcode, st, sto, mesh0, _, hout, hmesh, _, hcomm⟩ := writeGCode_of_clearance ext
    settings fuel startView views state storage hne (fun hx => hc (hcond.mp hx)) outcome h
  exact ⟨gcode, st, sto, mesh0, _, hout, hmesh, hcomm⟩

theorem writeGCode_exits_iff_clearance_witness :
    stackSettings.machine_nozzle_gantry_distance = oneMeshStorage.model_max.2.2 ∧
    (∃ gcode state2 storage2,
      writeGCode sampleExternals stackSettings 3 sampleView (fun _ => sampleView) sampleState
        oneMeshStorage = some (Outcome.returned gcode state2 storage2)) ∧
    ((∃ gcode, writeGCode sampleExternals stackSettings 3 sampleView (fun _ => sampleView)
        sampleState oneMeshStorage = some (Outcome.exited gcode)) ↔
      ((stackSettings.StackLayerParts = true ∨ stackSettings.PrintMeshesSeperatly = true) ∧
        stackSettings.machine_nozzle_gantry_distance < oneMeshStorage.model_max.2.2)) :=
  ⟨by decide, ⟨_, _, _, rfl⟩,
    (writeGCode_exits_iff_clearance sampleExternals stackSettings 3 sampleView
      (fun _ => sampleView) sampleState oneMeshStorage rfl rfl (by decide)).1⟩

/-! ## Fan speed in the capped regime -/

theorem getLast?_append_pair {α : Type} (l : List α) (a b : α) :
    (l ++ [a, b]).getLast? = some b := by
  rw [show l ++ [a, b] = (l ++ [a]) ++ [b] by simp, List.getLast?_concat]

/-- C16, as stated, fails: at layer 1 of `seamStorage`, which carries the flag itself while
layer 0 does not, `processLayerStartPos` sees a new layer, yet `processLayer` drains the
planner with the new-layer argument `false`. -/
theorem processLayer_drain_flag_differs :
    layerFlag seamStorage 1 = some true ∧
    processLayerStartPos.isNewLayer seamStorage 1 = some true ∧
    ∃ result, processLayer sampleExternals sampleSettings 3 true false sampleView seamStorage
        0 1 false = some result ∧
      result.gcode.getLast? = some (GcodeCall.plannerWriteGCode result.plannerCalls
        sampleSettings.cool_lift_head sampleSettings.layer_height false) :=
  ⟨rfl, rfl, _, rfl, rfl⟩

/-- C16, amended: the new-layer argument with which `processLayer` drains the planner is the
flag of the layer before, `meshes[0].layers[L-1].isNewLayer`, for `L > 0`, and `false` at
`L = 0`; the new-layer state of `processLayerStartPos` is that argument or the flag of layer
`L` itself. -/
theorem processLayer_drain_flag (ext : Externals) (settings : Settings) (fuel : Nat)
    (isMergeMeshes isStackLayerParts : Bool) (view : GcodeView) (storage : SliceDataStorage)
    (layerCount : Int) (layer_nr : Nat) (has_raft : Bool) (result : LayerResult)
    (h : processLayer ext settings fuel isMergeMeshes isStackLayerParts view storage layerCount
      layer_nr has_raft = some result) :
    ∃ before own,
      (if layer_nr > 0 then layerFlag storage (layer_nr - 1) else some false) = some before ∧
      layerFlag storage layer_nr = some own ∧
      result.gcode.getLast? = some (GcodeCall.plannerWriteGCode result.plannerCalls
        settings.cool_lift_head
        (if layer_nr > 0 then settings.layer_height else settings.layer_height_0) before) ∧
      processLayerStartPos.isNewLayer storage layer_nr = some (own || before) := by
  simp only [processLayer, Option.bind_eq_some, Option.map_eq_some'] at h
  obtain ⟨startPos, hstart, _, _, _, _, _, _, _, _, _, _, before, hbefore, rfl⟩ := h
  have hnew : ∃ own, layerFlag storage layer_nr = some own := by
    cases hf : layerFlag storage layer_nr with
    | some own => exact ⟨own, rfl⟩
    | none =>
      simp [processLayerStartPos, processLayerStartPos.isNewLayer, hf] at hstart
  obtain ⟨own, hown⟩ := hnew
  refine ⟨before, own, hbefore, hown, ?_, ?_⟩
  · exact getLast?_append_pair _ _ _
  · simp only [processLayerStartPos.isNewLayer, hown, Option.some_bind]
    by_cases hpos : layer_nr > 0
    · rw [if_pos hpos] at hbefore
      cases own <;> cases before <;> simp [hpos, hbefore]
    · rw [if_neg hpos] at hbefore
      cases hbefore
      cases own <;> simp [hpos]

theorem processLayer_drain_flag_witness :
    ∃ before own,
      (if 2 > 0 then layerFlag seamStorage (2 - 1) else some false) = some before ∧
      layerFlag seamStorage 2 = some own ∧
      ((processLayer sampleExternals sampleSettings 3 true false sampleView seamStorage
          0 2 false).bind fun result => result.gcode.getLast?)
        = some (GcodeCall.plannerWriteGCode
            (((processLayer sampleExternals sampleSettings 3 true false sampleView seamStorage
              0 2 false).map fun result => result.plannerCalls).getD [])
            sampleSettings.cool_lift_head
            (if 2 > 0 then sampleSettings.layer_height else sampleSettings.layer_height_0)
            before) ∧
      processLayerStartPos.isNewLayer seamStorage 2 = some (own || before) :=
  processLayer_drain_flag sampleExternals sampleSettings 3 true false sampleView seamStorage
    0 2 false _ rfl

/-! ## The layer counter along a run -/

theorem processLayer_startPos (ext : Externals) (settings : Settings) (fuel : Nat)
    (mm sl : Bool) (view : GcodeView) (storage : SliceDataStorage) (layerCount : Int)
    (layer_nr : Nat) (has_raft : Bool) (r : LayerResult)
    (h : processLayer ext settings fuel mm sl view storage layerCount layer_nr has_raft
      = some r) :
    ∃ startPos, processLayerStartPos settings mm sl storage layerCount view.positionZ layer_nr
        has_raft = some startPos ∧ r.layerCount = startPos.layerCount := by
  simp only [processLayer, Option.bind_eq_some, Option.map_eq_some'] at h
  obtain ⟨startPos, hstart, _, _, _, _, _, _, _, _, _, _, before, hbefore, rfl⟩ := h
  exact ⟨startPos, hstart, rfl⟩

theorem startPos_layerCount_eq (settings : Settings) (mm sl : Bool)
    (storage : SliceDataStorage) (layerCount positionZ : Int) (layer_nr : Nat)
    (has_raft : Bool) (startPos : StartPos)
    (h : processLayerStartPos settings mm sl storage layerCount positionZ layer_nr has_raft
      = some startPos) :
    ∃ isNewLayer, processLayerStartPos.isNewLayer storage layer_nr = some isNewLayer ∧
      startPos.layerCount = (if isNewLayer = true then 0 else layerCount) + 1 ∧
      startPos.z = processLayerStartPos.z settings startPos.layerCount layer_nr has_raft := by
  simp only [processLayerStartPos, Option.map_eq_some'] at h
  obtain ⟨isNewLayer, hnew, rfl⟩ := h
  refine ⟨isNewLayer, hnew, ?_, ?_⟩ <;> split <;> rfl

theorem isNewLayer_of_flagged (storage : SliceDataStorage) (layer_nr : Nat)
    (isNewLayer : Bool)
    (hflag : layerFlag storage layer_nr = some true ∨
      (0 < layer_nr ∧ layerFlag storage (layer_nr - 1) = some true))
    (h : processLayerStartPos.isNewLayer storage layer_nr = some isNewLayer) :
    isNewLayer = true := by
  simp only [processLayerStartPos.isNewLayer, Option.bind_eq_some] at h
  obtain ⟨own, hown, h⟩ := h
  rcases hflag with h1 | ⟨hp, h1⟩
  · rw [h1] at hown
    cases hown
    simpa using h.symm
  · cases own
    · simp [hp, h1] at h
      exact h
    · simpa using h.symm

theorem partLoop_of_flag (ext : Externals) (settings : Settings) (storage : SliceDataStorage)
    (mesh : MeshPtr) (layer : SliceLayer) (layer_nr : Nat) (sar : Bool)
    (hflag : layerFlag storage layer_nr = some true) (order : List Nat) :
    ∀ (r : List (List PlannerCall) × List GcodeCall),
      addMeshLayerToGCode.partLoop ext settings storage mesh layer layer_nr sar order = some r →
      r.1 = List.replicate order.length [] := by
  induction order with
  | nil =>
    intro r h
    simp only [addMeshLayerToGCode.partLoop, Option.some.injEq] at h
    subst h
    rfl
  | cons order_idx rest ih =>
    intro r h
    simp only [addMeshLayerToGCode.partLoop, Option.bind_eq_some, Option.map_eq_some'] at h
    obtain ⟨r1, h1, rs, h2, rfl⟩ := h
    simp only [addMeshLayerToGCode.partCalls, hflag, Option.bind_eq_some,
      Option.map_eq_some', Option.some.injEq] at h1
    obtain ⟨part, _, isNew, hnew, calls, hcalls, rfl⟩ := h1
    subst hnew
    simp only [Bool.true_eq_false, if_false, Option.some.injEq] at hcalls
    subst hcalls
    simp only [ih rs h2, List.length_cons, List.replicate_succ]

/-- C18: at a layer where `meshes[0].layers[L].isNewLayer` is true, `addMeshLayerToGCode`
leaves the planner as the extruder switch at its head left it: no call is made for any part
of the mesh layer, so the calls added are none but `setExtruder` and, when the extruder
changed and there is a wipe tower, its insets and the wipe travel. -/
theorem addMeshLayerToGCode_seam (ext : Externals) (settings : Settings) (fuel : Nat)
    (view : GcodeView) (storage : SliceDataStorage) (mesh : MeshPtr)
    (gcodeLayer : GCodePlanner) (layer_nr : Nat) (r : GCodePlanner × List GcodeCall)
    (hflag : layerFlag storage layer_nr = some true)
    (h : addMeshLayerToGCode ext settings fuel view storage mesh gcodeLayer layer_nr
      = some r) :
    switchExtruder ext settings fuel storage gcodeLayer layer_nr mesh.2.extruder_nr
      = some r.1 ∧
    (r.1.calls = gcodeLayer.calls ++ [PlannerCall.setExtruder mesh.2.extruder_nr false] ∨
     (settings.wipe_tower_size < 1 ∧
       r.1.calls = gcodeLayer.calls ++ [PlannerCall.setExtruder mesh.2.extruder_nr true]) ∨
     (1 ≤ settings.wipe_tower_size ∧ ∃ insets,
        addWipeTower.insets ext settings fuel storage layer_nr = some insets ∧
        r.1.calls = gcodeLayer.calls ++ (PlannerCall.setExtruder mesh.2.extruder_nr true
          :: ((insets.reverse.map fun inset =>
              PlannerCall.addPolygonsByOptimizer inset (ConfigRef.insetX_config 0))
            ++ [PlannerCall.addTravel (storage.wipePoint
              - ext.getExtruderOffset gcodeLayer.currentExtruder
              + ext.getExtruderOffset mesh.2.extruder_nr)])))) := by
  simp only [addMeshLayerToGCode, Option.bind_eq_some, Option.map_eq_some'] at h
  obtain ⟨switched, hswitch, layer, _, polys, _, parts, hparts, rfl⟩ := h
  have hnone := partLoop_of_flag ext settings storage mesh layer layer_nr _ hflag _ parts hparts
  have hsame : switched.add parts.1.flatten = switched := by
    rw [hnone]
    simp [GCodePlanner.add]
  simp only [hsame]
  refine ⟨hswitch, ?_⟩
  rcases (switchExtruder_calls ext settings fuel storage gcodeLayer switched layer_nr
    mesh.2.extruder_nr hswitch).2 with h1 | h1 | ⟨h1, insets, h2, _, h3⟩
  · exact Or.inl h1
  · exact Or.inr (Or.inl h1)
  · exact Or.inr (Or.inr ⟨h1, insets, h2, h3⟩)

theorem addMeshLayerToGCode_seam_witness :
    seamMesh.layers.map (fun layer => layer.parts.length) = [1, 1, 1] ∧
    addMeshLayerToGCode sampleExternals sampleSettings 3 sampleView seamStorage (0, seamMesh)
      { currentExtruder := 1, calls := [] } 1
      = some ({ currentExtruder := 0, calls := [PlannerCall.setExtruder 0 true] },
          [GcodeCall.writeComment "GOT TO HERE Y", GcodeCall.writeComment "GOT TO HERE YE"]) ∧
    switchExtruder sampleExternals sampleSettings 3 seamStorage
      { currentExtruder := 1, calls := [] } 1 seamMesh.extruder_nr
      = some { currentExtruder := 0, calls := [PlannerCall.setExtruder 0 true] } :=
  ⟨rfl, rfl, (addMeshLayerToGCode_seam sampleExternals sampleSettings 3 sampleView seamStorage
    (0, seamMesh) { currentExtruder := 1, calls := [] } 1 _ rfl rfl).1⟩

/-! ## The insets of the wipe tower -/

theorem growInsets_chain (ext : Externals) (offset : Int) (fuel : Nat) :
    ∀ (insets grown : List Polygons),
      addWipeTower.growInsets ext offset fuel insets = some grown →
      (∃ extra, grown = insets ++ extra) ∧
      (∀ (i : Nat) (inner outer : Polygons), insets.length ≤ i + 1 →
        grown[i]? = some outer → grown[i + 1]? = some inner →
        inner = ext.offset outer offset ∧ inner ≠ []) ∧
      (∃ last, grown.getLast? = some last ∧ ext.offset last offset = []) := by
  induction fuel with
  | zero => intro insets grown h; simp [addWipeTower.growInsets] at h
  | succ fuel ih =>
    intro insets grown h
    simp only [addWipeTower.growInsets, Option.bind_eq_some] at h
    obtain ⟨last, hlast, h2⟩ := h
    split at h2
    · rename_i hlen
      simp only [Option.some.injEq] at h2
      subst h2
      refine ⟨⟨[], by simp⟩, ?_, ⟨last, hlast, ?_⟩⟩
      · intro i inner outer hi _ hinner
        have := (List.getElem?_eq_some_iff.mp hinner).1
        omega
      · exact List.length_eq_zero.mp (by omega)
    · rename_i hlen
      obtain ⟨⟨extra, hextra⟩, hchain, hend⟩ := ih _ grown h2
      refine ⟨⟨[ext.offset last offset] ++ extra, by rw [hextra, List.append_assoc]⟩, ?_, hend⟩
      intro i inner outer hi houter hinner
      by_cases hlt : insets.length = i + 1
      · have hlast2 : grown[i]? = some last := by
          rw [hextra, List.append_assoc, List.getElem?_append_left (by omega)]
          rw [List.getLast?_eq_getElem?] at hlast
          rw [← hlast, hlt]
          rfl
        have hnew : grown[i + 1]? = some (ext.offset last offset) := by
          rw [hextra, List.append_assoc, List.getElem?_append_right (by omega), hlt]
          simp
        rw [hlast2] at houter
        rw [hnew] at hinner
        cases houter
        cases hinner
        refine ⟨rfl, ?_⟩
        intro hnil
        rw [hnil] at hlen
        exact hlen (by decide)
      · exact hchain i inner outer (by simp; omega) houter hinner

theorem insets_start (ext : Externals) (settings : Settings) (storage : SliceDataStorage)
    (layer_nr : Nat) :
    (if layer_nr % 2 = 1 then
        [ext.offset storage.wipeTower
          (Int.tdiv (if layer_nr > 0 then -settings.wall_line_width_x * 2
            else -settings.wall_line_width_x) 2)]
      else [storage.wipeTower])
      = [if layer_nr % 2 = 1 then ext.offset storage.wipeTower (-settings.wall_line_width_x)
          else storage.wipeTower] := by
  by_cases hodd : layer_nr % 2 = 1
  · have hpos : layer_nr > 0 := by omega
    rw [if_pos hodd, if_pos hodd, if_pos hpos, Int.mul_tdiv_cancel _ (by decide)]
  · rw [if_neg hodd, if_neg hodd]

/-- C20, as stated, fails: on layer 1, with `wall_line_width_x = 400` and a square wipe tower
of 3 mm, the starting polygon of the inset list is the wipe tower offset by `-400 = -w`, not by
`-200 = -w/2`. -/
theorem addWipeTower_odd_start_not_half :
    wipeSettings.wall_line_width_x = 400 ∧
    ∃ insets, addWipeTower.insets shrinkExternals wipeSettings 10 towerStorage 1 = some insets ∧
      insets = [[[(400, 400), (2600, 2600)]], [[(1200, 1200), (1800, 1800)]]] ∧
      insets.head? = some (shrinkExternals.offset towerStorage.wipeTower
        (-wipeSettings.wall_line_width_x)) ∧
      insets.head? ≠ some (shrinkExternals.offset towerStorage.wipeTower
        (Int.tdiv (-wipeSettings.wall_line_width_x) 2)) :=
  ⟨rfl, _, rfl, rfl, rfl, by decide⟩

/-- C20, amended: with `w = wall_line_width_x`, the starting polygon of the inset list of
`addWipeTower` is the wipe tower itself on every even layer (`L = 0` included) and the wipe
tower offset by `-w` on every odd layer; each further inset is the previous one offset by `-w`
at `L = 0` and by `-2w` at every `L > 0`, and is not empty; the offset of the last is empty. -/
theorem addWipeTower_insets_offsets (ext : Externals) (settings : Settings) (fuel : Nat)
    (storage : SliceDataStorage) (layer_nr : Nat) (insets : List Polygons)
    (h : addWipeTower.insets ext settings fuel storage layer_nr = some insets) :
    insets.head? = some (if layer_nr % 2 = 1 then
      ext.offset storage.wipeTower (-settings.wall_line_width_x) else storage.wipeTower) ∧
    (∀ (i : Nat) (inner outer : Polygons),
      insets[i]? = some outer → insets[i + 1]? = some inner →
      inner = ext.offset outer (if layer_nr = 0 then -settings.wall_line_width_x
        else -settings.wall_line_width_x * 2) ∧ inner ≠ []) ∧
    (∃ last, insets.getLast? = some last ∧
      ext.offset last (if layer_nr = 0 then -settings.wall_line_width_x
        else -settings.wall_line_width_x * 2) = []) := by
  have hstep : (if layer_nr > 0 then -settings.wall_line_width_x * 2
      else -settings.wall_line_width_x)
      = (if layer_nr = 0 then -settings.wall_line_width_x
        else -settings.wall_line_width_x * 2) := by
    by_cases hz : layer_nr = 0
    · subst hz; rfl
    · rw [if_pos (Nat.pos_of_ne_zero hz), if_neg hz]
  simp only [addWipeTower.insets] at h
  rw [insets_start, hstep] at h
  obtain ⟨⟨extra, hextra⟩, hchain, hend⟩ := growInsets_chain ext _ fuel _ insets h
  refine ⟨?_, ?_, hend⟩
  · rw [hextra]
    rfl
  · intro i inner outer houter hinner
    exact hchain i inner outer (by simp) houter hinner

theorem addWipeTower_insets_offsets_witness :
    ∃ insets, addWipeTower.insets shrinkExternals wipeSettings 10 towerStorage 0
        = some insets ∧ insets.length = 4 ∧
      insets.head? = some (if 0 % 2 = 1 then
        shrinkExternals.offset towerStorage.wipeTower (-wipeSettings.wall_line_width_x)
        else towerStorage.wipeTower) :=
  ⟨_, rfl, rfl, (addWipeTower_insets_offsets shrinkExternals wipeSettings 10 towerStorage 0 _
    rfl).1⟩

/-- C19, as stated, fails: at layer 0, with `wall_line_width_x = 400` and a square wipe tower
of 3 mm, the first inset `addWipeTower` adds to the planner is the innermost one and the
starting polygon, the wipe tower itself, is added last. -/
theorem addWipeTower_innermost_added_first :
    1 ≤ wipeSettings.wipe_tower_size ∧
    ∃ g2, addWipeTower shrinkExternals wipeSettings 10 towerStorage
        { currentExtruder := 1, calls := [] } 0 0 = some g2 ∧
      g2.calls =
        [PlannerCall.addPolygonsByOptimizer [[(1200, 1200), (1800, 1800)]]
           (ConfigRef.insetX_config 0),
         PlannerCall.addPolygonsByOptimizer [[(800, 800), (2200, 2200)]]
           (ConfigRef.insetX_config 0),
         PlannerCall.addPolygonsByOptimizer [[(400, 400), (2600, 2600)]]
           (ConfigRef.insetX_config 0),
         PlannerCall.addPolygonsByOptimizer towerStorage.wipeTower (ConfigRef.insetX_config 0),
         PlannerCall.addTravel (0, 0)] ∧
      g2.calls.head? ≠ some (PlannerCall.addPolygonsByOptimizer towerStorage.wipeTower
        (ConfigRef.insetX_config 0)) :=
  ⟨by decide, _, rfl, rfl, by decide⟩

/-- C19, amended: for `wipe_tower_size ≥ 1`, `addWipeTower` adds the wipe-tower insets to the
planner innermost-first under the `insetX_config` of mesh 0: the calls added are the inset
list in reverse, then the wipe travel; every inset added is the offset of the one added right
after it, the offset of the first one added is empty, and the last one added is the starting
polygon. -/
theorem addWipeTower_innermost_first (ext : Externals) (settings : Settings) (fuel : Nat)
    (storage : SliceDataStorage) (gcodeLayer g2 : GCodePlanner) (layer_nr : Nat)
    (prev_extruder : Int) (hw : 1 ≤ settings.wipe_tower_size)
    (h : addWipeTower ext settings fuel storage gcodeLayer layer_nr prev_extruder = some g2) :
    ∃ added : List Polygons,
      g2.calls = gcodeLayer.calls
        ++ (added.map fun inset =>
            PlannerCall.addPolygonsByOptimizer inset (ConfigRef.insetX_config 0))
        ++ [PlannerCall.addTravel (storage.wipePoint - ext.getExtruderOffset prev_extruder
            + ext.getExtruderOffset gcodeLayer.currentExtruder)] ∧
      addWipeTower.insets ext settings fuel storage layer_nr = some added.reverse ∧
      added.getLast? = some (if layer_nr % 2 = 1 then
        ext.offset storage.wipeTower (-settings.wall_line_width_x) else storage.wipeTower) ∧
      (∀ (i : Nat) (inner outer : Polygons),
        added[i]? = some inner → added[i + 1]? = some outer →
        inner = ext.offset outer (if layer_nr > 0 then -settings.wall_line_width_x * 2
          else -settings.wall_line_width_x)) ∧
      (∃ first, added.head? = some first ∧
        ext.offset first (if layer_nr > 0 then -settings.wall_line_width_x * 2
          else -settings.wall_line_width_x) = []) := by
  unfold addWipeTower at h
  rw [if_neg (by omega)] at h
  simp only [Option.bind_eq_some, Option.map_eq_some'] at h
  obtain ⟨insets, hinsets, calls, hcalls, rfl⟩ := h
  rw [emitInsets_all] at hcalls
  cases hcalls
  have hgrow := hinsets
  simp only [addWipeTower.insets] at hgrow
  rw [insets_start] at hgrow
  obtain ⟨⟨extra, hextra⟩, hchain, last, hlast, hend⟩ :=
    growInsets_chain ext _ fuel _ insets hgrow
  refine ⟨insets.reverse, ?_, ?_, ?_, ?_, ⟨last, ?_, hend⟩⟩
  · simp [GCodePlanner.add]
  · rw [List.reverse_reverse]
    exact hinsets
  · rw [List.getLast?_reverse, hextra]
    rfl
  · intro i inner outer hinner houter
    have hlen : i + 1 < insets.length := by
      have := (List.getElem?_eq_some_iff.mp houter).1
      simpa using this
    rw [List.getElem?_reverse (by omega)] at hinner
    rw [List.getElem?_reverse hlen] at houter
    have hidx : insets.length - 1 - i = insets.length - 1 - (i + 1) + 1 := by omega
    rw [hidx] at hinner
    exact (hchain _ inner outer (by simp) houter hinner).1
  · rw [List.head?_reverse]
    exact hlast

theorem addWipeTower_innermost_first_witness :
    ∃ added : List Polygons,
      added.length = 2 ∧
      addWipeTower.insets shrinkExternals wipeSettings 10 towerStorage 1
        = some added.reverse ∧
      added.getLast? = some (if 1 % 2 = 1 then
        shrinkExternals.offset towerStorage.wipeTower (-wipeSettings.wall_line_width_x)
        else towerStorage.wipeTower) := by
  obtain ⟨added, _, h2, h3, _⟩ := addWipeTower_innermost_first shrinkExternals wipeSettings 10
    towerStorage { currentExtruder := 1, calls := [] }
    ((addWipeTower shrinkExternals wipeSettings 10 towerStorage
      { currentExtruder := 1, calls := [] } 1 0).getD { currentExtruder := 1, calls := [] })
    1 0 (by decide) rfl
  refine ⟨added, ?_, h2, h3⟩
  have h4 : added.reverse.length = 2 := by
    have h5 : addWipeTower.insets shrinkExternals wipeSettings 10 towerStorage 1
        = some [[[(400, 400), (2600, 2600)]], [[(1200, 1200), (1800, 1800)]]] := rfl
    rw [h5] at h2
    rw [← Option.some.inj h2]
    rfl
  simpa using h4

/-! ## Clearance lifts -/

theorem liftCount_append (a b : List GcodeCall) :
    liftCount (a ++ b) = liftCount a + liftCount b := by
  simp [liftCount, List.countP_append]

theorem temperatures_lifts (wait : Bool) (meshes : List SliceMeshStorage) :
    liftCount (processStartingCode.temperatures wait meshes) = 0 := by
  induction meshes with
  | nil => rfl
  | cons m rest ih =>
    simp only [processStartingCode.temperatures, liftCount_append, ih, Nat.add_zero]
    split
    · split <;> rfl
    · rfl

theorem processStartingCode_lifts (settings : Settings) (state : WriterState)
    (storage : SliceDataStorage) :
    liftCount (processStartingCode settings state storage) = 0 := by
  simp only [processStartingCode, liftCount_append]
  have h1 : liftCount
      (if state.flavor = EGCodeFlavor.GCODE_FLAVOR_BFB then
        [GcodeCall.writeComment "enable auto-retraction",
         GcodeCall.writeLine
           ("M227 S" ++ toString (Int.tdiv (settings.retraction_amount * 2560) 1000)
             ++ " P" ++ toString (Int.tdiv (settings.retraction_amount * 2560) 1000))]
      else []) = 0 := by
    split <;> rfl
  rw [h1]
  split
  · split <;> rfl
  · simp only [liftCount_append, temperatures_lifts]
    split
    · split <;> rfl
    · rfl

theorem finalize_temperatures_lifts (left : Nat) :
    ∀ e : Int, liftCount (finalize.temperatures left e) = 0 := by
  induction left with
  | zero => intro e; rfl
  | succ left ih =>
    intro e
    have := ih (e + 1)
    simp only [liftCount, finalize.temperatures, List.countP_cons] at this ⊢
    simp [this, GcodeCall.isLift]

theorem finalize_lifts (settings : Settings) (state : WriterState) :
    liftCount (finalize settings state) = 0 := by
  have := finalize_temperatures_lifts state.MAX_EXTRUDERS 0
  simp only [liftCount, finalize, List.countP_cons] at this ⊢
  simp [this, GcodeCall.isLift]

theorem startPos_lifts (settings : Settings) (mm sl : Bool) (storage : SliceDataStorage)
    (layerCount positionZ : Int) (layer_nr : Nat) (has_raft : Bool) (sp : StartPos)
    (h : processLayerStartPos settings mm sl storage layerCount positionZ layer_nr has_raft
      = some sp) :
    liftCount sp.calls = if (mm = true ∨ sl = true)
      ∧ processLayerStartPos.isNewLayer storage layer_nr = some true then 1 else 0 := by
  simp only [processLayerStartPos, Option.map_eq_some'] at h
  obtain ⟨flag, hflag, rfl⟩ := h
  rw [hflag]
  simp only [Option.some.injEq]
  split <;> rfl

theorem partLoop_lifts (ext : Externals) (settings : Settings) (storage : SliceDataStorage)
    (mesh : MeshPtr) (layer : SliceLayer) (layer_nr : Nat) (sar : Bool) (order : List Nat) :
    ∀ (r : List (List PlannerCall) × List GcodeCall),
      addMeshLayerToGCode.partLoop ext settings storage mesh layer layer_nr sar order = some r →
      liftCount r.2 = 0 := by
  induction order with
  | nil =>
    intro r h
    simp only [addMeshLayerToGCode.partLoop, Option.some.injEq] at h
    subst h
    rfl
  | cons idx rest ih =>
    intro r h
    simp only [addMeshLayerToGCode.partLoop, Option.bind_eq_some, Option.map_eq_some'] at h
    obtain ⟨r1, h1, rs, h2, rfl⟩ := h
    simp only [addMeshLayerToGCode.partCalls, Option.bind_eq_some, Option.map_eq_some'] at h1
    obtain ⟨_, _, _, _, _, _, rfl⟩ := h1
    simp only [liftCount_append, ih rs h2, Nat.add_zero]
    rfl

theorem meshLoop_lifts (ext : Externals) (settings : Settings) (fuel : Nat)
    (view : GcodeView) (storage : SliceDataStorage) (layer_nr : Nat)
    (order : List MeshPtr) :
    ∀ (g : GCodePlanner) (r : GCodePlanner × List GcodeCall),
      processLayer.meshLoop ext settings fuel view storage layer_nr order g = some r →
      liftCount r.2 = 0 := by
  induction order with
  | nil =>
    intro g r h
    simp only [processLayer.meshLoop, Option.some.injEq] at h
    subst h
    rfl
  | cons mesh rest ih =>
    intro g r h
    simp only [processLayer.meshLoop, Option.bind_eq_some, Option.map_eq_some'] at h
    obtain ⟨r1, h1, rs, h2, rfl⟩ := h
    have hr1 : liftCount r1.2 = 0 := by
      split at h1
      · simp only [Option.map_eq_some'] at h1
        obtain ⟨_, _, rfl⟩ := h1
        rfl
      · simp only [addMeshLayerToGCode, Option.bind_eq_some, Option.map_eq_some'] at h1
        obtain ⟨_, _, layer, _, polys, _, rp, hloop, rfl⟩ := h1
        exact partLoop_lifts ext settings storage mesh layer layer_nr _ _ rp hloop
    simp only [liftCount_append, hr1, ih r1.1 rs h2]

theorem processLayer_lifts (ext : Externals) (settings : Settings) (fuel : Nat)
    (mm sl : Bool) (view : GcodeView) (storage : SliceDataStorage) (layerCount : Int)
    (layer_nr : Nat) (has_raft : Bool) (r : LayerResult)
    (h : processLayer ext settings fuel mm sl view storage layerCount layer_nr has_raft
      = some r) :
    liftCount r.gcode = if (mm = true ∨ sl = true)
      ∧ processLayerStartPos.isNewLayer storage layer_nr = some true then 1 else 0 := by
  simp only [processLayer, Option.bind_eq_some, Option.map_eq_some'] at h
  obtain ⟨startPos, hsp, gA, _, shield, _, order, _, meshes, hmeshes, gB, _, isNew, _,
    rfl⟩ := h
  simp only [liftCount_append,
    startPos_lifts settings mm sl storage layerCount view.positionZ layer_nr has_raft
      startPos hsp,
    meshLoop_lifts ext settings fuel view storage layer_nr order _ meshes hmeshes]
  simp [liftCount, processFanSpeedAndMinimalLayerTime, GcodeCall.isLift]

theorem layerLoop_lifts (ext : Externals) (settings : Settings) (fuel : Nat)
    (mm sl : Bool) (views : Nat → GcodeView) (storage : SliceDataStorage) (has_raft : Bool)
    (hrew : mm = true ∨ sl = true) (left : Nat) :
    ∀ (layer_nr : Nat) (layerCount : Int) (r : Int × List GcodeCall),
      writeGCode.layerLoop ext settings fuel mm sl views storage has_raft left layer_nr
        layerCount = some r →
      liftCount r.2 = ((List.range' layer_nr left).filter fun L =>
        decide (processLayerStartPos.isNewLayer storage L = some true)).length := by
  induction left with
  | zero =>
    intro layer_nr layerCount r h
    simp only [writeGCode.layerLoop, Option.some.injEq] at h
    subst h
    rfl
  | succ left ih =>
    intro layer_nr layerCount r h
    simp only [writeGCode.layerLoop, Option.bind_eq_some, Option.map_eq_some'] at h
    obtain ⟨r1, h1, rs, h2, rfl⟩ := h
    simp only [liftCount_append,
      processLayer_lifts ext settings fuel mm sl (views layer_nr) storage layerCount
        layer_nr has_raft r1 h1,
      ih (layer_nr + 1) r1.layerCount rs h2, List.range'_succ, List.filter_cons, hrew,
      true_and]
    split
    · simp [*]
      omega
    · simp [*]

theorem newLayerWindow_length (flags : List Bool) :
    ∀ before : Bool, (newLayerWindow before flags).length = flags.length := by
  induction flags with
  | nil => intro _; rfl
  | cons flag rest ih => intro _; simp [newLayerWindow, ih]

theorem newLayerWindow_getElem? (flags : List Bool) :
    ∀ (before : Bool) (L : Nat) (own : Bool), flags[L]? = some own →
      (newLayerWindow before flags)[L]?
        = some (own || match L with
          | 0 => before
          | L + 1 => (flags[L]?).getD false) := by
  induction flags with
  | nil => intro _ L own h; simp at h
  | cons flag rest ih =>
    intro before L own h
    cases L with
    | zero =>
      simp only [List.getElem?_cons_zero, Option.some.injEq] at h
      subst h
      simp [newLayerWindow]
    | succ L =>
      simp only [List.getElem?_cons_succ] at h
      simp only [newLayerWindow, List.getElem?_cons_succ, ih flag L own h]
      cases L <;> simp

theorem newLayerWindow_unflagged (n : Nat) (tail : List Bool) :
    newLayerWindow false (List.replicate n false ++ tail)
      = List.replicate n false ++ newLayerWindow false tail := by
  induction n with
  | zero => rfl
  | succ n ih => simp [List.replicate_succ, newLayerWindow, ih]

theorem newLayerWindow_block (before : Bool) (k : Nat) (tail : List Bool) :
    newLayerWindow before ((true :: List.replicate (k + 1) false) ++ tail)
      = true :: true :: (List.replicate k false ++ newLayerWindow false tail) := by
  simp [List.replicate_succ, newLayerWindow, newLayerWindow_unflagged]

theorem newLayerWindow_blocks (ks : List Nat) :
    ∀ before : Bool,
      (newLayerWindow before
        (ks.map fun k => true :: List.replicate (k + 1) false).flatten).count true
        = 2 * ks.length := by
  induction ks with
  | nil => intro _; rfl
  | cons k rest ih =>
    intro before
    rw [List.map_cons, List.flatten_cons, newLayerWindow_block]
    simp only [List.count_cons_self, List.count_append, ih false, List.length_cons]
    have : (List.replicate k false).count true = 0 := by
      simp [List.count_replicate]
    omega

theorem count_eq_filter_range (window : List Bool) :
    ((List.range window.length).filter fun L => decide (window[L]? = some true)).length
      = window.count true := by
  induction window using List.reverseRecOn with
  | nil => rfl
  | append_singleton front flag ih =>
    rw [List.length_append, List.length_singleton, List.range_succ, List.filter_append,
      List.length_append, List.count_append]
    have h1 : ((List.range front.length).filter
        fun L => decide ((front ++ [flag])[L]? = some true))
        = (List.range front.length).filter fun L => decide (front[L]? = some true) := by
      apply List.filter_congr
      intro L hL
      rw [List.getElem?_append_left (List.mem_range.mp hL)]
    rw [h1, ih]
    cases flag <;> simp

theorem isNewLayer_eq_window (storage : SliceDataStorage) (mesh0 : SliceMeshStorage)
    (hmesh : storage.meshes[0]? = some mesh0) (L : Nat) :
    processLayerStartPos.isNewLayer storage L
      = (newLayerWindow false (mesh0.layers.map fun layer => layer.isNewLayer))[L]? := by
  have hflag : ∀ i, layerFlag storage i
      = (mesh0.layers.map fun layer => layer.isNewLayer)[i]? := by
    intro i
    simp [layerFlag, hmesh]
  cases hown : (mesh0.layers.map fun layer => layer.isNewLayer)[L]? with
  | none =>
    have hlen : (newLayerWindow false (mesh0.layers.map fun layer => layer.isNewLayer)).length
        ≤ L := by
      rw [newLayerWindow_length]
      exact List.getElem?_eq_none_iff.mp hown
    rw [List.getElem?_eq_none_iff.mpr hlen]
    simp [processLayerStartPos.isNewLayer, hflag, hown]
  | some own =>
    rw [newLayerWindow_getElem? _ false L own hown]
    simp only [processLayerStartPos.isNewLayer, hflag, hown, Option.some_bind]
    cases L with
    | zero => simp
    | succ L =>
      have hlt : L < (mesh0.layers.map fun layer => layer.isNewLayer).length := by
        have := (List.getElem?_eq_some_iff.mp hown).1
        omega
      simp only [Nat.add_sub_cancel, List.getElem?_eq_getElem hlt]
      cases own <;> simp

theorem unflagged_map (layers : List SliceLayer)
    (h : ∀ layer ∈ layers, layer.isNewLayer = false) :
    layers.map (fun layer => layer.isNewLayer) = List.replicate layers.length false := by
  rw [List.eq_replicate_iff]
  refine ⟨by simp, ?_⟩
  intro b hb
  obtain ⟨layer, hl, rfl⟩ := List.mem_map.mp hb
  exact h layer hl

theorem markFirst_flags (layers : List SliceLayer) (hlen : 2 ≤ layers.length)
    (h : ∀ layer ∈ layers, layer.isNewLayer = false) :
    (markFirst layers).map (fun layer => layer.isNewLayer)
      = true :: List.replicate (layers.length - 2 + 1) false := by
  cases layers with
  | nil => simp at hlen
  | cons a tail =>
    have ht := unflagged_map tail (fun layer hl => h layer (by simp [hl]))
    simp only [markFirst, List.map_cons, ht, List.length_cons]
    have : tail.length + 1 - 2 + 1 = tail.length := by
      simp only [List.length_cons] at hlen
      omega
    rw [this]

theorem mergedLayersSpec_flags (first : SliceMeshStorage) (rest : List SliceMeshStorage)
    (hfirst : ∀ layer ∈ first.layers, layer.isNewLayer = false)
    (hflags : ∀ mesh ∈ rest, ∀ layer ∈ mesh.layers, layer.isNewLayer = false)
    (hlen : ∀ mesh ∈ rest, 2 ≤ mesh.layers.length) :
    (mergedLayersSpec (first :: rest)).map (fun layer => layer.isNewLayer)
      = List.replicate first.layers.length false
        ++ ((rest.map fun mesh => mesh.layers.length - 2).map
            fun k => true :: List.replicate (k + 1) false).flatten := by
  simp only [mergedLayersSpec, List.map_append, unflagged_map first.layers hfirst]
  congr 1
  induction rest with
  | nil => rfl
  | cons mesh tail ih =>
    simp only [List.map_cons, List.flatten_cons, List.map_append]
    rw [markFirst_flags mesh.layers (hlen mesh (by simp)) (hflags mesh (by simp)),
      ih (fun m hm => hflags m (by simp [hm])) (fun m hm => hlen m (by simp [hm]))]

theorem startBody_lifts (settings : Settings) (state : WriterState)
    (startView : GcodeView) (storage : SliceDataStorage) :
    liftCount
      (if state.fileNr = 1 then processStartingCode settings state storage
        else processNextPrintObjectCode settings state startView storage) = 0 := by
  split
  · exact processStartingCode_lifts settings state storage
  · rfl

theorem writeGCode_merge_returned (ext : Externals) (settings : Settings) (fuel : Nat)
    (startView : GcodeView) (views : Nat → GcodeView) (state : WriterState)
    (storage : SliceDataStorage) (gcode : List GcodeCall) (state2 : WriterState)
    (storage2 : SliceDataStorage) (first : SliceMeshStorage) (rest : List SliceMeshStorage)
    (hmerge : settings.PrintMeshesSeperatly = true) (hstack : settings.StackLayerParts = false)
    (hraft : settings.adhesion_type ≠ EPlatformAdhesion.Adhesion_Raft)
    (hmeshes : storage.meshes = first :: rest) (hrest : rest ≠ [])
    (h : writeGCode ext settings fuel startView views state storage
      = some (Outcome.returned gcode state2 storage2)) :
    storage2.meshes = [{ first with layers := mergedLayersSpec storage.meshes }] ∧
    state2.isMergeMeshes = true ∧
    ∃ layers, writeGCode.layerLoop ext settings fuel state2.isMergeMeshes
        state2.isStackLayerParts views storage2 false
        (mergedLayersSpec storage.meshes).length 0 0 = some layers ∧
      liftCount gcode = liftCount layers.2 := by
  have hr : decide (settings.adhesion_type = EPlatformAdhesion.Adhesion_Raft) = false :=
    decide_eq_false hraft
  simp only [writeGCode, hstack, hmerge, Bool.false_eq_true, if_false, if_true,
    Option.some_bind, mergeMeshes_of_two_le storage first rest hmeshes hrest,
    Option.map_some', hr] at h
  split at h
  · cases h
  · simp only [List.getElem?_cons_zero, Option.some_bind, Option.map_eq_some',
      Option.some.injEq, Outcome.returned.injEq] at h
    obtain ⟨layers, hloop, rfl, rfl, rfl⟩ := h
    refine ⟨rfl, rfl, layers, hloop, ?_⟩
    have h2 : ∀ (b : Bool) (st : WriterState), liftCount
        (if b = true then finalize settings st else []) = 0 := by
      intro b st
      split
      · exact finalize_lifts settings st
      · rfl
    simp only [liftCount_append, h2, startBody_lifts]
    simp [liftCount, GcodeCall.isLift]

theorem isNewLayer_true_flags (storage : SliceDataStorage) (layer_nr : Nat)
    (h : processLayerStartPos.isNewLayer storage layer_nr = some true) :
    layerFlag storage layer_nr = some true ∨
      (0 < layer_nr ∧ layerFlag storage (layer_nr - 1) = some true) := by
  simp only [processLayerStartPos.isNewLayer, Option.bind_eq_some] at h
  obtain ⟨own, hown, h⟩ := h
  by_cases hc : own = false ∧ layer_nr > 0
  · rw [if_pos hc, Option.map_eq_some'] at h
    obtain ⟨before, hbefore, hb⟩ := h
    refine Or.inr ⟨hc.2, ?_⟩
    rw [hbefore]
    cases before
    · rw [hc.1] at hb
      simp at hb
    · rfl
  · rw [if_neg hc] at h
    cases h
    exact Or.inl hown

/-- C15, as stated, fails: in a merge-meshes run over two meshes of five layers each, without
raft, the layer loop writes the ten layers 0..9 and issues two clearance lifts, not one: at
layer 5, where the layers of the second mesh begin, and again at layer 6. -/
theorem merge_two_cubes_two_lifts :
    twoCubesStorage.meshes.map (fun mesh => mesh.layers.length) = [5, 5] ∧
    mergeSettings.PrintMeshesSeperatly = true ∧
    (∃ state2 storage2, writeGCode sampleExternals mergeSettings 3 sampleView
      (fun _ => sampleView) sampleState twoCubesStorage
      = some (Outcome.returned twoCubesGcode state2 storage2)) ∧
    layerComments twoCubesGcode = List.map Int.ofNat (List.range 10) ∧
    liftCount twoCubesGcode = 2 ∧
    liftLayers (-1) twoCubesGcode = [5, 6] :=
  ⟨rfl, rfl, ⟨_, _, rfl⟩, rfl, rfl, rfl⟩

/-- C15, amended: in a merge-meshes run without raft over `m ≥ 2` meshes with no layer flagged
beforehand and at least two layers in every mesh but the first, the merged layer list is the
meshes' layers in order with the first layer of every mesh but the first flagged, a layer
issues the clearance lift exactly when it or the layer before it is flagged, and the run
issues exactly two lifts per seam, `2 (m - 1)` in total. -/
theorem merge_lifts_two_per_seam (ext : Externals) (settings : Settings) (fuel : Nat)
    (startView : GcodeView) (views : Nat → GcodeView) (state : WriterState)
    (storage : SliceDataStorage) (gcode : List GcodeCall) (state2 : WriterState)
    (storage2 : SliceDataStorage) (first : SliceMeshStorage) (rest : List SliceMeshStorage)
    (hmerge : settings.PrintMeshesSeperatly = true) (hstack : settings.StackLayerParts = false)
    (hraft : settings.adhesion_type ≠ EPlatformAdhesion.Adhesion_Raft)
    (hmeshes : storage.meshes = first :: rest) (hrest : rest ≠ [])
    (hflags : ∀ mesh ∈ storage.meshes, ∀ layer ∈ mesh.layers, layer.isNewLayer = false)
    (hlen : ∀ mesh ∈ rest, 2 ≤ mesh.layers.length)
    (h : writeGCode ext settings fuel startView views state storage
      = some (Outcome.returned gcode state2 storage2)) :
    storage2.meshes.map (fun mesh => mesh.layers) = [mergedLayersSpec storage.meshes] ∧
    liftCount gcode = 2 * rest.length ∧
    (∀ (view : GcodeView) (layerCount : Int) (L : Nat) (r : LayerResult),
      processLayer ext settings fuel state2.isMergeMeshes state2.isStackLayerParts view
        storage2 layerCount L false = some r →
      (liftCount r.gcode = 1 ↔ (layerFlag storage2 L = some true ∨
        (0 < L ∧ layerFlag storage2 (L - 1) = some true)))) := by
  obtain ⟨hst, hmm, layers, hloop, hcount⟩ := writeGCode_merge_returned ext settings fuel
    startView views state storage gcode state2 storage2 first rest hmerge hstack hraft hmeshes
    hrest h
  refine ⟨by rw [hst]; rfl, ?_, ?_⟩
  · have hmesh0 : storage2.meshes[0]?
        = some { first with layers := mergedLayersSpec storage.meshes } := by
      rw [hst]
      rfl
    rw [hcount, layerLoop_lifts ext settings fuel _ _ views storage2 false (Or.inl hmm) _ 0 0
      layers hloop, ← List.range_eq_range']
    have hwin : (fun L => decide (processLayerStartPos.isNewLayer storage2 L = some true))
        = fun L => decide ((newLayerWindow false ((mergedLayersSpec storage.meshes).map
            fun layer => layer.isNewLayer))[L]? = some true) := by
      funext L
      rw [isNewLayer_eq_window storage2 _ hmesh0 L]
    have hlen2 : (mergedLayersSpec storage.meshes).length
        = (newLayerWindow false ((mergedLayersSpec storage.meshes).map
            fun layer => layer.isNewLayer)).length := by
      rw [newLayerWindow_length, List.length_map]
    rw [hwin, hlen2, count_eq_filter_range, hmeshes,
      mergedLayersSpec_flags first rest
        (hflags first (by rw [hmeshes]; simp))
        (fun mesh hm => hflags mesh (by rw [hmeshes]; simp [hm])) hlen,
      newLayerWindow_unflagged, List.count_append, newLayerWindow_blocks]
    simp [List.count_replicate]
  · intro view layerCount L r hr
    have hl := processLayer_lifts ext settings fuel _ _ view storage2 layerCount L false r hr
    rw [hmm] at hl
    simp only [true_or, true_and] at hl
    constructor
    · intro h1
      apply isNewLayer_true_flags
      by_contra hne
      rw [hl, if_neg hne] at h1
      cases h1
    · intro hflag
      obtain ⟨startPos, hstart, _⟩ := processLayer_startPos ext settings fuel _ _ view
        storage2 layerCount L false r hr
      obtain ⟨isNewLayer, hnew, _, _⟩ := startPos_layerCount_eq settings _ _ storage2
        layerCount _ L false startPos hstart
      have := isNewLayer_of_flagged storage2 L isNewLayer hflag hnew
      rw [hl, hnew, this, if_pos rfl]

theorem merge_lifts_two_per_seam_witness :
    twoCubesStorage.meshes.length = 2 ∧
    liftCount twoCubesGcode = 2 * [fiveLayerMesh 40].length :=
  ⟨rfl, (merge_lifts_two_per_seam sampleExternals mergeSettings 3 sampleView
    (fun _ => sampleView) sampleState twoCubesStorage twoCubesGcode _ _ (fiveLayerMesh 0)
    [fiveLayerMesh 40] rfl rfl (by decide) rfl (by decide) (by decide) (by decide) rfl).2.1⟩

/-! ## The order of the insets of a part -/

theorem insetsLoop_length (mesh : MeshPtr) (l : List Polygons) :
    (processInsets.loop mesh l).length = l.length := by
  induction l with
  | nil => rfl
  | cons inset before ih => simp [processInsets.loop, ih]

theorem insetsLoop_getElem? (mesh : MeshPtr) (l : List Polygons) :
    ∀ k : Nat, (processInsets.loop mesh l)[k]?
      = (l[k]?).map fun inset =>
          PlannerCall.addPolygonsByOptimizer inset
            (if l.length - 1 - k = 0 then ConfigRef.inset0_config mesh.1
              else ConfigRef.insetX_config mesh.1) := by
  induction l with
  | nil => intro k; simp [processInsets.loop]
  | cons inset before ih =>
    intro k
    cases k with
    | zero =>
      simp only [processInsets.loop, List.getElem?_cons_zero, Option.map_some',
        List.length_cons, Nat.add_sub_cancel, Nat.sub_zero]
      split <;> rfl
    | succ k =>
      simp only [processInsets.loop, List.getElem?_cons_succ, ih k, List.length_cons]
      have : before.length + 1 - 1 - (k + 1) = before.length - 1 - k := by omega
      simp only [this]

/-- C21: for a part with `n` insets, with `wall_line_count > 0` and `magic_spiralize` off,
`processInsets` makes exactly `n` calls on the planner, the `k`-th of them adding
`insets[n-1-k]`, so the insets go from index `n-1` down to index 0, index 0 under
`inset0_config` and every other index under `insetX_config`; with `wall_line_count ≤ 0`
(0 included) it makes no call. -/
theorem processInsets_order (settings : Settings) (mesh : MeshPtr) (part : SliceLayerPart)
    (layer_nr : Nat) :
    (settings.wall_line_count > 0 → settings.magic_spiralize = false →
      (processInsets settings mesh part layer_nr).length = part.insets.length ∧
      (∀ k, k < part.insets.length →
        ∃ inset, part.insets[part.insets.length - 1 - k]? = some inset ∧
          (processInsets settings mesh part layer_nr)[k]?
            = some (PlannerCall.addPolygonsByOptimizer inset
                (if part.insets.length - 1 - k = 0 then ConfigRef.inset0_config mesh.1
                  else ConfigRef.insetX_config mesh.1))) ∧
      (∀ inset0, part.insets[0]? = some inset0 →
        (processInsets settings mesh part layer_nr).getLast?
          = some (PlannerCall.addPolygonsByOptimizer inset0
              (ConfigRef.inset0_config mesh.1)))) ∧
    (settings.wall_line_count ≤ 0 → processInsets settings mesh part layer_nr = []) := by
  constructor
  · intro hw hs
    have hcalls : processInsets settings mesh part layer_nr
        = processInsets.loop mesh part.insets.reverse := by
      simp [processInsets, hw, hs]
    rw [hcalls]
    refine ⟨by rw [insetsLoop_length, List.length_reverse], ?_, ?_⟩
    · intro k hk
      have hidx : part.insets.length - 1 - k < part.insets.length := by omega
      refine ⟨part.insets[part.insets.length - 1 - k], List.getElem?_eq_getElem hidx, ?_⟩
      rw [insetsLoop_getElem?, List.getElem?_reverse hk, List.getElem?_eq_getElem hidx,
        List.length_reverse]
      rfl
    · intro inset0 h0
      have hpos : 0 < part.insets.length := (List.getElem?_eq_some_iff.mp h0).1
      rw [List.getLast?_eq_getElem?, insetsLoop_length, List.length_reverse,
        insetsLoop_getElem?, List.getElem?_reverse (by omega), List.length_reverse]
      have : part.insets.length - 1 - (part.insets.length - 1) = 0 := by omega
      rw [this, h0]
      rfl
  · intro hw
    have : ¬ settings.wall_line_count > 0 := by omega
    simp [processInsets, this]

theorem processInsets_order_witness :
    sampleSettings.wall_line_count > 0 ∧ sampleSettings.magic_spiralize = false ∧
    (samplePart 0).insets.length = 2 ∧
    (processInsets sampleSettings (0, twoPartMesh) (samplePart 0) 0).length = 2 ∧
    processInsets sampleSettings (0, twoPartMesh) (samplePart 0) 0
      = [PlannerCall.addPolygonsByOptimizer [[(1, 1), (9, 1), (9, 9), (1, 9)]]
           (ConfigRef.insetX_config 0),
         PlannerCall.addPolygonsByOptimizer [[(0, 0), (10, 0), (10, 10), (0, 10)]]
           (ConfigRef.inset0_config 0)] :=
  ⟨by decide, rfl, rfl,
    ((processInsets_order sampleSettings (0, twoPartMesh) (samplePart 0) 0).1 (by decide)
      rfl).1, rfl⟩

/-! ## Bounds of the accesses to `storageContainer` -/

theorem addPart_in_bounds (layer : SliceLayer) (index : Nat) (part : SliceLayerPart)
    (storageContainer : List (List SliceLayer)) (h : index ≤ storageContainer.length) :
    ∃ grown, stackLayerParts2.addPart layer index part storageContainer = some grown ∧
      grown.length = (if index = storageContainer.length then storageContainer.length + 1
        else storageContainer.length) ∧
      index < grown.length := by
  unfold stackLayerParts2.addPart
  by_cases he : index = storageContainer.length
  · simp only [he, if_true]
    have hlt : storageContainer.length < (storageContainer ++ [[]]).length := by simp
    rw [List.getElem?_eq_getElem hlt]
    exact ⟨_, rfl, by simp, by simp⟩
  · simp only [he, if_false]
    have hlt : index < storageContainer.length := by omega
    rw [List.getElem?_eq_getElem hlt]
    exact ⟨_, rfl, by simp, by simpa using hlt⟩

theorem addPart_out_of_bounds (layer : SliceLayer) (index : Nat) (part : SliceLayerPart)
    (storageContainer : List (List SliceLayer)) (h : storageContainer.length < index) :
    stackLayerParts2.addPart layer index part storageContainer = none := by
  unfold stackLayerParts2.addPart
  have he : ¬ index = storageContainer.length := by omega
  simp only [he, if_false]
  rw [List.getElem?_eq_none_iff.mpr (by omega)]

theorem addParts_in_bounds (layer : SliceLayer) (parts : List SliceLayerPart) :
    ∀ (index : Nat) (storageContainer : List (List SliceLayer)),
      index ≤ storageContainer.length →
      ∃ grown, stackLayerParts2.addParts layer index parts storageContainer = some grown ∧
        grown.length = max storageContainer.length (index + parts.length) := by
  induction parts with
  | nil =>
    intro index storageContainer h
    exact ⟨storageContainer, rfl, by simp; omega⟩
  | cons part rest ih =>
    intro index storageContainer h
    obtain ⟨grown, hgrown, hlen, hlt⟩ := addPart_in_bounds layer index part storageContainer h
    obtain ⟨grown2, hgrown2, hlen2⟩ := ih (index + 1) grown (by omega)
    refine ⟨grown2, ?_, ?_⟩
    · simp only [stackLayerParts2.addParts, hgrown, Option.some_bind, hgrown2]
    · rw [hlen2, hlen, List.length_cons]
      split <;> omega

theorem fillContainer_in_bounds (layers : List SliceLayer) :
    ∀ storageContainer : List (List SliceLayer),
      ∃ grown, stackLayerParts2.fillContainer layers storageContainer = some grown ∧
        storageContainer.length ≤ grown.length := by
  induction layers with
  | nil => intro storageContainer; exact ⟨storageContainer, rfl, le_refl _⟩
  | cons layer rest ih =>
    intro storageContainer
    obtain ⟨grown, hgrown, hlen⟩ := addParts_in_bounds layer layer.parts 0 storageContainer
      (Nat.zero_le _)
    obtain ⟨grown2, hgrown2, hlen2⟩ := ih grown
    refine ⟨grown2, ?_, by omega⟩
    simp only [stackLayerParts2.fillContainer, hgrown, Option.some_bind, hgrown2]

/-- C22: in `stackLayerParts2` every access `storageContainer[index]` is in bounds.  A part
at position `index` is handled with `index ≤` the number of buckets; a bucket is appended
exactly when `index` equals that number, the access then finds `index <` the number of
buckets, and the next part finds `index + 1 ≤` that number.  So the part loop, the layer loop
(from any bucket list, for any part counts) and the whole rewriter never make an out-of-range
access, which an `index` above the number of buckets would be. -/
theorem stackLayerParts2_access_in_bounds :
    (∀ (layer : SliceLayer) (index : Nat) (part : SliceLayerPart)
        (storageContainer : List (List SliceLayer)), index ≤ storageContainer.length →
      ∃ grown, stackLayerParts2.addPart layer index part storageContainer = some grown ∧
        grown.length = (if index = storageContainer.length then storageContainer.length + 1
          else storageContainer.length) ∧
        index < grown.length ∧ index + 1 ≤ grown.length) ∧
    (∀ (layer : SliceLayer) (index : Nat) (part : SliceLayerPart)
        (storageContainer : List (List SliceLayer)), storageContainer.length < index →
      stackLayerParts2.addPart layer index part storageContainer = none) ∧
    (∀ (layer : SliceLayer) (storageContainer : List (List SliceLayer)),
      ∃ grown, stackLayerParts2.addParts layer 0 layer.parts storageContainer = some grown ∧
        grown.length = max storageContainer.length layer.parts.length) ∧
    (∀ (layers : List SliceLayer) (storageContainer : List (List SliceLayer)),
      ∃ grown, stackLayerParts2.fillContainer layers storageContainer = some grown) ∧
    (∀ storage : SliceDataStorage, ∃ storage2, stackLayerParts2 storage = some storage2) := by
  refine ⟨?_, addPart_out_of_bounds, ?_, ?_, ?_⟩
  · intro layer index part storageContainer h
    obtain ⟨grown, h1, h2, h3⟩ := addPart_in_bounds layer index part storageContainer h
    exact ⟨grown, h1, h2, h3, h3⟩
  · intro layer storageContainer
    obtain ⟨grown, h1, h2⟩ := addParts_in_bounds layer layer.parts 0 storageContainer
      (Nat.zero_le _)
    exact ⟨grown, h1, by rw [h2, Nat.zero_add]⟩
  · intro layers storageContainer
    obtain ⟨grown, h1, _⟩ := fillContainer_in_bounds layers storageContainer
    exact ⟨grown, h1⟩
  · intro storage
    obtain ⟨areas, h⟩ := meshLoop_meshes storage.meshes [] storage.support.supportAreasPerLayer
    exact ⟨_, by rw [stackLayerParts2, h]; rfl⟩

theorem stackLayerParts2_access_in_bounds_witness :
    twoMeshStorage.meshes.map (fun mesh => mesh.layers.map fun layer => layer.parts.length)
      = [[1, 2], [1]] ∧
    (∃ storage2, stackLayerParts2 twoMeshStorage = some storage2) ∧
    (∃ grown, stackLayerParts2.addPart (sampleLayer [0, 20]) 1 (samplePart 20)
        [[sampleLayer [0]]] = some grown ∧
      grown.length = (if 1 = [[sampleLayer [0]]].length then [[sampleLayer [0]]].length + 1
        else [[sampleLayer [0]]].length) ∧
      1 < grown.length ∧ 1 + 1 ≤ grown.length) :=
  ⟨rfl, stackLayerParts2_access_in_bounds.2.2.2.2 twoMeshStorage,
    stackLayerParts2_access_in_bounds.1 (sampleLayer [0, 20]) 1 (samplePart 20)
      [[sampleLayer [0]]] (by decide)⟩

/-! ## The interpolation branch of the fan speed -/

end cura
